import Mathlib

/-!
# Telegram Desktop, `platform/win/specific_win.cpp`

A shallow embedding of the shell-integration routines of `specific_win.cpp`
(`_psOpenRegKey`, `_psSetKeyValue`, `Platform::RegisterCustomScheme`,
`Platform::GetPermissionStatus`, `psDoFixPrevious`, `_manageAppLnk`) over an
explicit model of the operating-system state they talk to.
`psDesktopRect` is embedded with its two cache variables as an explicit state.

The operating system is a `World`: the registry, the link files of the file
system, the shell folders, a fault plan, the trace of API calls issued so far and
the application log.  Every API call whose outcome the program or the state can
depend on takes the next entry of the fault plan: `0` lets the call behave
normally on the current state, any other number makes the call fail with that
code and leave the state untouched.  An exhausted fault plan injects nothing.

Strings are lists of 16-bit code units and registry data are lists of bytes, so
that terminators, buffer sizes and the `(BYTE*)` views of the code are explicit.
An `HRESULT` is an integer, negative on failure.  A registry handle is
identified with the key it was opened on.  Left out of the model: access masks
and the sub-key structure of the registry, the case-insensitivity of key paths,
the lines written with `DEBUG_LOG`, the system error text that `FormatMessage`
adds to a log line, and the `MAX_PATH` size of the folder buffers.
`RegisterCustomScheme` is taken as built without
`TDESKTOP_DISABLE_REGISTER_CUSTOM_SCHEME`.

For `psDesktopRect` the clock reading of `crl::now()` is an argument, the window
system is a `Screen` (what the three calls of the function answer), and the
signed 64-bit and 32-bit sums and differences of the code take the wrapped
value the target machines compute.  Left out: the main window passed to the
calls, and the internal corner representation of a `QRect`.
-/

set_option autoImplicit false

namespace SpecificWin

/-! ## Strings and buffers -/

/-- A wide string: the UTF-16 code units of a `QString` or of a `WCHAR` array,
terminator excluded. -/
abbrev WStr := List Nat

/-- The code units of a `qsl("...")` or `L"..."` literal. -/
def qsl (s : String) : WStr := s.toList.map Char.toNat

/-- The C string held by a `WCHAR` buffer: the units before the first NUL
(`c_str()`, `QString::fromStdWString`, `QString::fromWCharArray`). -/
def cstr (buf : WStr) : WStr := buf.takeWhile (fun c => decide (c ≠ 0))

/-- The function `wcslen` on a `WCHAR` buffer. -/
def wcslen (buf : WStr) : Nat := (cstr buf).length

/-- Little-endian bytes of a sequence of 16-bit units (the `(BYTE*)` view of a
`WCHAR` array). -/
def bytesOfWcs : WStr → List Nat
  | [] => []
  | c :: rest => (c % 256) :: (c / 256 % 256) :: bytesOfWcs rest

/-- The wide C string found at the start of a byte buffer reinterpreted as
`WCHAR`s: units are read pairwise up to the first NUL unit (or the end of the
buffer). -/
def wcsOfBytes : List Nat → WStr
  | lo :: hi :: rest =>
    if lo % 256 + 256 * (hi % 256) = 0 then [] else (lo % 256 + 256 * (hi % 256)) :: wcsOfBytes rest
  | _ => []

/-- A caller buffer after an API stored `data` at its start. -/
def fillBuffer (buf data : List Nat) : List Nat := data ++ buf.drop data.length

/-- The function `QDir::toNativeSeparators` on Windows: every `/` becomes `\`. -/
def toNativeSeparators (s : WStr) : WStr := s.map (fun c => if c = 47 then 92 else c)

/-- The call `QString::replace(QChar('%'), qsl("%%"))`. -/
def escapePercent : WStr → WStr
  | [] => []
  | c :: rest => if c = 37 then 37 :: 37 :: escapePercent rest else c :: escapePercent rest

/-- The formatting loop of `wsprintfW` called with a format and no further
argument, with room for `room` more output characters.  An ordinary character
is copied, `%%` yields one `%`; any other conversion specification would read
an argument that was never passed (undefined behaviour): `none`. -/
def wsprintfLoop : Nat → WStr → Option WStr
  | 0, _ => some []
  | _, [] => some []
  | room + 1, c :: rest =>
    if c ≠ 37 then (wsprintfLoop room rest).map (fun out => c :: out)
    else match rest with
      | 37 :: rest2 => (wsprintfLoop room rest2).map (fun out => 37 :: out)
      | _ => none

/-- Output limit of `wsprintfW`: the Win32 documentation gives the output
buffer a maximum size of 1,024, so at most 1023 characters precede the
terminator. -/
def WSPRINTF_LIMIT : Nat := 1024

/-- The call `wsprintfW(out, fmt)` without arguments: the characters stored before the
terminator. -/
def wsprintfW (fmt : WStr) : Option WStr := wsprintfLoop (WSPRINTF_LIMIT - 1) fmt

/-! ## Operating-system state -/

/-- Predefined registry roots used by the file. -/
inductive Hive where
  | HKCU
  | HKLM
  deriving DecidableEq, Repr

/-- An open registry handle, identified with the key it was opened on. -/
structure HKey where
  hive : Hive
  path : String
  deriving DecidableEq, Repr

/-- A registry value: its type tag and its raw bytes. -/
structure RegValue where
  type : Nat
  data : List Nat
  deriving DecidableEq, Repr

/-- The values of one key, by name; `none` names the default (unnamed) value. -/
abbrev KeyValues := Option String → Option RegValue

/-- The registry: which keys exist, and their values.  Key paths are compared
literally; sub-key structure and access rights are not modelled. -/
abbrev Registry := Hive → String → Option KeyValues

/-- The state of an `IShellLink` object, and the content of a saved `.lnk` file. -/
structure ShellLink where
  arguments : Option WStr
  path : Option WStr
  workingDirectory : Option WStr
  description : Option WStr
  appUserModelId : Option WStr
  committed : Bool
  deriving DecidableEq, Repr

/-- API calls recorded in the trace, with the status each returned. -/
inductive Call where
  | RegOpenKeyEx (hive : Hive) (key : String) (status : Nat)
  | RegCreateKeyEx (hive : Hive) (key : String) (status : Nat)
  | RegQueryValueEx (hkey : HKey) (name : Option String) (status : Nat)
  | RegSetValueEx (hkey : HKey) (name : Option String) (type : Nat) (data : List Nat) (status : Nat)
  | RegDeleteKey (hive : Hive) (key : String) (status : Nat)
  | RegCloseKey (hkey : HKey)
  | SHGetFolderPath (csidl : Nat) (hr : Int)
  | CoCreateInstance (hr : Int)
  | SetArguments (hr : Int)
  | SetPath (hr : Int)
  | SetWorkingDirectory (hr : Int)
  | SetDescription (hr : Int)
  | QueryPropertyStore (hr : Int)
  | InitPropVariantFromString (hr : Int)
  | SetValue (hr : Int)
  | PropVariantClear
  | Commit (hr : Int)
  | QueryPersistFile (hr : Int)
  | Save (file : WStr) (hr : Int)
  | QFileRemove (file : WStr) (removed : Bool)
  deriving DecidableEq, Repr

/-- One line handed to `LOG`: the message with its key or value name filled
in, and the numeric code substituted for the remaining placeholder.  The
system error text produced by `FormatMessage` is left out. -/
structure LogEntry where
  text : String
  code : Int
  deriving DecidableEq, Repr

/-- The operating-system state together with the fault plan, the call trace
and the application log. -/
structure World where
  reg : Registry
  files : WStr → Option ShellLink
  folders : Nat → WStr
  faults : List Nat
  trace : List Call
  log : List LogEntry

/-- Win32 status and type codes, and the shell folder identifiers used. -/
def ERROR_SUCCESS : Nat := 0
def ERROR_FILE_NOT_FOUND : Nat := 2
def ERROR_INVALID_HANDLE : Nat := 6
def ERROR_MORE_DATA : Nat := 234
def REG_SZ : Nat := 1
def REG_BINARY : Nat := 3
def CSIDL_STARTUP : Nat := 7
def CSIDL_SENDTO : Nat := 9
def CSIDL_DESKTOPDIRECTORY : Nat := 16
def CSIDL_COMMON_DESKTOPDIRECTORY : Nat := 25

/-- Entry `i` of the fault plan (`0` beyond its end). -/
def World.faultAt (w : World) (i : Nat) : Nat := w.faults.getD i 0

/-- The next entry of the fault plan (`0` when the plan is exhausted). -/
def World.nextFault (w : World) : Nat := w.faults.headD 0

/-- Takes the next entry of the fault plan. -/
def World.popFault (w : World) : Nat × World := (w.nextFault, { w with faults := w.faults.tail })

/-- The world with its fault plan cleared: no failure is injected from here on. -/
def World.withoutFaults (w : World) : World := { w with faults := [] }

/-- Appends a call to the trace. -/
def World.emit (w : World) (c : Call) : World := { w with trace := w.trace ++ [c] }

/-- Appends a line to the application log (`LOG`). -/
def World.logLine (w : World) (text : String) (code : Int) : World :=
  { w with log := w.log ++ [⟨text, code⟩] }

/-- The registry with the entry of one key replaced. -/
def Registry.setKey (reg : Registry) (hive : Hive) (key : String) (vals : Option KeyValues) :
    Registry :=
  fun h k => if h = hive ∧ k = key then vals else reg h k

/-- The values of a key with one value replaced. -/
def KeyValues.setValue (vals : KeyValues) (name : Option String) (v : RegValue) : KeyValues :=
  fun n => if n = name then some v else vals n

/-- The call `RegOpenKeyEx(hive, key, 0, sam, &handle)`: succeeds on an existing key,
`ERROR_FILE_NOT_FOUND` otherwise.  On success the handle is `⟨hive, key⟩`. -/
def RegOpenKeyEx (hive : Hive) (key : String) (w : World) : Nat × World :=
  let f := w.popFault
  let status :=
    if f.1 ≠ ERROR_SUCCESS then f.1
    else if (f.2.reg hive key).isSome then ERROR_SUCCESS else ERROR_FILE_NOT_FOUND
  (status, f.2.emit (.RegOpenKeyEx hive key status))

/-- The call `RegCreateKeyEx`: opens the key when it exists, otherwise creates it without
values. -/
def RegCreateKeyEx (hive : Hive) (key : String) (w : World) : Nat × World :=
  let f := w.popFault
  if f.1 ≠ ERROR_SUCCESS then (f.1, f.2.emit (.RegCreateKeyEx hive key f.1))
  else if (f.2.reg hive key).isSome then
    (ERROR_SUCCESS, f.2.emit (.RegCreateKeyEx hive key ERROR_SUCCESS))
  else
    (ERROR_SUCCESS,
      { f.2 with reg := f.2.reg.setKey hive key (some (fun _ => none)) }.emit
        (.RegCreateKeyEx hive key ERROR_SUCCESS))

/-- What `RegQueryValueEx` hands back: the status, the value type, the size
written to `*lpcbData`, and the bytes stored at the start of the caller's
buffer (none unless the call succeeded). -/
structure QueryResult where
  status : Nat
  type : Nat
  size : Nat
  data : List Nat
  deriving DecidableEq, Repr

/-- The outcome of `RegQueryValueEx` on a registry, for a buffer of `cb` bytes. -/
def queryValue (reg : Registry) (hkey : HKey) (name : Option String) (cb : Nat) : QueryResult :=
  match reg hkey.hive hkey.path with
  | none => ⟨ERROR_INVALID_HANDLE, 0, cb, []⟩
  | some vals =>
    match vals name with
    | none => ⟨ERROR_FILE_NOT_FOUND, 0, cb, []⟩
    | some v =>
      if cb < v.data.length then ⟨ERROR_MORE_DATA, v.type, v.data.length, []⟩
      else ⟨ERROR_SUCCESS, v.type, v.data.length, v.data⟩

/-- The call `RegQueryValueEx(hkey, name, 0, &type, buffer, &cb)`. -/
def RegQueryValueEx (hkey : HKey) (name : Option String) (cb : Nat) (w : World) :
    QueryResult × World :=
  let f := w.popFault
  let r : QueryResult :=
    if f.1 ≠ ERROR_SUCCESS then ⟨f.1, 0, cb, []⟩ else queryValue f.2.reg hkey name cb
  (r, f.2.emit (.RegQueryValueEx hkey name r.status))

/-- The call `RegSetValueEx(hkey, name, 0, type, data, size)`: fails on a handle whose key
is gone, otherwise stores the value. -/
def RegSetValueEx (hkey : HKey) (name : Option String) (type : Nat) (data : List Nat)
    (w : World) : Nat × World :=
  let f := w.popFault
  if f.1 ≠ ERROR_SUCCESS then (f.1, f.2.emit (.RegSetValueEx hkey name type data f.1))
  else
    match f.2.reg hkey.hive hkey.path with
    | none =>
      (ERROR_INVALID_HANDLE, f.2.emit (.RegSetValueEx hkey name type data ERROR_INVALID_HANDLE))
    | some vals =>
      (ERROR_SUCCESS,
        { f.2 with
          reg := f.2.reg.setKey hkey.hive hkey.path (some (vals.setValue name ⟨type, data⟩)) }.emit
          (.RegSetValueEx hkey name type data ERROR_SUCCESS))

/-- The call `RegDeleteKey(hive, key)`. -/
def RegDeleteKey (hive : Hive) (key : String) (w : World) : Nat × World :=
  let f := w.popFault
  if f.1 ≠ ERROR_SUCCESS then (f.1, f.2.emit (.RegDeleteKey hive key f.1))
  else if (f.2.reg hive key).isSome then
    (ERROR_SUCCESS,
      { f.2 with reg := f.2.reg.setKey hive key none }.emit (.RegDeleteKey hive key ERROR_SUCCESS))
  else (ERROR_FILE_NOT_FOUND, f.2.emit (.RegDeleteKey hive key ERROR_FILE_NOT_FOUND))

/-- The call `RegCloseKey(hkey)`. -/
def RegCloseKey (hkey : HKey) (w : World) : World := w.emit (.RegCloseKey hkey)

/-! ## Process-wide configuration -/

/-- The configuration the routines read: `cExeDir()`, `cExeName()`,
`cWorkingDir()`, the constants `AppFile` and `AppId`,
`AppUserModelId::getId()`, and `QDir(dir).absolutePath()`. -/
structure Config where
  cExeDir : WStr
  cExeName : WStr
  cWorkingDir : WStr
  AppFile : WStr
  AppId : String
  appUserModelId : WStr
  absolutePath : WStr → WStr

/-! ## `_psOpenRegKey`, `_psSetKeyValue`, `RegisterCustomScheme` -/

/-- The function `_psLogError(str, code)`: one `LOG` line carrying the status. -/
def _psLogError (text : String) (code : Nat) (w : World) : World := w.logLine text code

/-- The function `_psOpenRegKey(key, &rkey)`: the result, the handle variable afterwards, the
world afterwards. -/
def _psOpenRegKey (key : String) (rkey : HKey) (w : World) : Bool × HKey × World :=
  let o := RegOpenKeyEx .HKCU key w
  if o.1 ≠ ERROR_SUCCESS then
    if o.1 = ERROR_FILE_NOT_FOUND then
      let c := RegCreateKeyEx .HKCU key o.2
      if c.1 ≠ ERROR_SUCCESS then
        (false, rkey,
          _psLogError ("App Error: could not create '" ++ key ++ "' registry key, error %1: %2")
            c.1 c.2)
      else (true, ⟨.HKCU, key⟩, c.2)
    else
      (false, rkey,
        _psLogError ("App Error: could not open '" ++ key ++ "' registry key, error %1: %2")
          o.1 o.2)
  else (true, ⟨.HKCU, key⟩, o.2)

/-- The constant `bufSize` of `_psSetKeyValue` and `psDoFixPrevious`, in `WCHAR`s. -/
def bufSize : Nat := 4096

/-- The test of `_psSetKeyValue` that lets it skip the write: the query
succeeded, the type is `REG_SZ`, the size is that of `v` with its terminator,
and the string read from the zero-initialised buffer equals `v`. -/
def storedEquals (q : QueryResult) (v : WStr) : Bool :=
  decide (q.status = ERROR_SUCCESS) && decide (q.type = REG_SZ)
    && decide (q.size = (v.length + 1) * 2)
    && decide (wcsOfBytes (fillBuffer (List.replicate (bufSize * 2) 0) q.data) = v)

/-- The buffer `tmp` of `_psSetKeyValue` after the formatting step; `none` when
`wsprintf` meets a conversion specification. -/
def formatTmp (v : WStr) : Option WStr :=
  if v.isEmpty then some (List.replicate bufSize 0)
  else (wsprintfW (cstr (escapePercent v))).map
    (fun out => fillBuffer (List.replicate bufSize 0) (out ++ [0]))

/-- The message `_psSetKeyValue` logs for a failed write; the unnamed value is
shown as `(Default)`. -/
def setErrorText (value : Option String) : String :=
  "App Error: could not set "
    ++ (match value with
        | some n => "'" ++ n ++ "'"
        | none => "(Default)")
    ++ ", error %1: %2"

/-- The function `_psSetKeyValue(rkey, value, v)`.  The branch for a format that
`wsprintf` cannot process is never taken (`formatTmp_isSome`). -/
def _psSetKeyValue (rkey : HKey) (value : Option String) (v : WStr) (w : World) : Bool × World :=
  let q := RegQueryValueEx rkey value (bufSize * 2) w
  if storedEquals q.1 v then (true, q.2)
  else
    match formatTmp v with
    | none => (false, q.2)
    | some tmp =>
      let s := RegSetValueEx rkey value REG_SZ (bytesOfWcs (tmp.take (wcslen tmp + 1))) q.2
      if s.1 ≠ ERROR_SUCCESS then
        (false, _psLogError (setErrorText value) s.1 s.2)
      else (true, s.2)

/-- One line of `RegisterCustomScheme`. -/
inductive RegOp where
  | openKey (key : String)
  | setValue (value : Option String) (v : WStr)
  deriving DecidableEq, Repr

/-- The state of a run of `RegisterCustomScheme`: whether every line so far
returned true, the local `rkey`, and the world. -/
structure Run where
  ok : Bool
  rkey : HKey
  world : World

/-- Executes one line. -/
def execOp (op : RegOp) (rkey : HKey) (w : World) : Run :=
  match op with
  | .openKey key =>
    let r := _psOpenRegKey key rkey w
    ⟨r.1, r.2.1, r.2.2⟩
  | .setValue value v =>
    let r := _psSetKeyValue rkey value v w
    ⟨r.1, rkey, r.2⟩

/-- Executes the lines in order; a line that returns false ends the function
(`if (!...) return;`). -/
def runOps : List RegOp → HKey → World → Run
  | [], rkey, w => ⟨true, rkey, w⟩
  | op :: rest, rkey, w =>
    let r := execOp op rkey w
    if r.ok then runOps rest r.rkey r.world else r

/-- The command line stored as the open command. -/
def openCommand (cfg : Config) : WStr :=
  34 :: toNativeSeparators (cfg.cExeDir ++ cfg.cExeName) ++ qsl "\" -workdir \""
    ++ cfg.cWorkingDir ++ qsl "\" -- \"%1\""

/-- The icon reference stored under `DefaultIcon`. -/
def defaultIcon (cfg : Config) : WStr :=
  34 :: toNativeSeparators (cfg.cExeDir ++ cfg.cExeName) ++ qsl ",1\""

/-- The lines of `RegisterCustomScheme`, in source order. -/
def schemeOps (cfg : Config) : List RegOp :=
  [ .openKey "Software\\Classes\\tg",
    .setValue (some "URL Protocol") [],
    .setValue none (qsl "URL:Telegram Link"),
    .openKey "Software\\Classes\\tg\\DefaultIcon",
    .setValue none (defaultIcon cfg),
    .openKey "Software\\Classes\\tg\\shell",
    .openKey "Software\\Classes\\tg\\shell\\open",
    .openKey "Software\\Classes\\tg\\shell\\open\\command",
    .setValue none (openCommand cfg),
    .openKey "Software\\Classes\\tdesktop.tg",
    .openKey "Software\\Classes\\tdesktop.tg\\DefaultIcon",
    .setValue none (defaultIcon cfg),
    .openKey "Software\\Classes\\tdesktop.tg\\shell",
    .openKey "Software\\Classes\\tdesktop.tg\\shell\\open",
    .openKey "Software\\Classes\\tdesktop.tg\\shell\\open\\command",
    .setValue none (openCommand cfg),
    .openKey "Software\\TelegramDesktop",
    .openKey "Software\\TelegramDesktop\\Capabilities",
    .setValue (some "ApplicationName") (qsl "Telegram Desktop"),
    .setValue (some "ApplicationDescription") (qsl "Telegram Desktop"),
    .openKey "Software\\TelegramDesktop\\Capabilities\\UrlAssociations",
    .setValue (some "tg") (qsl "tdesktop.tg"),
    .openKey "Software\\RegisteredApplications",
    .setValue (some "Telegram Desktop") (qsl "SOFTWARE\\TelegramDesktop\\Capabilities") ]

/-- The function `Platform::RegisterCustomScheme()`; `rkey0` is the indeterminate initial
value of the local `rkey`. -/
def RegisterCustomScheme (cfg : Config) (rkey0 : HKey) (w : World) : Run :=
  if cfg.cExeName.isEmpty then ⟨true, rkey0, w⟩ else runOps (schemeOps cfg) rkey0 w

/-! ## `GetPermissionStatus` -/

/-- The capability kinds of `PermissionType`; the enumeration is declared in a
header outside this file, `Other` stands for every enumerator but `Microphone`. -/
inductive PermissionType where
  | Microphone
  | Other (tag : Nat)
  deriving DecidableEq, Repr

/-- Modelled from the spec: the `PermissionStatus` enumeration is declared in a
header outside this file; the spec names its values Granted, Denied and
Undetermined. -/
inductive PermissionStatus where
  | Granted
  | Denied
  | Undetermined
  deriving DecidableEq, Repr

/-- The consent record of the microphone. -/
def consentKey : String :=
  "Software\\Microsoft\\Windows\\CurrentVersion\\CapabilityAccessManager\\ConsentStore\\microphone"

/-- The function `Platform::GetPermissionStatus(type)`.  `buf0` is the indeterminate initial
content (40 bytes) of the local `wchar_t buf[20]`; `wcscmp(buf, L"Deny") == 0`
holds when the wide C string at the start of the buffer is `Deny`. -/
def GetPermissionStatus (type : PermissionType) (buf0 : List Nat) (w : World) :
    PermissionStatus × World :=
  if type = .Microphone then
    let o := RegOpenKeyEx .HKCU consentKey w
    if o.1 = ERROR_SUCCESS then
      let q := RegQueryValueEx ⟨.HKCU, consentKey⟩ (some "Value") 40 o.2
      let result :=
        if q.1.status = ERROR_SUCCESS then
          if wcsOfBytes (fillBuffer buf0 q.1.data) = qsl "Deny" then PermissionStatus.Denied
          else PermissionStatus.Granted
        else PermissionStatus.Granted
      (result, RegCloseKey ⟨.HKCU, consentKey⟩ q.2)
    else (.Granted, o.2)
  else (.Granted, w)

/-! ## Shell and file-system calls -/

/-- The test `SUCCEEDED(hr)`: the result is not negative. -/
def SUCCEEDED (hr : Int) : Bool := decide (0 ≤ hr)

/-- The `HRESULT` of a call that takes the fault `f`: `S_OK` for `0`, a failure
code otherwise. -/
def hresultOf (f : Nat) : Int := -(f : Int)

/-- The call `SHGetFolderPath(0, csidl, 0, SHGFP_TYPE_CURRENT, buffer)`: the `HRESULT`,
the buffer content, the world. -/
def SHGetFolderPath (csidl : Nat) (w : World) : Int × WStr × World :=
  let f := w.popFault
  (hresultOf f.1, (if f.1 = 0 then f.2.folders csidl else []),
    f.2.emit (.SHGetFolderPath csidl (hresultOf f.1)))

/-- The call `QFile::exists(name)`: an empty name never exists. -/
def QFile_exists (name : WStr) (w : World) : Bool := !name.isEmpty && (w.files name).isSome

/-- The call `QFile::remove(name)`: removes an existing file. -/
def QFile_remove (name : WStr) (w : World) : Bool × World :=
  let f := w.popFault
  if f.1 = 0 ∧ QFile_exists name f.2 = true then
    (true,
      { f.2 with files := fun n => if n = name then none else f.2.files n }.emit
        (.QFileRemove name true))
  else (false, f.2.emit (.QFileRemove name false))

/-- A call on a COM object that only reports an `HRESULT`. -/
def comCall (c : Int → Call) (w : World) : Int × World :=
  let f := w.popFault
  (hresultOf f.1, f.2.emit (c (hresultOf f.1)))

/-- A setter of the shell link: the field is updated when the call succeeds. -/
def comSet (c : Int → Call) (upd : ShellLink → ShellLink) (l : ShellLink) (w : World) :
    Int × ShellLink × World :=
  let r := comCall c w
  (r.1, (if SUCCEEDED r.1 then upd l else l), r.2)

/-- A freshly created shell link. -/
def ShellLink.fresh : ShellLink := ⟨none, none, none, none, none, false⟩

/-- The call `persistFile->Save(file, TRUE)`: writes the link to the file. -/
def Save (file : WStr) (l : ShellLink) (w : World) : Int × World :=
  let f := w.popFault
  if f.1 = 0 then
    (0, { f.2 with files := fun n => if n = file then some l else f.2.files n }.emit
          (.Save file 0))
  else (hresultOf f.1, f.2.emit (.Save file (hresultOf f.1)))

/-! ## `psDoFixPrevious`, `psFixPrevious` -/

/-- One of the four `exist...` flags: the key was opened and its `InstallDate`
value could be read into the 8192-byte buffer (the query is only issued when
the open succeeded). -/
def probeInstallDate (hive : Hive) (key : String) (openStatus : Nat) (w : World) : Bool × World :=
  if openStatus = ERROR_SUCCESS then
    let q := RegQueryValueEx ⟨hive, key⟩ (some "InstallDate") (bufSize * 2) w
    (decide (q.1.status = ERROR_SUCCESS), q.2)
  else (false, w)

/-- The statement `if (res == ERROR_SUCCESS) RegCloseKey(key);`. -/
def closeIfOpened (hive : Hive) (key : String) (openStatus : Nat) (w : World) : World :=
  if openStatus = ERROR_SUCCESS then RegCloseKey ⟨hive, key⟩ w else w

/-- The four uninstall keys of `psDoFixPrevious`, `%1` replaced by `AppId`. -/
def newKeyStr1 (cfg : Config) : String :=
  "Software\\Wow6432Node\\Microsoft\\Windows\\CurrentVersion\\Uninstall\\" ++ cfg.AppId ++ "_is1"

def newKeyStr2 (cfg : Config) : String :=
  "Software\\Microsoft\\Windows\\CurrentVersion\\Uninstall\\" ++ cfg.AppId ++ "_is1"

def oldKeyStr1 (cfg : Config) : String :=
  "SOFTWARE\\Wow6432Node\\Microsoft\\Windows\\CurrentVersion\\Uninstall\\" ++ cfg.AppId ++ "_is1"

def oldKeyStr2 (cfg : Config) : String :=
  "SOFTWARE\\Microsoft\\Windows\\CurrentVersion\\Uninstall\\" ++ cfg.AppId ++ "_is1"

/-- The desktop shortcut path built from the result of `SHGetFolderPath`; empty
when the folder could not be resolved. -/
def desktopLnk (r : Int × WStr × World) : WStr :=
  if SUCCEEDED r.1 then cstr r.2.1 ++ qsl "\\Telegram.lnk" else []

/-- The four flags `existNew1`, `existNew2`, `existOld1`, `existOld2`. -/
structure ExistFlags where
  existNew1 : Bool
  existNew2 : Bool
  existOld1 : Bool
  existOld2 : Bool
  deriving DecidableEq, Repr

/-- First part of `psDoFixPrevious` (the four `RegOpenKeyEx`, the four flags, the
four conditional `RegCloseKey`). -/
def probeUninstallRecords (cfg : Config) (w : World) : ExistFlags × World :=
  let n1 := RegOpenKeyEx .HKCU (newKeyStr1 cfg) w
  let n2 := RegOpenKeyEx .HKCU (newKeyStr2 cfg) n1.2
  let o1 := RegOpenKeyEx .HKLM (oldKeyStr1 cfg) n2.2
  let o2 := RegOpenKeyEx .HKLM (oldKeyStr2 cfg) o1.2
  let existNew1 := probeInstallDate .HKCU (newKeyStr1 cfg) n1.1 o2.2
  let existNew2 := probeInstallDate .HKCU (newKeyStr2 cfg) n2.1 existNew1.2
  let existOld1 := probeInstallDate .HKLM (oldKeyStr1 cfg) o1.1 existNew2.2
  let existOld2 := probeInstallDate .HKLM (oldKeyStr2 cfg) o2.1 existOld1.2
  let c1 := closeIfOpened .HKCU (newKeyStr1 cfg) n1.1 existOld2.2
  let c2 := closeIfOpened .HKCU (newKeyStr2 cfg) n2.1 c1
  let c3 := closeIfOpened .HKLM (oldKeyStr1 cfg) o1.1 c2
  let c4 := closeIfOpened .HKLM (oldKeyStr2 cfg) o2.1 c3
  (⟨existNew1.1, existNew2.1, existOld1.1, existOld2.1⟩, c4)

/-- Second part of `psDoFixPrevious`: `if (existNew1 || existNew2)` with the two
conditional `RegDeleteKey`. -/
def deleteOldRecords (cfg : Config) (e : ExistFlags) (w : World) : World :=
  if e.existNew1 || e.existNew2 then
    let d1 := if e.existOld1 then (RegDeleteKey .HKLM (oldKeyStr1 cfg) w).2 else w
    if e.existOld2 then (RegDeleteKey .HKLM (oldKeyStr2 cfg) d1).2 else d1
  else w

/-- Third part of `psDoFixPrevious`: the two desktop folders and the removal of
the common shortcut. -/
def removeCommonShortcut (w : World) : World :=
  let u := SHGetFolderPath CSIDL_DESKTOPDIRECTORY w
  let c := SHGetFolderPath CSIDL_COMMON_DESKTOPDIRECTORY u.2.2
  let userDesktopLnk := desktopLnk u
  let commonDesktopLnk := desktopLnk c
  if QFile_exists userDesktopLnk c.2.2 && QFile_exists commonDesktopLnk c.2.2
      && decide (userDesktopLnk ≠ commonDesktopLnk) then
    (QFile_remove commonDesktopLnk c.2.2).2
  else c.2.2

/-- The body of `psDoFixPrevious()`, its three parts in order. -/
def psDoFixPrevious (cfg : Config) (w : World) : World :=
  let p := probeUninstallRecords cfg w
  removeCommonShortcut (deleteOldRecords cfg p.1 p.2)

/-- The function `psFixPrevious()`: both exits of the structured-exception wrapper return 0. -/
def psFixPrevious (cfg : Config) (w : World) : Int × World := (0, psDoFixPrevious cfg w)

/-! ## `_manageAppLnk`, `psAutoStart`, `psSendToMenu` -/

/-- The path of the managed link in a resolved folder. -/
def lnkPath (cfg : Config) (folder : WStr) : WStr :=
  cstr folder ++ 92 :: cfg.AppFile ++ qsl ".lnk"

/-- The identity-property block of `_manageAppLnk`: interface query,
`InitPropVariantFromString`, `SetValue` (followed by `PropVariantClear`) and
`Commit`, each attempted only when the one before succeeded. -/
def bindAppId (cfg : Config) (l : ShellLink) (w : World) : ShellLink × World :=
  let ps := comCall .QueryPropertyStore w
  if SUCCEEDED ps.1 then
    let iv := comCall .InitPropVariantFromString ps.2
    if SUCCEEDED iv.1 then
      let sv := comSet .SetValue (fun x => { x with appUserModelId := some cfg.appUserModelId })
        l iv.2
      let cl := sv.2.2.emit .PropVariantClear
      if SUCCEEDED sv.1 then
        let cm := comSet .Commit (fun x => { x with committed := true }) sv.2.1 cl
        (cm.2.1, cm.2.2)
      else (sv.2.1, cl)
    else (l, iv.2)
  else (l, ps.2)

/-- The four setters of `_manageAppLnk` on the fresh link: `SetArguments`,
`SetPath`, `SetWorkingDirectory`, `SetDescription` (their results are ignored). -/
def fillLink (cfg : Config) (args description : WStr) (w : World) : ShellLink × World :=
  let exe := toNativeSeparators (cfg.cExeDir ++ cfg.cExeName)
  let dir := toNativeSeparators (cfg.absolutePath cfg.cWorkingDir)
  let s1 := comSet .SetArguments (fun x => { x with arguments := some args }) ShellLink.fresh w
  let s2 := comSet .SetPath (fun x => { x with path := some (cstr exe) }) s1.2.1 s1.2.2
  let s3 := comSet .SetWorkingDirectory
    (fun x => { x with workingDirectory := some (cstr dir) }) s2.2.1 s2.2.2
  let s4 := comSet .SetDescription (fun x => { x with description := some description })
    s3.2.1 s3.2.2
  (s4.2.1, s4.2.2)

/-- The persist stage of `_manageAppLnk`: `shellLink.As(&persistFile)`, then
`Save` or the log line. -/
def persistLink (silent : Bool) (lnk : WStr) (l : ShellLink) (w : World) : World :=
  let pf := comCall .QueryPersistFile w
  if SUCCEEDED pf.1 then (Save (cstr lnk) l pf.2).2
  else if !silent then
    pf.2.logLine "App Error: could not create interface IID_IPersistFile %1" pf.1
  else pf.2

/-- The `if (create)` branch of `_manageAppLnk`. -/
def createLink (cfg : Config) (silent : Bool) (lnk args description : WStr) (w : World) : World :=
  let cc := comCall .CoCreateInstance w
  if SUCCEEDED cc.1 then
    let s := fillLink cfg args description cc.2
    let b := bindAppId cfg s.1 s.2
    persistLink silent lnk b.1 b.2
  else if !silent then
    cc.2.logLine "App Error: could not create instance of IID_IShellLink %1" cc.1
  else cc.2

/-- The function `_manageAppLnk(create, silent, path_csidl, args, description)`. -/
def _manageAppLnk (cfg : Config) (create silent : Bool) (path_csidl : Nat)
    (args description : WStr) (w : World) : World :=
  if cfg.cExeName.isEmpty then w
  else
    let f := SHGetFolderPath path_csidl w
    if SUCCEEDED f.1 then
      let lnk := lnkPath cfg f.2.1
      if create then createLink cfg silent lnk args description f.2.2
      else (QFile_remove lnk f.2.2).2
    else if !silent then
      f.2.2.logLine
        ("App Error: could not get CSIDL " ++ toString path_csidl ++ " folder %2") f.1
    else f.2.2

/-- The function `psAutoStart(start, silent)`. -/
def psAutoStart (cfg : Config) (start silent : Bool) (w : World) : World :=
  _manageAppLnk cfg start silent CSIDL_STARTUP (qsl "-autostart")
    (qsl "Telegram autorun link.\nYou can disable autorun in Telegram settings.") w

/-- The function `psSendToMenu(send, silent)`. -/
def psSendToMenu (cfg : Config) (send silent : Bool) (w : World) : World :=
  _manageAppLnk cfg send silent CSIDL_SENDTO (qsl "-sendpath")
    (qsl "Telegram send to link.\nYou can disable send to menu item in Telegram settings.") w

/-! ## `psDesktopRect` -/

/-- Largest value of a signed 64-bit integer. -/
def INT64_MAX : Int := 9223372036854775807

/-- Least value of a signed 64-bit integer. -/
def INT64_MIN : Int := -9223372036854775808

/-- The value a signed 64-bit register holds for the arithmetic result `x`
(two's complement, as on the x86 and x64 targets of this file). -/
def wrapInt64 (x : Int) : Int :=
  (x + 9223372036854775808) % 18446744073709551616 - 9223372036854775808

/-- The value a signed 32-bit register holds for the arithmetic result `x`. -/
def wrapInt32 (x : Int) : Int := (x + 2147483648) % 4294967296 - 2147483648

/-- The type `crl::time`: a count of milliseconds held in a signed 64-bit
integer.  A value `t` of the type satisfies `INT64_MIN ≤ t ≤ INT64_MAX`. -/
abbrev crl.time : Type := Int

/-- A monitor handle other than the null handle. -/
abbrev HMONITOR : Type := Nat

/-- The Win32 `RECT`, its fields of type `LONG`. -/
structure RECT where
  left : Int
  top : Int
  right : Int
  bottom : Int
  deriving DecidableEq, Repr

/-- A `QRect`, given by the arguments `QRect(x, y, width, height)` constructs
it from. -/
structure QRect where
  x : Int
  y : Int
  width : Int
  height : Int
  deriving DecidableEq, Repr

/-- The default-constructed `QRect()`, a null rectangle. -/
def QRect.null : QRect := ⟨0, 0, 0, 0⟩

/-- What the window system answers about the main window while one call of
`psDesktopRect` runs. -/
structure Screen where
  /-- Handle `MonitorFromWindow` returns, `none` for the null handle. -/
  monitorFromWindow : Option HMONITOR
  /-- Work area `GetMonitorInfo` stores for a monitor, `none` when the call
  fails and stores nothing. -/
  getMonitorInfo : HMONITOR → Option RECT
  /-- Result of `QApplication::desktop()->availableGeometry`. -/
  availableGeometry : QRect

/-- The calls `psDesktopRect` makes to the window system. -/
inductive MonitorCall where
  | MonitorFromWindow
  | GetMonitorInfo (hMonitor : HMONITOR)
  | availableGeometry
  deriving DecidableEq, Repr

/-- The two variables of the anonymous namespace in front of `psDesktopRect`. -/
structure MonitorCache where
  _monitorRect : QRect
  _monitorLastGot : crl.time
  deriving DecidableEq, Repr

/-- The variables as initialised at program start: `QRect _monitorRect;` and
`crl::time _monitorLastGot = 0;`. -/
def MonitorCache.initial : MonitorCache := ⟨QRect.null, 0⟩

/-- Outcome of one call of `psDesktopRect`: the rectangle returned, the
variables afterwards and the calls made to the window system, in order. -/
structure DesktopRectRun where
  rect : QRect
  cache : MonitorCache
  calls : List MonitorCall
  deriving DecidableEq, Repr

/-- The inner `if (hMonitor) ... else ...` of `psDesktopRect`: the rectangle
stored in `_monitorRect` and the calls made.  The result of `GetMonitorInfo` is
not looked at; `rcWork0` is the indeterminate content of `info.rcWork` before
the call, which stays when the call fails. -/
def queryMonitor (s : Screen) (rcWork0 : RECT) : QRect × List MonitorCall :=
  match s.monitorFromWindow with
  | some hMonitor =>
    let rcWork := (s.getMonitorInfo hMonitor).getD rcWork0
    (⟨rcWork.left, rcWork.top, wrapInt32 (rcWork.right - rcWork.left),
        wrapInt32 (rcWork.bottom - rcWork.top)⟩,
      [.MonitorFromWindow, .GetMonitorInfo hMonitor])
  | none => (s.availableGeometry, [.MonitorFromWindow, .availableGeometry])

/-- `psDesktopRect()`, with the reading `tnow` that `crl::now()` returns. -/
def psDesktopRect (s : Screen) (rcWork0 : RECT) (tnow : crl.time) (st : MonitorCache) :
    DesktopRectRun :=
  if tnow > wrapInt64 (st._monitorLastGot + 1000) ∨ tnow < st._monitorLastGot then
    let q := queryMonitor s rcWork0
    ⟨q.1, ⟨q.1, tnow⟩, q.2⟩
  else ⟨st._monitorRect, st, []⟩

/-! ## Notions used to state the properties -/

/-- Deletions among the API calls: `RegDeleteKey` and `QFile::remove`. -/
def Call.isDeletion : Call → Bool
  | .RegDeleteKey _ _ _ => true
  | .QFileRemove _ _ => true
  | _ => false

/-- Value writes among the API calls: `RegSetValueEx`. -/
def Call.isValueWrite : Call → Bool
  | .RegSetValueEx _ _ _ _ _ => true
  | _ => false

/-- Between two worlds only calls were added to the trace, none of them a
deletion. -/
def World.deletionFree (w w2 : World) : Prop :=
  ∃ calls, w2.trace = w.trace ++ calls ∧ calls.filter Call.isDeletion = []

/-- The calls added to the trace between two worlds. -/
def World.callsSince (w r : World) : List Call := r.trace.drop w.trace.length

/-- The calls one invocation of `_manageAppLnk` issues. -/
def manageAppLnkCalls (cfg : Config) (create silent : Bool) (csidl : Nat)
    (args description : WStr) (w : World) : List Call :=
  w.callsSince (_manageAppLnk cfg create silent csidl args description w)

/-- The line `_manageAppLnk` logs for a call when not silent: one for a failed
folder resolution, a failed object creation and a failed `IPersistFile` query,
none for any other call. -/
def Call.lnkLogLine : Call → Option LogEntry
  | .SHGetFolderPath csidl hr =>
    if hr < 0 then
      some ⟨"App Error: could not get CSIDL " ++ toString csidl ++ " folder %2", hr⟩
    else none
  | .CoCreateInstance hr =>
    if hr < 0 then some ⟨"App Error: could not create instance of IID_IShellLink %1", hr⟩
    else none
  | .QueryPersistFile hr =>
    if hr < 0 then some ⟨"App Error: could not create interface IID_IPersistFile %1", hr⟩
    else none
  | _ => none

/-- Calls of the identity-property block. -/
def Call.isPropertyCall : Call → Bool
  | .QueryPropertyStore _ => true
  | .InitPropVariantFromString _ => true
  | .SetValue _ => true
  | .PropVariantClear => true
  | .Commit _ => true
  | _ => false

/-- The registry holds `v` as value `name` of the key `k`, in the sense of the
test of `_psSetKeyValue`: a `REG_SZ` value of the size of `v` with its
terminator whose string is `v`. -/
def holdsValue (reg : Registry) (k : HKey) (name : Option String) (v : WStr) : Bool :=
  storedEquals (queryValue reg k name (bufSize * 2)) v

/-- Every line of a list finds the registry as it wants it: each key to open
exists, each value to set is held already. -/
def settled (reg : Registry) : List RegOp → HKey → Prop
  | [], _ => True
  | .openKey key :: rest, _ => (reg .HKCU key).isSome = true ∧ settled reg rest ⟨.HKCU, key⟩
  | .setValue name v :: rest, rkey => holdsValue reg rkey name v = true ∧ settled reg rest rkey

/-- The (key, value name) pairs the lines of a list write to. -/
def targets : List RegOp → HKey → List (HKey × Option String)
  | [], _ => []
  | .openKey key :: rest, _ => targets rest ⟨.HKCU, key⟩
  | .setValue name _ :: rest, rkey => (rkey, name) :: targets rest rkey

/-- No (key, value name) pair is written twice by the lines of a list. -/
def distinctTargets : List RegOp → HKey → Prop
  | [], _ => True
  | .openKey key :: rest, _ => distinctTargets rest ⟨.HKCU, key⟩
  | .setValue name _ :: rest, rkey => (rkey, name) ∉ targets rest rkey ∧ distinctTargets rest rkey

/-- A value the formatting step of `_psSetKeyValue` reproduces exactly: 16-bit
units, none of them NUL, at most 1023 of them. -/
def regularValue (v : WStr) : Prop :=
  (∀ c ∈ v, c ≠ 0 ∧ c < 65536) ∧ v.length ≤ WSPRINTF_LIMIT - 1

/-- The values of the set-value lines of a list are regular. -/
def regularOps : List RegOp → Prop
  | [] => True
  | .openKey _ :: rest => regularOps rest
  | .setValue _ v :: rest => regularValue v ∧ regularOps rest

/-- The configuration strings are proper Windows strings: 16-bit units without
NUL. -/
def Config.WellFormed (cfg : Config) : Prop :=
  (∀ c ∈ cfg.cExeDir, c ≠ 0 ∧ c < 65536) ∧ (∀ c ∈ cfg.cExeName, c ≠ 0 ∧ c < 65536)
    ∧ (∀ c ∈ cfg.cWorkingDir, c ≠ 0 ∧ c < 65536)

/-- An uninstall record exists in a registry: its key exists and its
`InstallDate` value is readable into the 8192-byte buffer. -/
def uninstallRecord (reg : Registry) (hive : Hive) (key : String) : Bool :=
  match reg hive key with
  | none => false
  | some vals =>
    match vals (some "InstallDate") with
    | none => false
    | some v => decide (v.data.length ≤ bufSize * 2)

/-- The consent record of a registry makes the 40-byte buffer `buf0` read
`Deny`: the key exists, its `Value` entry exists with at most 40 bytes, and the
wide C string in the buffer after the copy is `Deny`. -/
def consentDenies (reg : Registry) (buf0 : List Nat) : Bool :=
  match reg .HKCU consentKey with
  | none => false
  | some vals =>
    match vals (some "Value") with
    | none => false
    | some v =>
      decide (v.data.length ≤ 40) && decide (wcsOfBytes (fillBuffer buf0 v.data) = qsl "Deny")

/-- The desktop shortcut `Telegram.lnk` of a shell folder. -/
def desktopShortcut (w : World) (csidl : Nat) : WStr :=
  cstr (w.folders csidl) ++ qsl "\\Telegram.lnk"

/-- The call sequences of the identity-property block of `_manageAppLnk`: the
interface query, `InitPropVariantFromString`, `SetValue` with its
`PropVariantClear`, and `Commit`, each made only after the one before
succeeded. -/
def isBindRun (bind : List Call) : Prop :=
  (∃ h, h < 0 ∧ bind = [Call.QueryPropertyStore h])
    ∨ (∃ h, h < 0 ∧ bind = [Call.QueryPropertyStore 0, Call.InitPropVariantFromString h])
    ∨ (∃ h, h < 0 ∧ bind = [Call.QueryPropertyStore 0, Call.InitPropVariantFromString 0,
        Call.SetValue h, Call.PropVariantClear])
    ∨ (∃ h, bind = [Call.QueryPropertyStore 0, Call.InitPropVariantFromString 0,
        Call.SetValue 0, Call.PropVariantClear, Call.Commit h])

/-- The condition under which an old machine-wide record is to be deleted: the
record exists and one of the two per-user records exists. -/
def oldRecordDue (cfg : Config) (reg : Registry) (key : String) : Bool :=
  (uninstallRecord reg .HKCU (newKeyStr1 cfg) || uninstallRecord reg .HKCU (newKeyStr2 cfg))
    && uninstallRecord reg .HKLM key

/-- The condition under which the common desktop shortcut is to be removed: both
desktop shortcuts exist and their paths differ. -/
def commonShortcutDue (w : World) : Bool :=
  (w.files (desktopShortcut w CSIDL_DESKTOPDIRECTORY)).isSome
    && (w.files (desktopShortcut w CSIDL_COMMON_DESKTOPDIRECTORY)).isSome
    && decide (desktopShortcut w CSIDL_DESKTOPDIRECTORY
        ≠ desktopShortcut w CSIDL_COMMON_DESKTOPDIRECTORY)

/-! ## Sample data -/

/-- The shell folders of the sample worlds. -/
def sampleFolders (csidl : Nat) : WStr :=
  if csidl = CSIDL_STARTUP then
    qsl "C:\\Users\\me\\AppData\\Roaming\\Microsoft\\Windows\\Start Menu\\Programs\\Startup"
  else if csidl = CSIDL_SENDTO then
    qsl "C:\\Users\\me\\AppData\\Roaming\\Microsoft\\Windows\\SendTo"
  else if csidl = CSIDL_DESKTOPDIRECTORY then qsl "C:\\Users\\me\\Desktop"
  else if csidl = CSIDL_COMMON_DESKTOPDIRECTORY then qsl "C:\\Users\\Public\\Desktop"
  else []

/-- A world with an empty registry, no link file and the given fault plan. -/
def emptyWorld (faults : List Nat) : World :=
  { reg := fun _ _ => none, files := fun _ => none, folders := sampleFolders,
    faults := faults, trace := [], log := [] }

/-- A sample configuration. -/
def sampleConfig : Config :=
  { cExeDir := qsl "C:/Apps/Telegram/", cExeName := qsl "Telegram.exe",
    cWorkingDir := qsl "C:/Users/me/100%/", AppFile := qsl "Telegram",
    AppId := "\x7b53F49750-6209-4FBF-9CA8-7A333C87D1ED\x7d",
    appUserModelId := qsl "Telegram.TelegramDesktop", absolutePath := fun d => d }

/-- The sample configuration before the executable name is resolved. -/
def noNameConfig : Config := { sampleConfig with cExeName := [] }

/-- The sample configuration with a working directory of 1100 characters. -/
def longConfig : Config := { sampleConfig with cWorkingDir := List.replicate 1100 97 }

/-- Some initial value of the local `rkey`. -/
def sampleKey : HKey := ⟨.HKLM, ""⟩

/-- A world in which the autostart link of the sample configuration exists. -/
def linkWorld : World :=
  { emptyWorld [] with
    files := fun n =>
      if n = lnkPath sampleConfig (sampleFolders CSIDL_STARTUP) then some ShellLink.fresh
      else none }

/-- A world left by an old installer: the per-user record of the new
installation, the machine-wide record of the old one, and a `Telegram.lnk` on
both desktops. -/
def legacyWorld : World :=
  { emptyWorld [] with
    reg := fun h k =>
      if (h = .HKCU ∧ k = newKeyStr2 sampleConfig) ∨ (h = .HKLM ∧ k = oldKeyStr1 sampleConfig)
      then
        some (fun n =>
          if n = some "InstallDate" then some ⟨REG_SZ, bytesOfWcs (qsl "20190101" ++ [0])⟩
          else none)
      else none,
    files := fun n =>
      if n = qsl "C:\\Users\\me\\Desktop\\Telegram.lnk"
          ∨ n = qsl "C:\\Users\\Public\\Desktop\\Telegram.lnk" then some ShellLink.fresh
      else none }

/-- A world whose microphone consent record is a `REG_BINARY` value with the
bytes of the wide string `Deny` and its terminator. -/
def binaryDenyWorld : World :=
  { emptyWorld [] with
    reg := fun h k =>
      if h = .HKCU ∧ k = consentKey then
        some (fun n =>
          if n = some "Value" then some ⟨REG_BINARY, [68, 0, 101, 0, 110, 0, 121, 0, 0, 0]⟩
          else none)
      else none }

/-- A screen with one monitor whose work area leaves out a task bar of 40 pixels. -/
def sampleScreen : Screen :=
  { monitorFromWindow := some 1,
    getMonitorInfo := fun _ => some ⟨0, 0, 1920, 1040⟩,
    availableGeometry := ⟨0, 0, 1920, 1040⟩ }

/-- The same monitor after the task bar moved to the left edge. -/
def movedScreen : Screen :=
  { monitorFromWindow := some 1,
    getMonitorInfo := fun _ => some ⟨60, 0, 1920, 1080⟩,
    availableGeometry := ⟨60, 0, 1860, 1080⟩ }

/-- Some content of the uninitialised `info.rcWork`. -/
def sampleRcWork : RECT := ⟨0, 0, 0, 0⟩


/-- The world with the autostart link, with a fault plan. -/
def linkWorldWith (faults : List Nat) : World := { linkWorld with faults := faults }

/-- The world an old installer left, with a fault plan. -/
def legacyWorldWith (faults : List Nat) : World := { legacyWorld with faults := faults }

/-! ## Frame lemmas for the API model -/

@[simp] theorem popFault_fst (w : World) : w.popFault.1 = w.nextFault := rfl
@[simp] theorem popFault_reg (w : World) : w.popFault.2.reg = w.reg := rfl
@[simp] theorem popFault_files (w : World) : w.popFault.2.files = w.files := rfl
@[simp] theorem popFault_folders (w : World) : w.popFault.2.folders = w.folders := rfl
@[simp] theorem popFault_trace (w : World) : w.popFault.2.trace = w.trace := rfl
@[simp] theorem popFault_log (w : World) : w.popFault.2.log = w.log := rfl
@[simp] theorem popFault_faults (w : World) : w.popFault.2.faults = w.faults.tail := rfl

@[simp] theorem emit_reg (w : World) (c : Call) : (w.emit c).reg = w.reg := rfl
@[simp] theorem emit_files (w : World) (c : Call) : (w.emit c).files = w.files := rfl
@[simp] theorem emit_folders (w : World) (c : Call) : (w.emit c).folders = w.folders := rfl
@[simp] theorem emit_trace (w : World) (c : Call) : (w.emit c).trace = w.trace ++ [c] := rfl
@[simp] theorem emit_log (w : World) (c : Call) : (w.emit c).log = w.log := rfl
@[simp] theorem emit_faults (w : World) (c : Call) : (w.emit c).faults = w.faults := rfl

@[simp] theorem logLine_reg (w : World) (t : String) (c : Int) : (w.logLine t c).reg = w.reg := rfl
@[simp] theorem logLine_files (w : World) (t : String) (c : Int) :
    (w.logLine t c).files = w.files := rfl
@[simp] theorem logLine_folders (w : World) (t : String) (c : Int) :
    (w.logLine t c).folders = w.folders := rfl
@[simp] theorem logLine_trace (w : World) (t : String) (c : Int) :
    (w.logLine t c).trace = w.trace := rfl
@[simp] theorem logLine_log (w : World) (t : String) (c : Int) :
    (w.logLine t c).log = w.log ++ [⟨t, c⟩] := rfl
@[simp] theorem logLine_faults (w : World) (t : String) (c : Int) :
    (w.logLine t c).faults = w.faults := rfl

/-! ### RegOpenKeyEx -/

theorem RegOpenKeyEx_status (h : Hive) (k : String) (w : World) :
    (RegOpenKeyEx h k w).1 =
      if w.nextFault ≠ ERROR_SUCCESS then w.nextFault
      else if (w.reg h k).isSome then ERROR_SUCCESS else ERROR_FILE_NOT_FOUND := by
  simp [RegOpenKeyEx]
@[simp] theorem RegOpenKeyEx_reg (h : Hive) (k : String) (w : World) :
    (RegOpenKeyEx h k w).2.reg = w.reg := by simp [RegOpenKeyEx]
@[simp] theorem RegOpenKeyEx_files (h : Hive) (k : String) (w : World) :
    (RegOpenKeyEx h k w).2.files = w.files := by simp [RegOpenKeyEx]
@[simp] theorem RegOpenKeyEx_folders (h : Hive) (k : String) (w : World) :
    (RegOpenKeyEx h k w).2.folders = w.folders := by simp [RegOpenKeyEx]
@[simp] theorem RegOpenKeyEx_log (h : Hive) (k : String) (w : World) :
    (RegOpenKeyEx h k w).2.log = w.log := by simp [RegOpenKeyEx]
@[simp] theorem RegOpenKeyEx_faults (h : Hive) (k : String) (w : World) :
    (RegOpenKeyEx h k w).2.faults = w.faults.tail := by simp [RegOpenKeyEx]
@[simp] theorem RegOpenKeyEx_trace (h : Hive) (k : String) (w : World) :
    (RegOpenKeyEx h k w).2.trace = w.trace ++ [.RegOpenKeyEx h k (RegOpenKeyEx h k w).1] := by
  simp [RegOpenKeyEx]

/-! ### RegQueryValueEx -/

theorem RegQueryValueEx_result (k : HKey) (n : Option String) (cb : Nat) (w : World) :
    (RegQueryValueEx k n cb w).1 =
      if w.nextFault ≠ ERROR_SUCCESS then ⟨w.nextFault, 0, cb, []⟩
      else queryValue w.reg k n cb := by
  simp [RegQueryValueEx]
@[simp] theorem RegQueryValueEx_reg (k : HKey) (n : Option String) (cb : Nat) (w : World) :
    (RegQueryValueEx k n cb w).2.reg = w.reg := by simp [RegQueryValueEx]
@[simp] theorem RegQueryValueEx_files (k : HKey) (n : Option String) (cb : Nat) (w : World) :
    (RegQueryValueEx k n cb w).2.files = w.files := by simp [RegQueryValueEx]
@[simp] theorem RegQueryValueEx_folders (k : HKey) (n : Option String) (cb : Nat) (w : World) :
    (RegQueryValueEx k n cb w).2.folders = w.folders := by simp [RegQueryValueEx]
@[simp] theorem RegQueryValueEx_log (k : HKey) (n : Option String) (cb : Nat) (w : World) :
    (RegQueryValueEx k n cb w).2.log = w.log := by simp [RegQueryValueEx]
@[simp] theorem RegQueryValueEx_faults (k : HKey) (n : Option String) (cb : Nat) (w : World) :
    (RegQueryValueEx k n cb w).2.faults = w.faults.tail := by simp [RegQueryValueEx]
@[simp] theorem RegQueryValueEx_trace (k : HKey) (n : Option String) (cb : Nat) (w : World) :
    (RegQueryValueEx k n cb w).2.trace
      = w.trace ++ [.RegQueryValueEx k n (RegQueryValueEx k n cb w).1.status] := by
  simp [RegQueryValueEx]

@[simp] theorem RegCloseKey_reg (k : HKey) (w : World) : (RegCloseKey k w).reg = w.reg := rfl
@[simp] theorem RegCloseKey_files (k : HKey) (w : World) : (RegCloseKey k w).files = w.files := rfl
@[simp] theorem RegCloseKey_folders (k : HKey) (w : World) :
    (RegCloseKey k w).folders = w.folders := rfl
@[simp] theorem RegCloseKey_log (k : HKey) (w : World) : (RegCloseKey k w).log = w.log := rfl
@[simp] theorem RegCloseKey_faults (k : HKey) (w : World) :
    (RegCloseKey k w).faults = w.faults := rfl
@[simp] theorem RegCloseKey_trace (k : HKey) (w : World) :
    (RegCloseKey k w).trace = w.trace ++ [.RegCloseKey k] := rfl

/-! ### RegDeleteKey, SHGetFolderPath, QFile -/

@[simp] theorem RegDeleteKey_files (h : Hive) (k : String) (w : World) :
    (RegDeleteKey h k w).2.files = w.files := by
  unfold RegDeleteKey; dsimp only; split_ifs <;> simp
@[simp] theorem RegDeleteKey_folders (h : Hive) (k : String) (w : World) :
    (RegDeleteKey h k w).2.folders = w.folders := by
  unfold RegDeleteKey; dsimp only; split_ifs <;> simp
@[simp] theorem RegDeleteKey_log (h : Hive) (k : String) (w : World) :
    (RegDeleteKey h k w).2.log = w.log := by
  unfold RegDeleteKey; dsimp only; split_ifs <;> simp
@[simp] theorem RegDeleteKey_faults (h : Hive) (k : String) (w : World) :
    (RegDeleteKey h k w).2.faults = w.faults.tail := by
  unfold RegDeleteKey; dsimp only; split_ifs <;> simp
@[simp] theorem RegDeleteKey_trace (h : Hive) (k : String) (w : World) :
    (RegDeleteKey h k w).2.trace = w.trace ++ [.RegDeleteKey h k (RegDeleteKey h k w).1] := by
  unfold RegDeleteKey; dsimp only; split_ifs <;> simp
theorem RegDeleteKey_reg (h : Hive) (k : String) (w : World) :
    (RegDeleteKey h k w).2.reg =
      if w.nextFault = 0 then w.reg.setKey h k none else w.reg := by
  unfold RegDeleteKey
  dsimp only
  by_cases h1 : w.nextFault = 0
  · by_cases h2 : (w.reg h k).isSome = true
    · simp [h1, h2, ERROR_SUCCESS]
    · have h3 : w.reg.setKey h k none = w.reg := by
        funext a b
        simp only [Registry.setKey]
        split_ifs with h5
        · obtain ⟨rfl, rfl⟩ := h5
          exact (by simpa using h2 : w.reg a b = none).symm
        · rfl
      simp [h1, h2, h3, ERROR_SUCCESS]
  · simp [h1, ERROR_SUCCESS]
theorem RegDeleteKey_status (h : Hive) (k : String) (w : World) :
    (RegDeleteKey h k w).1 =
      if w.nextFault ≠ 0 then w.nextFault
      else if (w.reg h k).isSome then ERROR_SUCCESS else ERROR_FILE_NOT_FOUND := by
  unfold RegDeleteKey; dsimp only; split_ifs <;> simp_all [ERROR_SUCCESS]

@[simp] theorem SHGetFolderPath_hr (c : Nat) (w : World) :
    (SHGetFolderPath c w).1 = hresultOf (w.nextFault) := by simp [SHGetFolderPath]
@[simp] theorem SHGetFolderPath_folder (c : Nat) (w : World) :
    (SHGetFolderPath c w).2.1 = if w.nextFault = 0 then w.folders c else [] := by
  simp [SHGetFolderPath]
@[simp] theorem SHGetFolderPath_reg (c : Nat) (w : World) :
    (SHGetFolderPath c w).2.2.reg = w.reg := by simp [SHGetFolderPath]
@[simp] theorem SHGetFolderPath_files (c : Nat) (w : World) :
    (SHGetFolderPath c w).2.2.files = w.files := by simp [SHGetFolderPath]
@[simp] theorem SHGetFolderPath_folders (c : Nat) (w : World) :
    (SHGetFolderPath c w).2.2.folders = w.folders := by simp [SHGetFolderPath]
@[simp] theorem SHGetFolderPath_log (c : Nat) (w : World) :
    (SHGetFolderPath c w).2.2.log = w.log := by simp [SHGetFolderPath]
@[simp] theorem SHGetFolderPath_faults (c : Nat) (w : World) :
    (SHGetFolderPath c w).2.2.faults = w.faults.tail := by simp [SHGetFolderPath]
@[simp] theorem SHGetFolderPath_trace (c : Nat) (w : World) :
    (SHGetFolderPath c w).2.2.trace
      = w.trace ++ [.SHGetFolderPath c (hresultOf (w.nextFault))] := by
  simp [SHGetFolderPath]

@[simp] theorem SUCCEEDED_hresultOf (f : Nat) : SUCCEEDED (hresultOf f) = decide (f = 0) := by
  simp [SUCCEEDED, hresultOf]

@[simp] theorem QFile_remove_reg (n : WStr) (w : World) : (QFile_remove n w).2.reg = w.reg := by
  unfold QFile_remove; dsimp only; split_ifs <;> simp
@[simp] theorem QFile_remove_folders (n : WStr) (w : World) :
    (QFile_remove n w).2.folders = w.folders := by
  unfold QFile_remove; dsimp only; split_ifs <;> simp
@[simp] theorem QFile_remove_log (n : WStr) (w : World) : (QFile_remove n w).2.log = w.log := by
  unfold QFile_remove; dsimp only; split_ifs <;> simp
@[simp] theorem QFile_remove_faults (n : WStr) (w : World) :
    (QFile_remove n w).2.faults = w.faults.tail := by
  unfold QFile_remove; dsimp only; split_ifs <;> simp
@[simp] theorem QFile_remove_trace (n : WStr) (w : World) :
    (QFile_remove n w).2.trace = w.trace ++ [.QFileRemove n (QFile_remove n w).1] := by
  unfold QFile_remove; dsimp only; split_ifs <;> simp
theorem QFile_remove_result (n : WStr) (w : World) :
    (QFile_remove n w).1 = (decide (w.nextFault = 0) && QFile_exists n w) := by
  unfold QFile_remove; dsimp only; split_ifs with h <;> simp_all [QFile_exists]
theorem QFile_remove_files (n : WStr) (w : World) :
    (QFile_remove n w).2.files =
      if w.nextFault = 0 ∧ QFile_exists n w = true
      then (fun m => if m = n then none else w.files m) else w.files := by
  unfold QFile_remove; dsimp only
  by_cases h1 : w.nextFault = 0 ∧ QFile_exists n w = true
  · have h2 : w.popFault.1 = 0 ∧ QFile_exists n w.popFault.2 = true := by
      simpa [QFile_exists] using h1
    rw [if_pos h2, if_pos h1]; simp
  · have h2 : ¬ (w.popFault.1 = 0 ∧ QFile_exists n w.popFault.2 = true) := by
      simpa [QFile_exists] using h1
    rw [if_neg h2, if_neg h1]; simp

/-! ### The probes of psDoFixPrevious -/

theorem probeInstallDate_fst (h : Hive) (k : String) (s : Nat) (w : World) :
    (probeInstallDate h k s w).1 =
      (decide (s = 0) && decide (w.nextFault = 0) && uninstallRecord w.reg h k) := by
  unfold probeInstallDate uninstallRecord
  split_ifs with h1
  · simp only [RegQueryValueEx_result, queryValue]
    split_ifs with h2
    · simp_all [ERROR_SUCCESS]
    · cases hk : w.reg h k with
      | none => simp_all [ERROR_SUCCESS, ERROR_INVALID_HANDLE]
      | some vals =>
        cases hv : vals (some "InstallDate") with
        | none => simp_all [ERROR_SUCCESS, ERROR_FILE_NOT_FOUND]
        | some v =>
          simp only [hk, hv]
          split_ifs with h3 <;> simp_all [ERROR_SUCCESS, ERROR_MORE_DATA]
  · simp_all [ERROR_SUCCESS]
@[simp] theorem probeInstallDate_reg (h : Hive) (k : String) (s : Nat) (w : World) :
    (probeInstallDate h k s w).2.reg = w.reg := by
  unfold probeInstallDate; split_ifs <;> simp
@[simp] theorem probeInstallDate_files (h : Hive) (k : String) (s : Nat) (w : World) :
    (probeInstallDate h k s w).2.files = w.files := by
  unfold probeInstallDate; split_ifs <;> simp
@[simp] theorem probeInstallDate_folders (h : Hive) (k : String) (s : Nat) (w : World) :
    (probeInstallDate h k s w).2.folders = w.folders := by
  unfold probeInstallDate; split_ifs <;> simp
@[simp] theorem probeInstallDate_log (h : Hive) (k : String) (s : Nat) (w : World) :
    (probeInstallDate h k s w).2.log = w.log := by
  unfold probeInstallDate; split_ifs <;> simp
theorem probeInstallDate_faults (h : Hive) (k : String) (s : Nat) (w : World) :
    (probeInstallDate h k s w).2.faults = if s = 0 then w.faults.tail else w.faults := by
  unfold probeInstallDate; split_ifs <;> simp_all [ERROR_SUCCESS]
theorem deletionFree_refl (w : World) : w.deletionFree w := ⟨[], by simp, rfl⟩
theorem deletionFree_trans {a b c : World} (h1 : a.deletionFree b) (h2 : b.deletionFree c) :
    a.deletionFree c := by
  obtain ⟨c1, e1, f1⟩ := h1
  obtain ⟨c2, e2, f2⟩ := h2
  exact ⟨c1 ++ c2, by rw [e2, e1, List.append_assoc], by simp [f1, f2]⟩
theorem deletionFree_of_trace {a b : World} (c : Call) (h : b.trace = a.trace ++ [c])
    (hc : c.isDeletion = false) : a.deletionFree b :=
  ⟨[c], h, by simp [hc]⟩

theorem probeInstallDate_trace (h : Hive) (k : String) (s : Nat) (w : World) :
    w.deletionFree (probeInstallDate h k s w).2 := by
  unfold probeInstallDate
  split_ifs
  · exact deletionFree_of_trace _ (RegQueryValueEx_trace _ _ _ _) rfl
  · exact deletionFree_refl w
@[simp] theorem closeIfOpened_reg (h : Hive) (k : String) (s : Nat) (w : World) :
    (closeIfOpened h k s w).reg = w.reg := by
  unfold closeIfOpened; split_ifs <;> simp
@[simp] theorem closeIfOpened_files (h : Hive) (k : String) (s : Nat) (w : World) :
    (closeIfOpened h k s w).files = w.files := by
  unfold closeIfOpened; split_ifs <;> simp
@[simp] theorem closeIfOpened_folders (h : Hive) (k : String) (s : Nat) (w : World) :
    (closeIfOpened h k s w).folders = w.folders := by
  unfold closeIfOpened; split_ifs <;> simp
@[simp] theorem closeIfOpened_log (h : Hive) (k : String) (s : Nat) (w : World) :
    (closeIfOpened h k s w).log = w.log := by
  unfold closeIfOpened; split_ifs <;> simp
@[simp] theorem closeIfOpened_faults (h : Hive) (k : String) (s : Nat) (w : World) :
    (closeIfOpened h k s w).faults = w.faults := by
  unfold closeIfOpened; split_ifs <;> simp
theorem closeIfOpened_trace (h : Hive) (k : String) (s : Nat) (w : World) :
    w.deletionFree (closeIfOpened h k s w) := by
  unfold closeIfOpened
  split_ifs
  · exact deletionFree_of_trace _ (RegCloseKey_trace _ _) rfl
  · exact deletionFree_refl w
theorem RegOpenKeyEx_deletionFree (h : Hive) (k : String) (w : World) :
    w.deletionFree (RegOpenKeyEx h k w).2 :=
  deletionFree_of_trace _ (RegOpenKeyEx_trace _ _ _) rfl
theorem SHGetFolderPath_deletionFree (c : Nat) (w : World) :
    w.deletionFree (SHGetFolderPath c w).2.2 :=
  deletionFree_of_trace _ (SHGetFolderPath_trace _ _) rfl

theorem desktopLnk_eq (c : Nat) (w : World) :
    desktopLnk (SHGetFolderPath c w) = if w.nextFault = 0 then desktopShortcut w c else [] := by
  unfold desktopLnk desktopShortcut
  by_cases h : w.nextFault = 0 <;> simp [h]

/-! ### The three parts of psDoFixPrevious -/

@[simp] theorem probeUninstallRecords_reg (cfg : Config) (w : World) :
    (probeUninstallRecords cfg w).2.reg = w.reg := by simp [probeUninstallRecords]
@[simp] theorem probeUninstallRecords_files (cfg : Config) (w : World) :
    (probeUninstallRecords cfg w).2.files = w.files := by simp [probeUninstallRecords]
@[simp] theorem probeUninstallRecords_folders (cfg : Config) (w : World) :
    (probeUninstallRecords cfg w).2.folders = w.folders := by simp [probeUninstallRecords]
@[simp] theorem probeUninstallRecords_log (cfg : Config) (w : World) :
    (probeUninstallRecords cfg w).2.log = w.log := by simp [probeUninstallRecords]
theorem probeUninstallRecords_deletionFree (cfg : Config) (w : World) :
    w.deletionFree (probeUninstallRecords cfg w).2 := by
  unfold probeUninstallRecords
  dsimp only
  repeat first
    | refine deletionFree_trans ?_ (closeIfOpened_trace _ _ _ _)
    | refine deletionFree_trans ?_ (probeInstallDate_trace _ _ _ _)
    | refine deletionFree_trans ?_ (RegOpenKeyEx_deletionFree _ _ _)
  exact deletionFree_refl _
theorem probeUninstallRecords_existOld1 (cfg : Config) (w : World)
    (h : (probeUninstallRecords cfg w).1.existOld1 = true) :
    uninstallRecord w.reg .HKLM (oldKeyStr1 cfg) = true := by
  simp only [probeUninstallRecords, probeInstallDate_fst, Bool.and_eq_true] at h
  simpa using h.2
theorem probeUninstallRecords_existOld2 (cfg : Config) (w : World)
    (h : (probeUninstallRecords cfg w).1.existOld2 = true) :
    uninstallRecord w.reg .HKLM (oldKeyStr2 cfg) = true := by
  simp only [probeUninstallRecords, probeInstallDate_fst, Bool.and_eq_true] at h
  simpa using h.2

theorem uninstallRecord_isSome {reg : Registry} {h : Hive} {k : String}
    (hr : uninstallRecord reg h k = true) : (reg h k).isSome = true := by
  unfold uninstallRecord at hr
  cases hk : reg h k <;> simp_all

theorem RegOpenKeyEx_status_faultFree (h : Hive) (k : String) (w : World) (hf : w.faults = []) :
    (RegOpenKeyEx h k w).1 = if (w.reg h k).isSome then 0 else 2 := by
  simp [RegOpenKeyEx_status, World.nextFault, hf, ERROR_SUCCESS, ERROR_FILE_NOT_FOUND]

theorem probeInstallDate_faultFree (h : Hive) (k : String) (s : Nat) (w : World)
    (hf : w.faults = []) (hs : s = if (w.reg h k).isSome then 0 else 2) :
    (probeInstallDate h k s w).1 = uninstallRecord w.reg h k := by
  rw [probeInstallDate_fst]
  subst hs
  cases hu : uninstallRecord w.reg h k
  · simp
  · have := uninstallRecord_isSome hu
    simp [this, World.nextFault, hf]

theorem probeUninstallRecords_faults (cfg : Config) (w : World) (hf : w.faults = []) :
    (probeUninstallRecords cfg w).2.faults = [] := by
  simp [probeUninstallRecords, probeInstallDate_faults, hf]

theorem probeUninstallRecords_faultFree (cfg : Config) (w : World) (hf : w.faults = []) :
    (probeUninstallRecords cfg w).1 =
      ⟨uninstallRecord w.reg .HKCU (newKeyStr1 cfg), uninstallRecord w.reg .HKCU (newKeyStr2 cfg),
        uninstallRecord w.reg .HKLM (oldKeyStr1 cfg), uninstallRecord w.reg .HKLM (oldKeyStr2 cfg)⟩ := by
  unfold probeUninstallRecords
  dsimp only
  congr 1
  · rw [probeInstallDate_faultFree] <;> simp [RegOpenKeyEx_status_faultFree, hf]
  · rw [probeInstallDate_faultFree] <;>
      simp [RegOpenKeyEx_status_faultFree, probeInstallDate_faults, hf]
  · rw [probeInstallDate_faultFree] <;>
      simp [RegOpenKeyEx_status_faultFree, probeInstallDate_faults, hf]
  · rw [probeInstallDate_faultFree] <;>
      simp [RegOpenKeyEx_status_faultFree, probeInstallDate_faults, hf]

theorem oldKeyStr_ne (cfg : Config) : oldKeyStr1 cfg ≠ oldKeyStr2 cfg := by
  intro h
  have h2 := congrArg (fun s => (String.toList s).take 10) h
  simp [oldKeyStr1, oldKeyStr2, String.toList, String.data_append, String.append_assoc] at h2

theorem deleteOldRecords_files (cfg : Config) (e : ExistFlags) (w : World) :
    (deleteOldRecords cfg e w).files = w.files := by
  unfold deleteOldRecords; dsimp only; split_ifs <;> simp
theorem deleteOldRecords_folders (cfg : Config) (e : ExistFlags) (w : World) :
    (deleteOldRecords cfg e w).folders = w.folders := by
  unfold deleteOldRecords; dsimp only; split_ifs <;> simp
theorem deleteOldRecords_faults (cfg : Config) (e : ExistFlags) (w : World) (hf : w.faults = []) :
    (deleteOldRecords cfg e w).faults = [] := by
  unfold deleteOldRecords; dsimp only; split_ifs <;> simp [hf]

theorem deleteOldRecords_none (cfg : Config) (e : ExistFlags) (w : World)
    (h1 : e.existOld1 = false) (h2 : e.existOld2 = false) : deleteOldRecords cfg e w = w := by
  unfold deleteOldRecords; simp [h1, h2]

/-- The registry after the deletions of a run without injected failure. -/
theorem deleteOldRecords_faultFree (cfg : Config) (e : ExistFlags) (w : World)
    (hf : w.faults = [])
    (h1 : e.existOld1 = true → (w.reg .HKLM (oldKeyStr1 cfg)).isSome = true)
    (h2 : e.existOld2 = true → (w.reg .HKLM (oldKeyStr2 cfg)).isSome = true) :
    (deleteOldRecords cfg e w).trace = w.trace
        ++ (if (e.existNew1 || e.existNew2) && e.existOld1
            then [Call.RegDeleteKey .HKLM (oldKeyStr1 cfg) 0] else [])
        ++ (if (e.existNew1 || e.existNew2) && e.existOld2
            then [Call.RegDeleteKey .HKLM (oldKeyStr2 cfg) 0] else [])
      ∧ (deleteOldRecords cfg e w).reg = fun h k =>
          if h = .HKLM ∧ (e.existNew1 || e.existNew2) = true
              ∧ ((k = oldKeyStr1 cfg ∧ e.existOld1 = true) ∨ (k = oldKeyStr2 cfg ∧ e.existOld2 = true))
          then none else w.reg h k := by
  have hne := oldKeyStr_ne cfg
  have hn : w.nextFault = 0 := by simp [World.nextFault, hf]
  unfold deleteOldRecords
  dsimp only
  by_cases hA : (e.existNew1 || e.existNew2) = true
  · by_cases hO1 : e.existOld1 = true
    · have s1 : (RegDeleteKey .HKLM (oldKeyStr1 cfg) w).1 = 0 := by
        simp [RegDeleteKey_status, hn, h1 hO1, ERROR_SUCCESS]
      have hn1 : (RegDeleteKey .HKLM (oldKeyStr1 cfg) w).2.nextFault = 0 := by
        simp [World.nextFault, hf]
      by_cases hO2 : e.existOld2 = true
      · have s2 : (RegDeleteKey .HKLM (oldKeyStr2 cfg)
            (RegDeleteKey .HKLM (oldKeyStr1 cfg) w).2).1 = 0 := by
          simp [RegDeleteKey_status, RegDeleteKey_reg, hn, hn1, Registry.setKey, h2 hO2,
            hne.symm, ERROR_SUCCESS]
        refine ⟨by simp [hA, hO1, hO2, s1, s2], ?_⟩
        funext h k
        by_cases hh : h = .HKLM <;> by_cases hk1 : k = oldKeyStr1 cfg <;>
          by_cases hk2 : k = oldKeyStr2 cfg <;>
          simp [hA, hO1, hO2, hh, hk1, hk2, RegDeleteKey_reg, hn, hn1, Registry.setKey, hne,
            hne.symm]
      · refine ⟨by simp [hA, hO1, hO2, s1], ?_⟩
        funext h k
        by_cases hh : h = .HKLM <;> by_cases hk1 : k = oldKeyStr1 cfg <;>
          simp [hA, hO1, hO2, hh, hk1, RegDeleteKey_reg, hn, Registry.setKey]
    · by_cases hO2 : e.existOld2 = true
      · have s2 : (RegDeleteKey .HKLM (oldKeyStr2 cfg) w).1 = 0 := by
          simp [RegDeleteKey_status, hn, h2 hO2, ERROR_SUCCESS]
        refine ⟨by simp [hA, hO1, hO2, s2], ?_⟩
        funext h k
        by_cases hh : h = .HKLM <;> by_cases hk2 : k = oldKeyStr2 cfg <;>
          simp [hA, hO1, hO2, hh, hk2, RegDeleteKey_reg, hn, Registry.setKey]
      · refine ⟨by simp [hA, hO1, hO2], ?_⟩
        funext h k
        simp [hA, hO1, hO2]
  · refine ⟨by simp [hA], ?_⟩
    funext h k
    simp [hA]

theorem desktopShortcut_ne_nil (w : World) (c : Nat) : desktopShortcut w c ≠ [] := by
  simp [desktopShortcut, qsl]

theorem QFile_exists_desktopShortcut (w v : World) (c : Nat) (hfiles : v.files = w.files) :
    QFile_exists (desktopShortcut w c) v = (w.files (desktopShortcut w c)).isSome := by
  simp [QFile_exists, desktopShortcut_ne_nil, hfiles]

@[simp] theorem removeCommonShortcut_reg (w : World) : (removeCommonShortcut w).reg = w.reg := by
  unfold removeCommonShortcut; dsimp only; split_ifs <;> simp

theorem removeCommonShortcut_clean (w : World)
    (hlnk : ¬ ((w.files (desktopShortcut w CSIDL_DESKTOPDIRECTORY)).isSome = true
      ∧ (w.files (desktopShortcut w CSIDL_COMMON_DESKTOPDIRECTORY)).isSome = true)) :
    (removeCommonShortcut w).files = w.files ∧ w.deletionFree (removeCommonShortcut w) := by
  have hcond : (QFile_exists (desktopLnk (SHGetFolderPath CSIDL_DESKTOPDIRECTORY w))
        (SHGetFolderPath CSIDL_COMMON_DESKTOPDIRECTORY
          (SHGetFolderPath CSIDL_DESKTOPDIRECTORY w).2.2).2.2
      && QFile_exists (desktopLnk (SHGetFolderPath CSIDL_COMMON_DESKTOPDIRECTORY
          (SHGetFolderPath CSIDL_DESKTOPDIRECTORY w).2.2))
        (SHGetFolderPath CSIDL_COMMON_DESKTOPDIRECTORY
          (SHGetFolderPath CSIDL_DESKTOPDIRECTORY w).2.2).2.2) = false := by
    rw [desktopLnk_eq, desktopLnk_eq]
    by_cases c1 : w.nextFault = 0
    · by_cases c2 : (SHGetFolderPath CSIDL_DESKTOPDIRECTORY w).2.2.nextFault = 0
      · rw [if_pos c1, if_pos c2]
        have e2 : desktopShortcut (SHGetFolderPath CSIDL_DESKTOPDIRECTORY w).2.2
            CSIDL_COMMON_DESKTOPDIRECTORY = desktopShortcut w CSIDL_COMMON_DESKTOPDIRECTORY := by
          simp [desktopShortcut]
        rw [e2, QFile_exists_desktopShortcut w _ _ (by simp),
          QFile_exists_desktopShortcut w _ _ (by simp)]
        rw [Bool.and_eq_false_iff]
        by_cases hU : (w.files (desktopShortcut w CSIDL_DESKTOPDIRECTORY)).isSome = true
        · right
          simpa using fun h => hlnk ⟨hU, h⟩
        · left
          simpa using hU
      · rw [if_neg c2]; simp [QFile_exists]
    · rw [if_neg c1]; simp [QFile_exists]
  unfold removeCommonShortcut
  dsimp only
  rw [hcond]
  simp only [Bool.false_and, Bool.false_eq_true, if_false]
  refine ⟨by simp, ?_⟩
  exact deletionFree_trans (SHGetFolderPath_deletionFree _ _) (SHGetFolderPath_deletionFree _ _)


/-- Claim C9: the legacy cleanup is a no-op on a clean system.  For every
configuration and every world (whatever failures are injected) in which neither
machine-wide uninstall record exists and the per-user and common desktop
`Telegram.lnk` are not both present, `psFixPrevious` returns 0, leaves the
registry and the link files unchanged, and none of the calls it issues is a
`RegDeleteKey` or a `QFile::remove`. -/
theorem psFixPrevious_clean (cfg : Config) (w : World)
    (hold1 : uninstallRecord w.reg .HKLM (oldKeyStr1 cfg) = false)
    (hold2 : uninstallRecord w.reg .HKLM (oldKeyStr2 cfg) = false)
    (hlnk : ¬ ((w.files (desktopShortcut w CSIDL_DESKTOPDIRECTORY)).isSome = true
      ∧ (w.files (desktopShortcut w CSIDL_COMMON_DESKTOPDIRECTORY)).isSome = true)) :
    (psFixPrevious cfg w).1 = 0 ∧ (psFixPrevious cfg w).2.reg = w.reg
      ∧ (psFixPrevious cfg w).2.files = w.files
      ∧ ∃ calls, (psFixPrevious cfg w).2.trace = w.trace ++ calls
          ∧ calls.filter Call.isDeletion = [] := by
  have e1 : (probeUninstallRecords cfg w).1.existOld1 = false := by
    cases h : (probeUninstallRecords cfg w).1.existOld1
    · rfl
    · rw [probeUninstallRecords_existOld1 cfg w h] at hold1; cases hold1
  have e2 : (probeUninstallRecords cfg w).1.existOld2 = false := by
    cases h : (probeUninstallRecords cfg w).1.existOld2
    · rfl
    · rw [probeUninstallRecords_existOld2 cfg w h] at hold2; cases hold2
  have hd : psDoFixPrevious cfg w = removeCommonShortcut (probeUninstallRecords cfg w).2 := by
    unfold psDoFixPrevious
    dsimp only
    rw [deleteOldRecords_none cfg _ _ e1 e2]
  have hl : ¬ (((probeUninstallRecords cfg w).2.files
        (desktopShortcut (probeUninstallRecords cfg w).2 CSIDL_DESKTOPDIRECTORY)).isSome = true
      ∧ ((probeUninstallRecords cfg w).2.files
        (desktopShortcut (probeUninstallRecords cfg w).2 CSIDL_COMMON_DESKTOPDIRECTORY)).isSome
          = true) := by
    simpa [desktopShortcut] using hlnk
  obtain ⟨hfiles, hdel⟩ := removeCommonShortcut_clean _ hl
  refine ⟨rfl, ?_, ?_, ?_⟩
  · simp [psFixPrevious, hd]
  · simp [psFixPrevious, hd, hfiles]
  · have h := deletionFree_trans (probeUninstallRecords_deletionFree cfg w) hdel
    rw [← hd] at h
    exact h

theorem removeCommonShortcut_faultFree (w : World) (hf : w.faults = []) :
    (removeCommonShortcut w).trace = w.trace
        ++ [Call.SHGetFolderPath CSIDL_DESKTOPDIRECTORY 0,
            Call.SHGetFolderPath CSIDL_COMMON_DESKTOPDIRECTORY 0]
        ++ (if ((w.files (desktopShortcut w CSIDL_DESKTOPDIRECTORY)).isSome
              && (w.files (desktopShortcut w CSIDL_COMMON_DESKTOPDIRECTORY)).isSome
              && decide (desktopShortcut w CSIDL_DESKTOPDIRECTORY
                  ≠ desktopShortcut w CSIDL_COMMON_DESKTOPDIRECTORY)) = true
            then [Call.QFileRemove (desktopShortcut w CSIDL_COMMON_DESKTOPDIRECTORY) true] else [])
      ∧ (removeCommonShortcut w).files = fun n =>
          if ((w.files (desktopShortcut w CSIDL_DESKTOPDIRECTORY)).isSome
              && (w.files (desktopShortcut w CSIDL_COMMON_DESKTOPDIRECTORY)).isSome
              && decide (desktopShortcut w CSIDL_DESKTOPDIRECTORY
                  ≠ desktopShortcut w CSIDL_COMMON_DESKTOPDIRECTORY)) = true
            ∧ n = desktopShortcut w CSIDL_COMMON_DESKTOPDIRECTORY
          then none else w.files n := by
  have hn : w.nextFault = 0 := by simp [World.nextFault, hf]
  have hn1 : (SHGetFolderPath CSIDL_DESKTOPDIRECTORY w).2.2.nextFault = 0 := by
    simp [World.nextFault, hf]
  have hn2 : (SHGetFolderPath CSIDL_COMMON_DESKTOPDIRECTORY
      (SHGetFolderPath CSIDL_DESKTOPDIRECTORY w).2.2).2.2.nextFault = 0 := by
    simp [World.nextFault, hf]
  have e2 : desktopShortcut (SHGetFolderPath CSIDL_DESKTOPDIRECTORY w).2.2
      CSIDL_COMMON_DESKTOPDIRECTORY = desktopShortcut w CSIDL_COMMON_DESKTOPDIRECTORY := by
    simp [desktopShortcut]
  unfold removeCommonShortcut
  dsimp only
  rw [desktopLnk_eq, desktopLnk_eq, if_pos hn, if_pos hn1, e2,
    QFile_exists_desktopShortcut w _ _ (by simp), QFile_exists_desktopShortcut w _ _ (by simp)]
  split_ifs with hb
  · have hex : QFile_exists (desktopShortcut w CSIDL_COMMON_DESKTOPDIRECTORY)
        (SHGetFolderPath CSIDL_COMMON_DESKTOPDIRECTORY
          (SHGetFolderPath CSIDL_DESKTOPDIRECTORY w).2.2).2.2 = true := by
      rw [QFile_exists_desktopShortcut w _ _ (by simp)]
      simp only [Bool.and_eq_true] at hb
      exact hb.1.2
    refine ⟨?_, ?_⟩
    · simp [QFile_remove_result, hn, hn1, hn2, hex, hresultOf]
    · rw [QFile_remove_files, if_pos ⟨hn2, hex⟩]
      funext n
      simp only [Bool.and_eq_true, decide_eq_true_eq] at hb ⊢
      split_ifs <;> first | rfl | (exfalso; tauto)
  · refine ⟨?_, ?_⟩
    · simp [hn, hn1, hresultOf]
    · funext n
      simp only [Bool.and_eq_true, decide_eq_true_eq] at hb ⊢
      split_ifs <;> first | rfl | (exfalso; tauto)

theorem probeUninstallRecords_existNew1 (cfg : Config) (w : World)
    (h : (probeUninstallRecords cfg w).1.existNew1 = true) :
    uninstallRecord w.reg .HKCU (newKeyStr1 cfg) = true := by
  simp only [probeUninstallRecords, probeInstallDate_fst, Bool.and_eq_true] at h
  simpa using h.2
theorem probeUninstallRecords_existNew2 (cfg : Config) (w : World)
    (h : (probeUninstallRecords cfg w).1.existNew2 = true) :
    uninstallRecord w.reg .HKCU (newKeyStr2 cfg) = true := by
  simp only [probeUninstallRecords, probeInstallDate_fst, Bool.and_eq_true] at h
  simpa using h.2

/-- The flags allow a deletion only when the claim's condition holds. -/
theorem probeUninstallRecords_due (cfg : Config) (w : World) :
    (((probeUninstallRecords cfg w).1.existNew1 || (probeUninstallRecords cfg w).1.existNew2)
        = true → (probeUninstallRecords cfg w).1.existOld1 = true →
      oldRecordDue cfg w.reg (oldKeyStr1 cfg) = true)
    ∧ (((probeUninstallRecords cfg w).1.existNew1 || (probeUninstallRecords cfg w).1.existNew2)
        = true → (probeUninstallRecords cfg w).1.existOld2 = true →
      oldRecordDue cfg w.reg (oldKeyStr2 cfg) = true) := by
  have hnew : ((probeUninstallRecords cfg w).1.existNew1
      || (probeUninstallRecords cfg w).1.existNew2) = true →
      (uninstallRecord w.reg .HKCU (newKeyStr1 cfg)
        || uninstallRecord w.reg .HKCU (newKeyStr2 cfg)) = true := by
    intro h
    rw [Bool.or_eq_true] at h ⊢
    rcases h with h | h
    · exact Or.inl (probeUninstallRecords_existNew1 cfg w h)
    · exact Or.inr (probeUninstallRecords_existNew2 cfg w h)
  constructor
  · intro hn ho
    unfold oldRecordDue
    rw [Bool.and_eq_true]
    exact ⟨hnew hn, probeUninstallRecords_existOld1 cfg w ho⟩
  · intro hn ho
    unfold oldRecordDue
    rw [Bool.and_eq_true]
    exact ⟨hnew hn, probeUninstallRecords_existOld2 cfg w ho⟩

/-- One `RegDeleteKey`, whatever it returns: the registry entry is as before
or the entry of the key is gone. -/
theorem RegDeleteKey_reg_cases (hv : Hive) (key : String) (w : World) (h : Hive) (k : String) :
    (RegDeleteKey hv key w).2.reg h k = w.reg h k
      ∨ ((RegDeleteKey hv key w).2.reg h k = none ∧ h = hv ∧ k = key) := by
  rw [RegDeleteKey_reg]
  by_cases hn : w.nextFault = 0
  · rw [if_pos hn]
    by_cases hk : h = hv ∧ k = key
    · right
      exact ⟨by simp [Registry.setKey, hk], hk.1, hk.2⟩
    · left
      simp [Registry.setKey, hk]
  · rw [if_neg hn]
    exact Or.inl rfl

/-- The second part of `psDoFixPrevious` under any fault plan: the calls it
issues and what can have changed in the registry. -/
theorem deleteOldRecords_spec (cfg : Config) (e : ExistFlags) (w : World) :
    ∃ calls, (deleteOldRecords cfg e w).trace = w.trace ++ calls
      ∧ (∀ c ∈ calls,
          (∃ st, c = Call.RegDeleteKey .HKLM (oldKeyStr1 cfg) st
              ∧ (e.existNew1 || e.existNew2) = true ∧ e.existOld1 = true)
          ∨ (∃ st, c = Call.RegDeleteKey .HKLM (oldKeyStr2 cfg) st
              ∧ (e.existNew1 || e.existNew2) = true ∧ e.existOld2 = true))
      ∧ (∀ h k, (deleteOldRecords cfg e w).reg h k = w.reg h k
          ∨ ((deleteOldRecords cfg e w).reg h k = none ∧ h = .HKLM
              ∧ (e.existNew1 || e.existNew2) = true
              ∧ ((k = oldKeyStr1 cfg ∧ e.existOld1 = true)
                ∨ (k = oldKeyStr2 cfg ∧ e.existOld2 = true)))) := by
  unfold deleteOldRecords
  dsimp only
  by_cases hA : (e.existNew1 || e.existNew2) = true
  · rw [if_pos hA]
    by_cases hO1 : e.existOld1 = true
    · by_cases hO2 : e.existOld2 = true
      · simp only [if_pos hO1, if_pos hO2]
        refine ⟨[.RegDeleteKey .HKLM (oldKeyStr1 cfg) (RegDeleteKey .HKLM (oldKeyStr1 cfg) w).1,
          .RegDeleteKey .HKLM (oldKeyStr2 cfg) (RegDeleteKey .HKLM (oldKeyStr2 cfg)
            (RegDeleteKey .HKLM (oldKeyStr1 cfg) w).2).1], by simp, ?_, ?_⟩
        · intro c hc
          simp only [List.mem_cons, List.mem_singleton, List.not_mem_nil, or_false] at hc
          rcases hc with rfl | rfl
          · exact Or.inl ⟨_, rfl, hA, hO1⟩
          · exact Or.inr ⟨_, rfl, hA, hO2⟩
        · intro h k
          rcases RegDeleteKey_reg_cases .HKLM (oldKeyStr2 cfg)
            (RegDeleteKey .HKLM (oldKeyStr1 cfg) w).2 h k with h2 | ⟨h2, hh, hk⟩
          · rcases RegDeleteKey_reg_cases .HKLM (oldKeyStr1 cfg) w h k with h1 | ⟨h1, hh, hk⟩
            · exact Or.inl (h2.trans h1)
            · exact Or.inr ⟨h2.trans h1, hh, hA, Or.inl ⟨hk, hO1⟩⟩
          · exact Or.inr ⟨h2, hh, hA, Or.inr ⟨hk, hO2⟩⟩
      · simp only [if_pos hO1, if_neg hO2]
        refine ⟨[.RegDeleteKey .HKLM (oldKeyStr1 cfg) (RegDeleteKey .HKLM (oldKeyStr1 cfg) w).1],
          by simp, ?_, ?_⟩
        · intro c hc
          simp only [List.mem_singleton] at hc
          subst hc
          exact Or.inl ⟨_, rfl, hA, hO1⟩
        · intro h k
          rcases RegDeleteKey_reg_cases .HKLM (oldKeyStr1 cfg) w h k with h1 | ⟨h1, hh, hk⟩
          · exact Or.inl h1
          · exact Or.inr ⟨h1, hh, hA, Or.inl ⟨hk, hO1⟩⟩
    · by_cases hO2 : e.existOld2 = true
      · simp only [if_neg hO1, if_pos hO2]
        refine ⟨[.RegDeleteKey .HKLM (oldKeyStr2 cfg) (RegDeleteKey .HKLM (oldKeyStr2 cfg) w).1],
          by simp, ?_, ?_⟩
        · intro c hc
          simp only [List.mem_singleton] at hc
          subst hc
          exact Or.inr ⟨_, rfl, hA, hO2⟩
        · intro h k
          rcases RegDeleteKey_reg_cases .HKLM (oldKeyStr2 cfg) w h k with h1 | ⟨h1, hh, hk⟩
          · exact Or.inl h1
          · exact Or.inr ⟨h1, hh, hA, Or.inr ⟨hk, hO2⟩⟩
      · rw [if_neg hO1, if_neg hO2]
        exact ⟨[], by simp, by simp, fun h k => Or.inl rfl⟩
  · rw [if_neg hA]
    exact ⟨[], by simp, by simp, fun h k => Or.inl rfl⟩

/-- The third part of `psDoFixPrevious` under any fault plan: the only deletion
it can issue is the removal of the common desktop shortcut, and only when both
shortcuts exist and their paths differ; no other file changes. -/
theorem removeCommonShortcut_spec (w : World) :
    ∃ calls, (removeCommonShortcut w).trace = w.trace ++ calls
      ∧ (∀ c ∈ calls, c.isDeletion = true →
          ∃ b, c = Call.QFileRemove (desktopShortcut w CSIDL_COMMON_DESKTOPDIRECTORY) b
            ∧ commonShortcutDue w = true)
      ∧ (∀ n, (removeCommonShortcut w).files n = w.files n
          ∨ ((removeCommonShortcut w).files n = none
            ∧ n = desktopShortcut w CSIDL_COMMON_DESKTOPDIRECTORY
            ∧ commonShortcutDue w = true)) := by
  have e2 : desktopShortcut (SHGetFolderPath CSIDL_DESKTOPDIRECTORY w).2.2
      CSIDL_COMMON_DESKTOPDIRECTORY = desktopShortcut w CSIDL_COMMON_DESKTOPDIRECTORY := by
    simp [desktopShortcut]
  unfold removeCommonShortcut
  dsimp only
  rw [desktopLnk_eq, desktopLnk_eq]
  by_cases c1 : w.nextFault = 0
  · by_cases c2 : (SHGetFolderPath CSIDL_DESKTOPDIRECTORY w).2.2.nextFault = 0
    · rw [if_pos c1, if_pos c2, e2, QFile_exists_desktopShortcut w _ _ (by simp),
        QFile_exists_desktopShortcut w _ _ (by simp)]
      by_cases hb : commonShortcutDue w = true
      · have hb2 := hb
        unfold commonShortcutDue at hb2
        rw [if_pos hb2]
        refine ⟨[.SHGetFolderPath CSIDL_DESKTOPDIRECTORY (hresultOf w.nextFault),
          .SHGetFolderPath CSIDL_COMMON_DESKTOPDIRECTORY
            (hresultOf (SHGetFolderPath CSIDL_DESKTOPDIRECTORY w).2.2.nextFault),
          .QFileRemove (desktopShortcut w CSIDL_COMMON_DESKTOPDIRECTORY)
            (QFile_remove (desktopShortcut w CSIDL_COMMON_DESKTOPDIRECTORY)
              (SHGetFolderPath CSIDL_COMMON_DESKTOPDIRECTORY
                (SHGetFolderPath CSIDL_DESKTOPDIRECTORY w).2.2).2.2).1], by simp, ?_, ?_⟩
        · intro c hc hd
          simp only [List.mem_cons, List.mem_singleton, List.not_mem_nil, or_false] at hc
          rcases hc with rfl | rfl | rfl
          · cases hd
          · cases hd
          · exact ⟨_, rfl, hb⟩
        · intro n
          rw [QFile_remove_files]
          split_ifs with hq
          · by_cases hn : n = desktopShortcut w CSIDL_COMMON_DESKTOPDIRECTORY
            · exact Or.inr ⟨by simp [hn], hn, hb⟩
            · exact Or.inl (by simp [hn])
          · exact Or.inl (by simp)
      · have hb2 := hb
        unfold commonShortcutDue at hb2
        rw [if_neg hb2]
        refine ⟨[.SHGetFolderPath CSIDL_DESKTOPDIRECTORY (hresultOf w.nextFault),
          .SHGetFolderPath CSIDL_COMMON_DESKTOPDIRECTORY
            (hresultOf (SHGetFolderPath CSIDL_DESKTOPDIRECTORY w).2.2.nextFault)], by simp, ?_, ?_⟩
        · intro c hc hd
          simp only [List.mem_cons, List.mem_singleton, List.not_mem_nil, or_false] at hc
          rcases hc with rfl | rfl <;> cases hd
        · intro n
          exact Or.inl (by simp)
    · rw [if_pos c1, if_neg c2]
      simp only [QFile_exists, List.isEmpty_nil, Bool.not_true, Bool.false_and, Bool.and_false,
        Bool.false_eq_true, if_false]
      refine ⟨[.SHGetFolderPath CSIDL_DESKTOPDIRECTORY (hresultOf w.nextFault),
        .SHGetFolderPath CSIDL_COMMON_DESKTOPDIRECTORY
          (hresultOf (SHGetFolderPath CSIDL_DESKTOPDIRECTORY w).2.2.nextFault)], by simp, ?_, ?_⟩
      · intro c hc hd
        simp only [List.mem_cons, List.mem_singleton, List.not_mem_nil, or_false] at hc
        rcases hc with rfl | rfl <;> cases hd
      · intro n
        exact Or.inl (by simp)
  · rw [if_neg c1]
    simp only [QFile_exists, List.isEmpty_nil, Bool.not_true, Bool.false_and,
      Bool.false_eq_true, if_false]
    refine ⟨[.SHGetFolderPath CSIDL_DESKTOPDIRECTORY (hresultOf w.nextFault),
      .SHGetFolderPath CSIDL_COMMON_DESKTOPDIRECTORY
        (hresultOf (SHGetFolderPath CSIDL_DESKTOPDIRECTORY w).2.2.nextFault)], by simp, ?_, ?_⟩
    · intro c hc hd
      simp only [List.mem_cons, List.mem_singleton, List.not_mem_nil, or_false] at hc
      rcases hc with rfl | rfl <;> cases hd
    · intro n
      exact Or.inl (by simp)

/-- The legacy cleanup under any fault plan: what it can delete. -/
theorem psDoFixPrevious_safe (cfg : Config) (w : World) :
    (∃ calls, (psDoFixPrevious cfg w).trace = w.trace ++ calls
      ∧ ∀ c ∈ calls, c.isDeletion = true →
          (∃ st, c = Call.RegDeleteKey .HKLM (oldKeyStr1 cfg) st
            ∧ oldRecordDue cfg w.reg (oldKeyStr1 cfg) = true)
          ∨ (∃ st, c = Call.RegDeleteKey .HKLM (oldKeyStr2 cfg) st
            ∧ oldRecordDue cfg w.reg (oldKeyStr2 cfg) = true)
          ∨ (∃ b, c = Call.QFileRemove (desktopShortcut w CSIDL_COMMON_DESKTOPDIRECTORY) b
            ∧ commonShortcutDue w = true))
    ∧ (∀ h k, (psDoFixPrevious cfg w).reg h k = w.reg h k
        ∨ ((psDoFixPrevious cfg w).reg h k = none ∧ h = .HKLM
          ∧ ((k = oldKeyStr1 cfg ∧ oldRecordDue cfg w.reg (oldKeyStr1 cfg) = true)
            ∨ (k = oldKeyStr2 cfg ∧ oldRecordDue cfg w.reg (oldKeyStr2 cfg) = true))))
    ∧ (∀ n, (psDoFixPrevious cfg w).files n = w.files n
        ∨ ((psDoFixPrevious cfg w).files n = none
          ∧ n = desktopShortcut w CSIDL_COMMON_DESKTOPDIRECTORY
          ∧ commonShortcutDue w = true)) := by
  obtain ⟨calls0, ht0, hd0⟩ := probeUninstallRecords_deletionFree cfg w
  obtain ⟨due1, due2⟩ := probeUninstallRecords_due cfg w
  obtain ⟨calls1, ht1, hc1, hr1⟩ := deleteOldRecords_spec cfg (probeUninstallRecords cfg w).1
    (probeUninstallRecords cfg w).2
  obtain ⟨calls2, ht2, hc2, hf2⟩ := removeCommonShortcut_spec
    (deleteOldRecords cfg (probeUninstallRecords cfg w).1 (probeUninstallRecords cfg w).2)
  have hfold : ∀ c, desktopShortcut
      (deleteOldRecords cfg (probeUninstallRecords cfg w).1 (probeUninstallRecords cfg w).2) c
        = desktopShortcut w c := by
    intro c; simp [desktopShortcut, deleteOldRecords_folders]
  have hdue : commonShortcutDue
      (deleteOldRecords cfg (probeUninstallRecords cfg w).1 (probeUninstallRecords cfg w).2)
        = commonShortcutDue w := by
    simp [commonShortcutDue, hfold, deleteOldRecords_files]
  simp only [hfold, hdue, deleteOldRecords_files, probeUninstallRecords_files] at hc2 hf2
  simp only [probeUninstallRecords_reg] at hr1
  unfold psDoFixPrevious
  dsimp only
  refine ⟨⟨calls0 ++ calls1 ++ calls2, ?_, ?_⟩, ?_, hf2⟩
  · rw [ht2, ht1, ht0]; simp [List.append_assoc]
  · intro c hc hd
    simp only [List.mem_append] at hc
    rcases hc with (hc | hc) | hc
    · exfalso
      have : c ∈ calls0.filter Call.isDeletion := List.mem_filter.mpr ⟨hc, hd⟩
      rw [hd0] at this
      cases this
    · rcases hc1 c hc with ⟨st, rfl, hA, hO⟩ | ⟨st, rfl, hA, hO⟩
      · exact Or.inl ⟨st, rfl, due1 hA hO⟩
      · exact Or.inr (Or.inl ⟨st, rfl, due2 hA hO⟩)
    · exact Or.inr (Or.inr (hc2 c hc hd))
  · intro h k
    rw [removeCommonShortcut_reg]
    rcases hr1 h k with h1 | ⟨h1, hh, hA, (⟨hk, hO⟩ | ⟨hk, hO⟩)⟩
    · exact Or.inl h1
    · exact Or.inr ⟨h1, hh, Or.inl ⟨hk, due1 hA hO⟩⟩
    · exact Or.inr ⟨h1, hh, Or.inr ⟨hk, due2 hA hO⟩⟩

/-- The legacy cleanup in a world without injected API failure: the deletions it
issues, in order, all of them successful, and the registry and the link files
afterwards. -/
theorem psDoFixPrevious_faultFree (cfg : Config) (w : World) (hf : w.faults = []) :
    (∃ calls, (psDoFixPrevious cfg w).trace = w.trace ++ calls
      ∧ calls.filter Call.isDeletion =
        (if ((uninstallRecord w.reg .HKCU (newKeyStr1 cfg)
              || uninstallRecord w.reg .HKCU (newKeyStr2 cfg))
            && uninstallRecord w.reg .HKLM (oldKeyStr1 cfg)) = true
          then [Call.RegDeleteKey .HKLM (oldKeyStr1 cfg) 0] else [])
        ++ (if ((uninstallRecord w.reg .HKCU (newKeyStr1 cfg)
              || uninstallRecord w.reg .HKCU (newKeyStr2 cfg))
            && uninstallRecord w.reg .HKLM (oldKeyStr2 cfg)) = true
          then [Call.RegDeleteKey .HKLM (oldKeyStr2 cfg) 0] else [])
        ++ (if ((w.files (desktopShortcut w CSIDL_DESKTOPDIRECTORY)).isSome
              && (w.files (desktopShortcut w CSIDL_COMMON_DESKTOPDIRECTORY)).isSome
              && decide (desktopShortcut w CSIDL_DESKTOPDIRECTORY
                  ≠ desktopShortcut w CSIDL_COMMON_DESKTOPDIRECTORY)) = true
          then [Call.QFileRemove (desktopShortcut w CSIDL_COMMON_DESKTOPDIRECTORY) true]
          else []))
    ∧ (psDoFixPrevious cfg w).reg = (fun h k =>
        if h = .HKLM
          ∧ (uninstallRecord w.reg .HKCU (newKeyStr1 cfg)
              || uninstallRecord w.reg .HKCU (newKeyStr2 cfg)) = true
          ∧ ((k = oldKeyStr1 cfg ∧ uninstallRecord w.reg .HKLM (oldKeyStr1 cfg) = true)
            ∨ (k = oldKeyStr2 cfg ∧ uninstallRecord w.reg .HKLM (oldKeyStr2 cfg) = true))
        then none else w.reg h k)
    ∧ (psDoFixPrevious cfg w).files = (fun n =>
        if ((w.files (desktopShortcut w CSIDL_DESKTOPDIRECTORY)).isSome
              && (w.files (desktopShortcut w CSIDL_COMMON_DESKTOPDIRECTORY)).isSome
              && decide (desktopShortcut w CSIDL_DESKTOPDIRECTORY
                  ≠ desktopShortcut w CSIDL_COMMON_DESKTOPDIRECTORY)) = true
            ∧ n = desktopShortcut w CSIDL_COMMON_DESKTOPDIRECTORY
        then none else w.files n) := by
  obtain ⟨calls0, ht0, hd0⟩ := probeUninstallRecords_deletionFree cfg w
  have hflags := probeUninstallRecords_faultFree cfg w hf
  have hpf := probeUninstallRecords_faults cfg w hf
  obtain ⟨ht1, hr1⟩ := deleteOldRecords_faultFree cfg (probeUninstallRecords cfg w).1
    (probeUninstallRecords cfg w).2 hpf
    (by intro h; rw [hflags] at h; simpa using uninstallRecord_isSome h)
    (by intro h; rw [hflags] at h; simpa using uninstallRecord_isSome h)
  have hdf := deleteOldRecords_faults cfg (probeUninstallRecords cfg w).1
    (probeUninstallRecords cfg w).2 hpf
  obtain ⟨ht2, hf2⟩ := removeCommonShortcut_faultFree
    (deleteOldRecords cfg (probeUninstallRecords cfg w).1 (probeUninstallRecords cfg w).2) hdf
  have hfold : ∀ c, desktopShortcut
      (deleteOldRecords cfg (probeUninstallRecords cfg w).1 (probeUninstallRecords cfg w).2) c
        = desktopShortcut w c := by
    intro c; simp [desktopShortcut, deleteOldRecords_folders]
  simp only [hfold, deleteOldRecords_files, probeUninstallRecords_files] at ht2 hf2
  simp only [probeUninstallRecords_reg] at hr1
  unfold psDoFixPrevious
  dsimp only
  rw [hflags] at ht1 hr1 ht2 hf2 ⊢
  refine ⟨?_, ?_, hf2⟩
  · constructor
    constructor
    · rw [ht2, ht1, ht0]
      simp only [List.append_assoc]
      exact rfl
    · simp only [List.filter_append, hd0, List.nil_append]
      split_ifs <;> simp [Call.isDeletion]
  · rw [removeCommonShortcut_reg, hr1]

/-- Claim C10, amended: the deletion set of the legacy cleanup.  For every
configuration and every world, whatever API calls are made to fail: a deletion
`psDoFixPrevious` issues is the `RegDeleteKey` of an old machine-wide record,
issued only when that record exists and one of the two per-user records exists,
or the `QFile::remove` of the common desktop `Telegram.lnk`, issued only when
both desktop shortcuts exist and their paths differ.  Afterwards a registry
entry is as before, or it is such an old record and gone; a link file is as
before, or it is such a common shortcut and gone; no key under
`HKEY_CURRENT_USER` and not the per-user shortcut has changed.  In a world
without injected API failure the deletions issued are, in this order and all
successful, the `RegDeleteKey` of the first old record exactly when it exists
and one of the per-user records exists, the same for the second old record,
and the removal of the common shortcut exactly when both shortcuts exist and
their paths differ; the registry and the link files afterwards differ from the
initial ones in exactly these entries. -/
theorem psDoFixPrevious_deletions (cfg : Config) (w : World) :
    (∃ calls, (psDoFixPrevious cfg w).trace = w.trace ++ calls
      ∧ ∀ c ∈ calls, c.isDeletion = true →
          (∃ st, c = Call.RegDeleteKey .HKLM (oldKeyStr1 cfg) st
            ∧ oldRecordDue cfg w.reg (oldKeyStr1 cfg) = true)
          ∨ (∃ st, c = Call.RegDeleteKey .HKLM (oldKeyStr2 cfg) st
            ∧ oldRecordDue cfg w.reg (oldKeyStr2 cfg) = true)
          ∨ (∃ b, c = Call.QFileRemove (desktopShortcut w CSIDL_COMMON_DESKTOPDIRECTORY) b
            ∧ commonShortcutDue w = true))
    ∧ (∀ h k, (psDoFixPrevious cfg w).reg h k = w.reg h k
        ∨ ((psDoFixPrevious cfg w).reg h k = none ∧ h = .HKLM
          ∧ ((k = oldKeyStr1 cfg ∧ oldRecordDue cfg w.reg (oldKeyStr1 cfg) = true)
            ∨ (k = oldKeyStr2 cfg ∧ oldRecordDue cfg w.reg (oldKeyStr2 cfg) = true))))
    ∧ (∀ n, (psDoFixPrevious cfg w).files n = w.files n
        ∨ ((psDoFixPrevious cfg w).files n = none
          ∧ n = desktopShortcut w CSIDL_COMMON_DESKTOPDIRECTORY
          ∧ commonShortcutDue w = true))
    ∧ (∀ k, (psDoFixPrevious cfg w).reg .HKCU k = w.reg .HKCU k)
    ∧ (psDoFixPrevious cfg w).files (desktopShortcut w CSIDL_DESKTOPDIRECTORY)
        = w.files (desktopShortcut w CSIDL_DESKTOPDIRECTORY)
    ∧ (w.faults = [] →
        (∃ calls, (psDoFixPrevious cfg w).trace = w.trace ++ calls
          ∧ calls.filter Call.isDeletion =
            (if ((uninstallRecord w.reg .HKCU (newKeyStr1 cfg)
                  || uninstallRecord w.reg .HKCU (newKeyStr2 cfg))
                && uninstallRecord w.reg .HKLM (oldKeyStr1 cfg)) = true
              then [Call.RegDeleteKey .HKLM (oldKeyStr1 cfg) 0] else [])
            ++ (if ((uninstallRecord w.reg .HKCU (newKeyStr1 cfg)
                  || uninstallRecord w.reg .HKCU (newKeyStr2 cfg))
                && uninstallRecord w.reg .HKLM (oldKeyStr2 cfg)) = true
              then [Call.RegDeleteKey .HKLM (oldKeyStr2 cfg) 0] else [])
            ++ (if ((w.files (desktopShortcut w CSIDL_DESKTOPDIRECTORY)).isSome
                  && (w.files (desktopShortcut w CSIDL_COMMON_DESKTOPDIRECTORY)).isSome
                  && decide (desktopShortcut w CSIDL_DESKTOPDIRECTORY
                      ≠ desktopShortcut w CSIDL_COMMON_DESKTOPDIRECTORY)) = true
              then [Call.QFileRemove (desktopShortcut w CSIDL_COMMON_DESKTOPDIRECTORY) true]
              else []))
        ∧ (psDoFixPrevious cfg w).reg = (fun h k =>
            if h = .HKLM
              ∧ (uninstallRecord w.reg .HKCU (newKeyStr1 cfg)
                  || uninstallRecord w.reg .HKCU (newKeyStr2 cfg)) = true
              ∧ ((k = oldKeyStr1 cfg ∧ uninstallRecord w.reg .HKLM (oldKeyStr1 cfg) = true)
                ∨ (k = oldKeyStr2 cfg ∧ uninstallRecord w.reg .HKLM (oldKeyStr2 cfg) = true))
            then none else w.reg h k)
        ∧ (psDoFixPrevious cfg w).files = (fun n =>
            if ((w.files (desktopShortcut w CSIDL_DESKTOPDIRECTORY)).isSome
                  && (w.files (desktopShortcut w CSIDL_COMMON_DESKTOPDIRECTORY)).isSome
                  && decide (desktopShortcut w CSIDL_DESKTOPDIRECTORY
                      ≠ desktopShortcut w CSIDL_COMMON_DESKTOPDIRECTORY)) = true
                ∧ n = desktopShortcut w CSIDL_COMMON_DESKTOPDIRECTORY
            then none else w.files n)) := by
  obtain ⟨hcalls, hreg, hfiles⟩ := psDoFixPrevious_safe cfg w
  refine ⟨hcalls, hreg, hfiles, ?_, ?_, psDoFixPrevious_faultFree cfg w⟩
  · intro k
    rcases hreg .HKCU k with h | ⟨-, hh, -⟩
    · exact h
    · cases hh
  · rcases hfiles (desktopShortcut w CSIDL_DESKTOPDIRECTORY) with h | ⟨-, hn, hdue⟩
    · exact h
    · exfalso
      unfold commonShortcutDue at hdue
      simp only [Bool.and_eq_true, decide_eq_true_eq] at hdue
      exact hdue.2 hn

theorem queryValue_consent (reg : Registry) (buf0 : List Nat) :
    consentDenies reg buf0 = true ↔
      (queryValue reg ⟨.HKCU, consentKey⟩ (some "Value") 40).status = 0
        ∧ wcsOfBytes (fillBuffer buf0
          (queryValue reg ⟨.HKCU, consentKey⟩ (some "Value") 40).data) = qsl "Deny" := by
  cases hk : reg .HKCU consentKey with
  | none => simp [queryValue, consentDenies, hk, ERROR_INVALID_HANDLE]
  | some vals =>
    cases hv : vals (some "Value") with
    | none => simp [queryValue, consentDenies, hk, hv, ERROR_FILE_NOT_FOUND]
    | some v =>
      by_cases hl : 40 < v.data.length
      · have : ¬ v.data.length ≤ 40 := by omega
        simp [queryValue, consentDenies, hk, hv, hl, this, ERROR_MORE_DATA]
      · have : v.data.length ≤ 40 := by omega
        simp [queryValue, consentDenies, hk, hv, hl, this, ERROR_SUCCESS]

theorem consentDenies_isSome {reg : Registry} {buf0 : List Nat}
    (h : consentDenies reg buf0 = true) : (reg .HKCU consentKey).isSome = true := by
  unfold consentDenies at h
  cases hk : reg .HKCU consentKey <;> simp_all

/-- Claim C7, amended: `GetPermissionStatus(Microphone)` returns `Denied` exactly
when neither the open of the consent key nor the read of its `Value` entry is
made to fail, the key and the entry exist, the entry has at most 40 bytes, and
the buffer after the read holds the wide C string `Deny`; in every other case
(the key cannot be opened, the read fails, other content) it returns `Granted`.
The registry type of the entry is not inspected.  The result is never
`Undetermined`. -/
theorem GetPermissionStatus_microphone (buf0 : List Nat) (w : World) :
    (GetPermissionStatus .Microphone buf0 w).1 =
        (if w.faultAt 0 = 0 ∧ w.faultAt 1 = 0 ∧ consentDenies w.reg buf0 = true
          then PermissionStatus.Denied else PermissionStatus.Granted)
      ∧ (GetPermissionStatus .Microphone buf0 w).1 ≠ .Undetermined := by
  have h0 : w.faultAt 0 = w.nextFault := by
    unfold World.faultAt World.nextFault
    cases w.faults <;> rfl
  have h1 : w.faultAt 1 = (RegOpenKeyEx .HKCU consentKey w).2.nextFault := by
    simp only [World.faultAt, World.nextFault, RegOpenKeyEx_faults]
    cases w.faults with
    | nil => rfl
    | cons a l => cases l <;> rfl
  have hq := queryValue_consent w.reg buf0
  rw [h0, h1]
  unfold GetPermissionStatus
  simp only [if_true]
  by_cases ho : (RegOpenKeyEx .HKCU consentKey w).1 = ERROR_SUCCESS
  · rw [if_pos ho]
    dsimp only
    rw [RegOpenKeyEx_status] at ho
    have hf0 : w.nextFault = 0 := by
      by_contra hc
      simp [hc, ERROR_SUCCESS] at ho
    by_cases hf1 : (RegOpenKeyEx .HKCU consentKey w).2.nextFault = 0
    · simp only [RegQueryValueEx_result, hf1, ERROR_SUCCESS, ne_eq, not_true_eq_false,
        if_false, RegOpenKeyEx_reg, hf0, true_and]
      by_cases hd : consentDenies w.reg buf0 = true
      · have := hq.mp hd
        simp [hd, this.1, this.2]
      · have hn : ¬ ((queryValue w.reg ⟨.HKCU, consentKey⟩ (some "Value") 40).status = 0
            ∧ wcsOfBytes (fillBuffer buf0
              (queryValue w.reg ⟨.HKCU, consentKey⟩ (some "Value") 40).data) = qsl "Deny") :=
          fun h => hd (hq.mpr h)
        rw [if_neg hd]
        constructor
        · split_ifs with a b
          · exact absurd ⟨a, b⟩ hn
          · rfl
          · rfl
        · split_ifs <;> simp
    · simp [RegQueryValueEx_result, hf1, ERROR_SUCCESS, hf0]
  · rw [if_neg ho]
    rw [RegOpenKeyEx_status] at ho
    constructor
    · by_cases hf0 : w.nextFault = 0
      · have hns : ¬ (w.reg .HKCU consentKey).isSome = true := by
          intro hs
          simp [hf0, hs, ERROR_SUCCESS] at ho
        have : ¬ consentDenies w.reg buf0 = true := fun h => hns (consentDenies_isSome h)
        simp [this]
      · simp [hf0]
    · simp

/-- Claim C8: for every permission type other than `Microphone`,
`GetPermissionStatus` returns `Granted` and hands back the world it was given:
no key is opened, queried or closed, the trace is unchanged. -/
theorem GetPermissionStatus_other (type : PermissionType) (buf0 : List Nat) (w : World)
    (h : type ≠ .Microphone) :
    GetPermissionStatus type buf0 w = (.Granted, w)
      ∧ (GetPermissionStatus type buf0 w).2.trace = w.trace := by
  simp [GetPermissionStatus, h]

/-! ### COM calls -/

@[simp] theorem comCall_hr (c : Int → Call) (w : World) :
    (comCall c w).1 = hresultOf w.nextFault := rfl
@[simp] theorem comCall_reg (c : Int → Call) (w : World) : (comCall c w).2.reg = w.reg := rfl
@[simp] theorem comCall_files (c : Int → Call) (w : World) :
    (comCall c w).2.files = w.files := rfl
@[simp] theorem comCall_folders (c : Int → Call) (w : World) :
    (comCall c w).2.folders = w.folders := rfl
@[simp] theorem comCall_log (c : Int → Call) (w : World) : (comCall c w).2.log = w.log := rfl
@[simp] theorem comCall_faults (c : Int → Call) (w : World) :
    (comCall c w).2.faults = w.faults.tail := rfl
@[simp] theorem comCall_trace (c : Int → Call) (w : World) :
    (comCall c w).2.trace = w.trace ++ [c (hresultOf w.nextFault)] := rfl

@[simp] theorem comSet_hr (c : Int → Call) (u : ShellLink → ShellLink) (l : ShellLink)
    (w : World) : (comSet c u l w).1 = hresultOf w.nextFault := rfl
@[simp] theorem comSet_link (c : Int → Call) (u : ShellLink → ShellLink) (l : ShellLink)
    (w : World) : (comSet c u l w).2.1 = if w.nextFault = 0 then u l else l := by
  simp [comSet]
@[simp] theorem comSet_world (c : Int → Call) (u : ShellLink → ShellLink) (l : ShellLink)
    (w : World) : (comSet c u l w).2.2 = (comCall c w).2 := rfl

@[simp] theorem Save_reg (f : WStr) (l : ShellLink) (w : World) :
    (Save f l w).2.reg = w.reg := by
  unfold Save; dsimp only; split_ifs <;> simp
@[simp] theorem Save_folders (f : WStr) (l : ShellLink) (w : World) :
    (Save f l w).2.folders = w.folders := by
  unfold Save; dsimp only; split_ifs <;> simp
@[simp] theorem Save_log (f : WStr) (l : ShellLink) (w : World) :
    (Save f l w).2.log = w.log := by
  unfold Save; dsimp only; split_ifs <;> simp
@[simp] theorem Save_faults (f : WStr) (l : ShellLink) (w : World) :
    (Save f l w).2.faults = w.faults.tail := by
  unfold Save; dsimp only; split_ifs <;> simp
@[simp] theorem Save_trace (f : WStr) (l : ShellLink) (w : World) :
    (Save f l w).2.trace = w.trace ++ [.Save f (hresultOf w.nextFault)] := by
  unfold Save; simp only [popFault_fst]; split_ifs with h <;> simp [h, hresultOf]
theorem Save_files (f : WStr) (l : ShellLink) (w : World) :
    (Save f l w).2.files =
      if w.nextFault = 0 then (fun n => if n = f then some l else w.files n) else w.files := by
  unfold Save; simp only [popFault_fst]; split_ifs with h <;> simp

@[simp] theorem bindAppId_reg (cfg : Config) (l : ShellLink) (w : World) :
    (bindAppId cfg l w).2.reg = w.reg := by
  unfold bindAppId; dsimp only; split_ifs <;> simp
@[simp] theorem bindAppId_files (cfg : Config) (l : ShellLink) (w : World) :
    (bindAppId cfg l w).2.files = w.files := by
  unfold bindAppId; dsimp only; split_ifs <;> simp
@[simp] theorem bindAppId_folders (cfg : Config) (l : ShellLink) (w : World) :
    (bindAppId cfg l w).2.folders = w.folders := by
  unfold bindAppId; dsimp only; split_ifs <;> simp
@[simp] theorem bindAppId_log (cfg : Config) (l : ShellLink) (w : World) :
    (bindAppId cfg l w).2.log = w.log := by
  unfold bindAppId; dsimp only; split_ifs <;> simp

theorem bindAppId_faultFree (cfg : Config) (l : ShellLink) (w : World) (hf : w.faults = []) :
    (bindAppId cfg l w).1 = { l with appUserModelId := some cfg.appUserModelId, committed := true }
      ∧ (bindAppId cfg l w).2.faults = []
      ∧ (bindAppId cfg l w).2.trace = w.trace ++ [.QueryPropertyStore 0,
          .InitPropVariantFromString 0, .SetValue 0, .PropVariantClear, .Commit 0] := by
  unfold bindAppId
  simp [World.nextFault, hf, hresultOf, SUCCEEDED]

/-- The link a run of `_manageAppLnk` without injected failure saves. -/
theorem manageAppLnk_create_faultFree (cfg : Config) (silent : Bool) (csidl : Nat)
    (args description : WStr) (w : World) (hexe : cfg.cExeName ≠ []) (hf : w.faults = []) :
    (_manageAppLnk cfg true silent csidl args description w).files
        (cstr (lnkPath cfg (w.folders csidl)))
      = some
          { arguments := some args,
            path := some (cstr (toNativeSeparators (cfg.cExeDir ++ cfg.cExeName))),
            workingDirectory :=
              some (cstr (toNativeSeparators (cfg.absolutePath cfg.cWorkingDir))),
            description := some description,
            appUserModelId := some cfg.appUserModelId,
            committed := true }
      ∧ (_manageAppLnk cfg true silent csidl args description w).log = w.log
      ∧ (_manageAppLnk cfg true silent csidl args description w).reg = w.reg := by
  have hb := fun l w' h => bindAppId_faultFree cfg l w' h
  unfold _manageAppLnk
  have he : cfg.cExeName.isEmpty = false := by
    cases h : cfg.cExeName with
    | nil => exact absurd h hexe
    | cons a b => rfl
  simp only [he, Bool.false_eq_true, if_false, if_true]
  simp [createLink, persistLink, fillLink, World.nextFault, hf, hresultOf, SUCCEEDED, Save_files,
    hb, ShellLink.fresh]

theorem callsSince_of_trace {w r : World} {calls : List Call}
    (h : r.trace = w.trace ++ calls) : w.callsSince r = calls := by
  simp [World.callsSince, h]

theorem isEmpty_eq_false_of_ne_nil {l : WStr} (h : l ≠ []) : l.isEmpty = false := by
  cases l with
  | nil => exact absurd rfl h
  | cons a b => rfl

theorem hresultOf_nonneg_iff (f : Nat) : 0 ≤ hresultOf f ↔ f = 0 := by
  unfold hresultOf; omega

theorem hresultOf_neg_iff (f : Nat) : hresultOf f < 0 ↔ f ≠ 0 := by
  unfold hresultOf; omega

theorem bindAppId_trace (cfg : Config) (l : ShellLink) (w : World) :
    ∃ bc, (bindAppId cfg l w).2.trace = w.trace ++ bc ∧ ∀ c ∈ bc, c.isPropertyCall = true := by
  unfold bindAppId
  dsimp only
  split_ifs
  all_goals
    constructor
    constructor
    · simp only [comCall_trace, comSet_world, emit_trace, List.append_assoc]
      exact rfl
    · simp [Call.isPropertyCall]

@[simp] theorem fillLink_reg (cfg : Config) (a d : WStr) (w : World) :
    (fillLink cfg a d w).2.reg = w.reg := rfl
@[simp] theorem fillLink_files (cfg : Config) (a d : WStr) (w : World) :
    (fillLink cfg a d w).2.files = w.files := rfl
@[simp] theorem fillLink_log (cfg : Config) (a d : WStr) (w : World) :
    (fillLink cfg a d w).2.log = w.log := rfl
theorem fillLink_trace (cfg : Config) (a d : WStr) (w : World) :
    ∃ h2 h3 h4 h5, (fillLink cfg a d w).2.trace = w.trace
      ++ [.SetArguments h2, .SetPath h3, .SetWorkingDirectory h4, .SetDescription h5] := by
  constructor
  constructor
  constructor
  constructor
  simp only [fillLink, comSet_world, comCall_trace, List.append_assoc]
  exact rfl

/-- The persist stage: what it adds to the trace and the log, and when it writes. -/
theorem persistLink_spec (silent : Bool) (lnk : WStr) (l : ShellLink) (w : World) :
    (persistLink silent lnk l w).reg = w.reg
    ∧ ((∃ hs, (persistLink silent lnk l w).trace
            = w.trace ++ [.QueryPersistFile 0, .Save (cstr lnk) hs]
          ∧ (persistLink silent lnk l w).log = w.log
          ∧ (hs ≠ 0 → (persistLink silent lnk l w).files = w.files)
          ∧ (hs = 0 → (persistLink silent lnk l w).files
              = fun n => if n = cstr lnk then some l else w.files n))
      ∨ (∃ hp, hp < 0 ∧ (persistLink silent lnk l w).trace = w.trace ++ [.QueryPersistFile hp]
          ∧ (persistLink silent lnk l w).log = w.log ++
              (if silent then []
                else [⟨"App Error: could not create interface IID_IPersistFile %1", hp⟩])
          ∧ (persistLink silent lnk l w).files = w.files)) := by
  unfold persistLink
  dsimp only
  refine ⟨by split_ifs <;> simp, ?_⟩
  by_cases hp : w.nextFault = 0
  · refine Or.inl ⟨hresultOf (comCall .QueryPersistFile w).2.nextFault, ?_⟩
    simp only [comCall_hr, SUCCEEDED_hresultOf, hp, decide_True, if_true]
    refine ⟨by simp [hresultOf, hp], by simp, ?_, ?_⟩
    · intro hs
      have : (comCall .QueryPersistFile w).2.nextFault ≠ 0 := by
        intro h0; exact hs (by simp [h0, hresultOf])
      simp [Save_files, this]
    · intro hs
      have : (comCall .QueryPersistFile w).2.nextFault = 0 := by
        simpa [hresultOf] using hs
      simp [Save_files, this]
  · refine Or.inr ⟨hresultOf w.nextFault, (hresultOf_neg_iff _).mpr hp, ?_⟩
    simp only [comCall_hr, SUCCEEDED_hresultOf, hp, decide_False, Bool.false_eq_true, if_false]
    cases silent <;> simp

/-- The create branch: what it adds to the trace and the log, and when it writes. -/
theorem createLink_spec (cfg : Config) (silent : Bool) (lnk args description : WStr)
    (w : World) :
    ∃ calls, (createLink cfg silent lnk args description w).trace = w.trace ++ calls
      ∧ (createLink cfg silent lnk args description w).log
          = w.log ++ (if silent then [] else calls.filterMap Call.lnkLogLine)
      ∧ (∀ c ∈ calls, (c.lnkLogLine).isSome = true → ∃ before, calls = before ++ [c])
      ∧ (∀ hr, Call.CoCreateInstance hr ∈ calls → 0 ≤ hr →
          ∃ hp, Call.QueryPersistFile hp ∈ calls)
      ∧ ((∀ f, Call.Save f 0 ∉ calls) →
          (createLink cfg silent lnk args description w).files = w.files)
      ∧ (∀ f, Call.Save f 0 ∈ calls →
          ((createLink cfg silent lnk args description w).files f).isSome = true)
      ∧ (∀ c hr, Call.SHGetFolderPath c hr ∉ calls) := by
  unfold createLink
  dsimp only
  by_cases hc : w.nextFault = 0
  · simp only [comCall_hr, SUCCEEDED_hresultOf, hc, decide_True, if_true]
    obtain ⟨h2, h3, h4, h5, hfill⟩ := fillLink_trace cfg args description
      (comCall .CoCreateInstance w).2
    obtain ⟨bc, hbind, hprop⟩ := bindAppId_trace cfg
      (fillLink cfg args description (comCall .CoCreateInstance w).2).1
      (fillLink cfg args description (comCall .CoCreateInstance w).2).2
    have hbl : ∀ c ∈ bc, c.lnkLogLine = none := by
      intro c hcm
      have := hprop c hcm
      cases c <;> simp_all [Call.isPropertyCall, Call.lnkLogLine]
    have hbm : List.filterMap Call.lnkLogLine bc = [] := by
      rw [List.filterMap_eq_nil_iff]; exact hbl
    have hbs : ∀ f h, Call.Save f h ∉ bc := by
      intro f h hm; simpa [Call.isPropertyCall] using hprop _ hm
    have hbc : ∀ h, Call.CoCreateInstance h ∉ bc := by
      intro h hm; simpa [Call.isPropertyCall] using hprop _ hm
    have hbq : ∀ h, Call.QueryPersistFile h ∉ bc := by
      intro h hm; simpa [Call.isPropertyCall] using hprop _ hm
    have hbf : ∀ c h, Call.SHGetFolderPath c h ∉ bc := by
      intro c h hm; simpa [Call.isPropertyCall] using hprop _ hm
    obtain ⟨hreg, hcase⟩ := persistLink_spec silent lnk
      (bindAppId cfg (fillLink cfg args description (comCall .CoCreateInstance w).2).1
        (fillLink cfg args description (comCall .CoCreateInstance w).2).2).1
      (bindAppId cfg (fillLink cfg args description (comCall .CoCreateInstance w).2).1
        (fillLink cfg args description (comCall .CoCreateInstance w).2).2).2
    rcases hcase with ⟨hs, htr, hlog, hne, heq⟩ | ⟨hp, hneg, htr, hlog, hfiles⟩
    · refine ⟨[.CoCreateInstance 0, .SetArguments h2, .SetPath h3, .SetWorkingDirectory h4,
        .SetDescription h5] ++ bc ++ [.QueryPersistFile 0, .Save (cstr lnk) hs], ?_, ?_, ?_, ?_,
        ?_, ?_, ?_⟩
      · rw [htr, hbind, hfill]; simp [hc, hresultOf]
      · rw [hlog]; simp [List.filterMap_append, hbm, Call.lnkLogLine]
      · intro c hcm hsome
        have hnb : c ∉ bc := fun h => by rw [hbl c h] at hsome; simp at hsome
        simp only [List.mem_append, List.mem_cons, List.mem_singleton, List.not_mem_nil,
          or_false, hnb, false_or] at hcm
        rcases hcm with (rfl | rfl | rfl | rfl | rfl) | rfl | rfl <;>
          simp [Call.lnkLogLine] at hsome
      · intro hr _ _
        exact ⟨0, by simp⟩
      · intro hno
        have hs0 : hs ≠ 0 := by
          intro h0; exact hno (cstr lnk) (by simp [h0])
        rw [hne hs0]; simp
      · intro f hm
        have hm2 : f = cstr lnk ∧ 0 = hs := by
          simpa [hbs] using hm
        rw [heq hm2.2.symm, hm2.1]; simp
      · intro c hr hm
        simp [hbf] at hm
    · refine ⟨[.CoCreateInstance 0, .SetArguments h2, .SetPath h3, .SetWorkingDirectory h4,
        .SetDescription h5] ++ bc ++ [.QueryPersistFile hp], ?_, ?_, ?_, ?_, ?_, ?_, ?_⟩
      · rw [htr, hbind, hfill]; simp [hc, hresultOf]
      · rw [hlog]; simp [List.filterMap_append, hbm, Call.lnkLogLine, hneg]
      · intro c hcm hsome
        have hnb : c ∉ bc := fun h => by rw [hbl c h] at hsome; simp at hsome
        simp only [List.mem_append, List.mem_cons, List.mem_singleton, List.not_mem_nil,
          or_false, hnb, false_or] at hcm
        rcases hcm with (rfl | rfl | rfl | rfl | rfl) | rfl
        all_goals first
          | (simp [Call.lnkLogLine] at hsome; done)
          | exact ⟨_, rfl⟩
      · intro hr _ _
        exact ⟨hp, by simp⟩
      · intro _
        rw [hfiles]; simp
      · intro f hm
        simp [hbs] at hm
      · intro c hr hm
        simp [hbf] at hm
  · have hneg := (hresultOf_neg_iff _).mpr hc
    simp only [comCall_hr, SUCCEEDED_hresultOf, hc, decide_False, Bool.false_eq_true, if_false]
    refine ⟨[.CoCreateInstance (hresultOf w.nextFault)], ?_, ?_, ?_, ?_, ?_, ?_, ?_⟩
    · split_ifs <;> simp
    · cases silent <;> simp [Call.lnkLogLine, hneg]
    · intro c hcm _
      simp only [List.mem_singleton] at hcm
      subst hcm; exact ⟨[], rfl⟩
    · intro hr hm hnn
      simp only [List.mem_singleton, Call.CoCreateInstance.injEq] at hm
      omega
    · intro _
      split_ifs <;> simp
    · intro f hm
      simp at hm
    · intro c hr hm
      simp at hm

theorem lnkPath_ne_nil (cfg : Config) (folder : WStr) : lnkPath cfg folder ≠ [] := by
  simp [lnkPath]

/-- The identity-property block: its calls, and when the link is committed. -/
theorem bindAppId_shape (cfg : Config) (l : ShellLink) (w : World) :
    ∃ bind, (bindAppId cfg l w).2.trace = w.trace ++ bind ∧ isBindRun bind
      ∧ ((bindAppId cfg l w).1.committed = true
          ↔ (l.committed = true ∨ Call.Commit 0 ∈ bind)) := by
  unfold bindAppId isBindRun
  dsimp only
  by_cases h1 : w.nextFault = 0
  · by_cases h2 : (comCall .QueryPropertyStore w).2.nextFault = 0
    · by_cases h3 : (comCall .InitPropVariantFromString
          (comCall .QueryPropertyStore w).2).2.nextFault = 0
      · by_cases h4 : ((comCall .SetValue (comCall .InitPropVariantFromString
            (comCall .QueryPropertyStore w).2).2).2.emit .PropVariantClear).nextFault = 0
        · refine ⟨[.QueryPropertyStore 0, .InitPropVariantFromString 0, .SetValue 0,
            .PropVariantClear, .Commit 0], ?_, ?_, ?_⟩
          · simp [h1, h2, h3, h4, hresultOf, SUCCEEDED]
          · exact Or.inr (Or.inr (Or.inr ⟨0, rfl⟩))
          · simp [h1, h2, h3, h4, hresultOf, SUCCEEDED]
        · refine ⟨[.QueryPropertyStore 0, .InitPropVariantFromString 0, .SetValue 0,
            .PropVariantClear, .Commit (hresultOf ((comCall .SetValue
              (comCall .InitPropVariantFromString
                (comCall .QueryPropertyStore w).2).2).2.emit .PropVariantClear).nextFault)],
            ?_, ?_, ?_⟩
          · simp [h1, h2, h3, h4, hresultOf, SUCCEEDED]
          · exact Or.inr (Or.inr (Or.inr ⟨_, rfl⟩))
          · have hne := (hresultOf_neg_iff _).mpr h4
            simp [h1, h2, h3, h4]
            intro h0
            rw [← h0] at hne
            exact absurd hne (by decide)
      · refine ⟨[.QueryPropertyStore 0, .InitPropVariantFromString 0,
          .SetValue (hresultOf (comCall .InitPropVariantFromString
            (comCall .QueryPropertyStore w).2).2.nextFault), .PropVariantClear], ?_, ?_, ?_⟩
        · simp [h1, h2, h3, hresultOf, SUCCEEDED]
        · exact Or.inr (Or.inr (Or.inl ⟨_, (hresultOf_neg_iff _).mpr h3, rfl⟩))
        · simp [h1, h2, h3]
    · refine ⟨[.QueryPropertyStore 0, .InitPropVariantFromString
        (hresultOf (comCall .QueryPropertyStore w).2.nextFault)], ?_, ?_, ?_⟩
      · simp [h1, h2, hresultOf, SUCCEEDED]
      · exact Or.inr (Or.inl ⟨_, (hresultOf_neg_iff _).mpr h2, rfl⟩)
      · simp [h1, h2]
  · refine ⟨[.QueryPropertyStore (hresultOf w.nextFault)], ?_, ?_, ?_⟩
    · simp [h1]
    · exact Or.inl ⟨_, (hresultOf_neg_iff _).mpr h1, rfl⟩
    · simp [h1]

theorem fillLink_committed (cfg : Config) (a d : WStr) (w : World) :
    (fillLink cfg a d w).1.committed = false := by
  simp only [fillLink, comSet_link, comSet_world]
  split_ifs <;> rfl

/-- The create branch by the stage at which it ends: the object creation
fails, the `IPersistFile` query fails, or `Save` is called. -/
theorem createLink_shape (cfg : Config) (silent : Bool) (lnk args description : WStr)
    (w : World) :
    (∃ hc, hc < 0
        ∧ (createLink cfg silent lnk args description w).trace
          = w.trace ++ [.CoCreateInstance hc]
        ∧ (createLink cfg silent lnk args description w).log = w.log ++
            (if silent then []
              else [⟨"App Error: could not create instance of IID_IShellLink %1", hc⟩])
        ∧ (createLink cfg silent lnk args description w).files = w.files)
    ∨ (∃ h2 h3 h4 h5 bind hp, isBindRun bind ∧ hp < 0
        ∧ (createLink cfg silent lnk args description w).trace
          = w.trace ++ ([.CoCreateInstance 0, .SetArguments h2, .SetPath h3,
              .SetWorkingDirectory h4, .SetDescription h5] ++ bind ++ [.QueryPersistFile hp])
        ∧ (createLink cfg silent lnk args description w).log = w.log ++
            (if silent then []
              else [⟨"App Error: could not create interface IID_IPersistFile %1", hp⟩])
        ∧ (createLink cfg silent lnk args description w).files = w.files)
    ∨ (∃ h2 h3 h4 h5 bind hs, isBindRun bind
        ∧ (createLink cfg silent lnk args description w).trace
          = w.trace ++ ([.CoCreateInstance 0, .SetArguments h2, .SetPath h3,
              .SetWorkingDirectory h4, .SetDescription h5] ++ bind
              ++ [.QueryPersistFile 0, .Save (cstr lnk) hs])
        ∧ (createLink cfg silent lnk args description w).log = w.log
        ∧ (hs ≠ 0 → (createLink cfg silent lnk args description w).files = w.files)
        ∧ (hs = 0 → ∃ l, (createLink cfg silent lnk args description w).files
              = (fun n => if n = cstr lnk then some l else w.files n)
            ∧ (l.committed = true ↔ Call.Commit 0 ∈ bind))) := by
  unfold createLink
  dsimp only
  by_cases hc : w.nextFault = 0
  · simp only [comCall_hr, SUCCEEDED_hresultOf, hc, decide_True, if_true]
    obtain ⟨h2, h3, h4, h5, hfill⟩ := fillLink_trace cfg args description
      (comCall .CoCreateInstance w).2
    obtain ⟨bind, hbind, hrun, hcom⟩ := bindAppId_shape cfg
      (fillLink cfg args description (comCall .CoCreateInstance w).2).1
      (fillLink cfg args description (comCall .CoCreateInstance w).2).2
    rw [fillLink_committed] at hcom
    obtain ⟨-, hcase⟩ := persistLink_spec silent lnk
      (bindAppId cfg (fillLink cfg args description (comCall .CoCreateInstance w).2).1
        (fillLink cfg args description (comCall .CoCreateInstance w).2).2).1
      (bindAppId cfg (fillLink cfg args description (comCall .CoCreateInstance w).2).1
        (fillLink cfg args description (comCall .CoCreateInstance w).2).2).2
    rcases hcase with ⟨hs, htr, hlog, hne, heq⟩ | ⟨hp, hneg, htr, hlog, hfiles⟩
    · refine Or.inr (Or.inr ⟨h2, h3, h4, h5, bind, hs, hrun, ?_, ?_, ?_, ?_⟩)
      · rw [htr, hbind, hfill]; simp [hc, hresultOf]
      · rw [hlog]; simp
      · intro h; rw [hne h]; simp
      · intro h
        refine ⟨(bindAppId cfg (fillLink cfg args description (comCall .CoCreateInstance w).2).1
          (fillLink cfg args description (comCall .CoCreateInstance w).2).2).1, ?_, ?_⟩
        · rw [heq h]; simp
        · simpa using hcom
    · refine Or.inr (Or.inl ⟨h2, h3, h4, h5, bind, hp, hrun, hneg, ?_, ?_, ?_⟩)
      · rw [htr, hbind, hfill]; simp [hc, hresultOf]
      · rw [hlog]; simp
      · rw [hfiles]; simp
  · have hneg := (hresultOf_neg_iff _).mpr hc
    simp only [comCall_hr, SUCCEEDED_hresultOf, hc, decide_False, Bool.false_eq_true, if_false]
    refine Or.inl ⟨hresultOf w.nextFault, hneg, ?_, ?_, ?_⟩
    · split_ifs <;> simp
    · cases silent <;> simp
    · split_ifs <;> simp

theorem persistLink_silent (s1 s2 : Bool) (lnk : WStr) (l : ShellLink) (w : World) :
    (persistLink s1 lnk l w).trace = (persistLink s2 lnk l w).trace
      ∧ (persistLink s1 lnk l w).files = (persistLink s2 lnk l w).files
      ∧ (persistLink s1 lnk l w).reg = (persistLink s2 lnk l w).reg := by
  unfold persistLink
  dsimp only
  cases s1 <;> cases s2 <;> by_cases hn : w.nextFault = 0 <;> simp [hn]

theorem createLink_silent (cfg : Config) (s1 s2 : Bool) (lnk args description : WStr)
    (w : World) :
    (createLink cfg s1 lnk args description w).trace
        = (createLink cfg s2 lnk args description w).trace
      ∧ (createLink cfg s1 lnk args description w).files
        = (createLink cfg s2 lnk args description w).files
      ∧ (createLink cfg s1 lnk args description w).reg
        = (createLink cfg s2 lnk args description w).reg := by
  unfold createLink
  dsimp only
  by_cases hn : w.nextFault = 0
  · simp only [comCall_hr, SUCCEEDED_hresultOf, hn, decide_True, if_true]
    exact persistLink_silent s1 s2 lnk _ _
  · cases s1 <;> cases s2 <;> simp [hn]

/-- The calls of `_manageAppLnk`, the files and the registry afterwards do not
depend on `silent`. -/
theorem manageAppLnk_silent (cfg : Config) (create s1 s2 : Bool) (csidl : Nat)
    (args description : WStr) (w : World) :
    (_manageAppLnk cfg create s1 csidl args description w).trace
        = (_manageAppLnk cfg create s2 csidl args description w).trace
      ∧ (_manageAppLnk cfg create s1 csidl args description w).files
        = (_manageAppLnk cfg create s2 csidl args description w).files
      ∧ (_manageAppLnk cfg create s1 csidl args description w).reg
        = (_manageAppLnk cfg create s2 csidl args description w).reg := by
  unfold _manageAppLnk
  dsimp only
  by_cases he : cfg.cExeName.isEmpty = true
  · simp [he]
  · by_cases hn : w.nextFault = 0
    · cases create
      · simp [he, hn]
      · simp only [he, Bool.false_eq_true, if_false, SHGetFolderPath_hr, SUCCEEDED_hresultOf, hn,
          decide_True, if_true]
        exact createLink_silent cfg s1 s2 _ args description _
    · cases s1 <;> cases s2 <;> simp [he, hn]

/-- With an empty executable name `_manageAppLnk` returns at once. -/
theorem manageAppLnk_noName (cfg : Config) (create silent : Bool) (csidl : Nat)
    (args description : WStr) (w : World) (h : cfg.cExeName = []) :
    _manageAppLnk cfg create silent csidl args description w = w := by
  unfold _manageAppLnk
  simp [h]

/-- The stages of `_manageAppLnk(create = true, ...)`. -/
theorem manageAppLnk_create_shape (cfg : Config) (silent : Bool) (csidl : Nat)
    (args description : WStr) (w : World) (hexe : cfg.cExeName ≠ []) :
    (∃ hf, hf < 0
        ∧ manageAppLnkCalls cfg true silent csidl args description w
          = [.SHGetFolderPath csidl hf]
        ∧ (_manageAppLnk cfg true silent csidl args description w).log = w.log ++
            (if silent then []
              else [⟨"App Error: could not get CSIDL " ++ toString csidl ++ " folder %2", hf⟩])
        ∧ (_manageAppLnk cfg true silent csidl args description w).files = w.files)
    ∨ (∃ hc, hc < 0
        ∧ manageAppLnkCalls cfg true silent csidl args description w
          = [.SHGetFolderPath csidl 0, .CoCreateInstance hc]
        ∧ (_manageAppLnk cfg true silent csidl args description w).log = w.log ++
            (if silent then []
              else [⟨"App Error: could not create instance of IID_IShellLink %1", hc⟩])
        ∧ (_manageAppLnk cfg true silent csidl args description w).files = w.files)
    ∨ (∃ h2 h3 h4 h5 bind hp, isBindRun bind ∧ hp < 0
        ∧ manageAppLnkCalls cfg true silent csidl args description w
          = [.SHGetFolderPath csidl 0, .CoCreateInstance 0, .SetArguments h2, .SetPath h3,
              .SetWorkingDirectory h4, .SetDescription h5] ++ bind ++ [.QueryPersistFile hp]
        ∧ (_manageAppLnk cfg true silent csidl args description w).log = w.log ++
            (if silent then []
              else [⟨"App Error: could not create interface IID_IPersistFile %1", hp⟩])
        ∧ (_manageAppLnk cfg true silent csidl args description w).files = w.files)
    ∨ (∃ h2 h3 h4 h5 bind hs, isBindRun bind
        ∧ manageAppLnkCalls cfg true silent csidl args description w
          = [.SHGetFolderPath csidl 0, .CoCreateInstance 0, .SetArguments h2, .SetPath h3,
              .SetWorkingDirectory h4, .SetDescription h5] ++ bind
              ++ [.QueryPersistFile 0, .Save (cstr (lnkPath cfg (w.folders csidl))) hs]
        ∧ (_manageAppLnk cfg true silent csidl args description w).log = w.log
        ∧ (hs ≠ 0 → (_manageAppLnk cfg true silent csidl args description w).files = w.files)
        ∧ (hs = 0 → ∃ l, (_manageAppLnk cfg true silent csidl args description w).files
              = (fun n => if n = cstr (lnkPath cfg (w.folders csidl)) then some l
                  else w.files n)
            ∧ (l.committed = true ↔ Call.Commit 0 ∈ bind))) := by
  have he := isEmpty_eq_false_of_ne_nil hexe
  by_cases h0 : w.nextFault = 0
  · have hm : _manageAppLnk cfg true silent csidl args description w
        = createLink cfg silent (lnkPath cfg (w.folders csidl)) args description
          (SHGetFolderPath csidl w).2.2 := by
      unfold _manageAppLnk
      simp [he, h0]
    have hcalls : ∀ calls, (_manageAppLnk cfg true silent csidl args description w).trace
        = (SHGetFolderPath csidl w).2.2.trace ++ calls →
        manageAppLnkCalls cfg true silent csidl args description w
          = .SHGetFolderPath csidl 0 :: calls := by
      intro calls h
      apply callsSince_of_trace
      rw [h]; simp [h0, hresultOf]
    rw [hm] at hcalls ⊢
    rcases createLink_shape cfg silent (lnkPath cfg (w.folders csidl)) args description
      (SHGetFolderPath csidl w).2.2 with
      ⟨hc, hneg, htr, hlog, hfiles⟩ | ⟨h2, h3, h4, h5, bind, hp, hrun, hneg, htr, hlog, hfiles⟩
        | ⟨h2, h3, h4, h5, bind, hs, hrun, htr, hlog, hne, heq⟩
    · refine Or.inr (Or.inl ⟨hc, hneg, hcalls _ htr, ?_, ?_⟩)
      · rw [hlog]; simp
      · rw [hfiles]; simp
    · refine Or.inr (Or.inr (Or.inl ⟨h2, h3, h4, h5, bind, hp, hrun, hneg, ?_, ?_, ?_⟩))
      · rw [hcalls _ htr]; simp
      · rw [hlog]; simp
      · rw [hfiles]; simp
    · refine Or.inr (Or.inr (Or.inr ⟨h2, h3, h4, h5, bind, hs, hrun, ?_, ?_, ?_, ?_⟩))
      · rw [hcalls _ htr]; simp
      · rw [hlog]; simp
      · intro h; rw [hne h]; simp
      · intro h
        obtain ⟨l, hl, hcm⟩ := heq h
        exact ⟨l, by rw [hl]; simp, hcm⟩
  · have hneg := (hresultOf_neg_iff _).mpr h0
    have htr2 : (_manageAppLnk cfg true silent csidl args description w).trace
        = w.trace ++ [.SHGetFolderPath csidl (hresultOf w.nextFault)] := by
      unfold _manageAppLnk
      simp only [he, Bool.false_eq_true, if_false, SHGetFolderPath_hr, SUCCEEDED_hresultOf, h0,
        decide_False]
      split_ifs <;> simp
    refine Or.inl ⟨hresultOf w.nextFault, hneg, callsSince_of_trace htr2, ?_, ?_⟩
    · unfold _manageAppLnk
      simp only [he, Bool.false_eq_true, if_false, SHGetFolderPath_hr, SUCCEEDED_hresultOf, h0,
        decide_False]
      cases silent <;> simp
    · unfold _manageAppLnk
      simp only [he, Bool.false_eq_true, if_false, SHGetFolderPath_hr, SUCCEEDED_hresultOf, h0,
        decide_False]
      split_ifs <;> simp

/-- The log of `_manageAppLnk(create = true, ...)` in terms of the calls issued,
and when the link files change. -/
theorem manageAppLnk_create_log (cfg : Config) (silent : Bool) (csidl : Nat)
    (args description : WStr) (w : World) (hexe : cfg.cExeName ≠ []) :
    (_manageAppLnk cfg true silent csidl args description w).trace
        = w.trace ++ manageAppLnkCalls cfg true silent csidl args description w
      ∧ (_manageAppLnk cfg true silent csidl args description w).log
        = w.log ++ (if silent then []
            else (manageAppLnkCalls cfg true silent csidl args description w).filterMap
              Call.lnkLogLine)
      ∧ (∀ c ∈ manageAppLnkCalls cfg true silent csidl args description w,
          (c.lnkLogLine).isSome = true →
            ∃ before, manageAppLnkCalls cfg true silent csidl args description w = before ++ [c])
      ∧ (∀ hr, Call.CoCreateInstance hr ∈ manageAppLnkCalls cfg true silent csidl args description w
          → 0 ≤ hr →
            ∃ hp, Call.QueryPersistFile hp
              ∈ manageAppLnkCalls cfg true silent csidl args description w)
      ∧ ((∀ f, Call.Save f 0 ∉ manageAppLnkCalls cfg true silent csidl args description w) →
          (_manageAppLnk cfg true silent csidl args description w).files = w.files)
      ∧ (∀ f, Call.Save f 0 ∈ manageAppLnkCalls cfg true silent csidl args description w →
          ((_manageAppLnk cfg true silent csidl args description w).files f).isSome = true) := by
  have he := isEmpty_eq_false_of_ne_nil hexe
  by_cases h0 : w.nextFault = 0
  · obtain ⟨calls, htr, hlog, hstop, hpers, hnos, hsave, hnof⟩ :=
      createLink_spec cfg silent (lnkPath cfg (SHGetFolderPath csidl w).2.1) args description
        (SHGetFolderPath csidl w).2.2
    have hm : _manageAppLnk cfg true silent csidl args description w
        = createLink cfg silent (lnkPath cfg (SHGetFolderPath csidl w).2.1) args description
          (SHGetFolderPath csidl w).2.2 := by
      unfold _manageAppLnk
      simp [he, h0]
    have htr2 : (_manageAppLnk cfg true silent csidl args description w).trace
        = w.trace ++ (.SHGetFolderPath csidl 0 :: calls) := by
      rw [hm, htr]; simp [h0, hresultOf]
    have hcalls : manageAppLnkCalls cfg true silent csidl args description w
        = .SHGetFolderPath csidl 0 :: calls := callsSince_of_trace htr2
    rw [hcalls]
    refine ⟨htr2, ?_, ?_, ?_, ?_, ?_⟩
    · rw [hm, hlog]; simp [Call.lnkLogLine]
    · intro c hc hsome
      rcases List.mem_cons.mp hc with rfl | hc
      · simp [Call.lnkLogLine] at hsome
      · obtain ⟨before, hb⟩ := hstop c hc hsome
        exact ⟨.SHGetFolderPath csidl 0 :: before, by rw [hb]; rfl⟩
    · intro hr hmem hnn
      rcases List.mem_cons.mp hmem with h | h
      · cases h
      · obtain ⟨hp, hq⟩ := hpers hr h hnn
        exact ⟨hp, List.mem_cons_of_mem _ hq⟩
    · intro hno
      rw [hm, hnos (fun f hf => hno f (List.mem_cons_of_mem _ hf))]
      simp
    · intro f hmem
      rcases List.mem_cons.mp hmem with h | h
      · cases h
      · rw [hm]; exact hsave f h
  · have hneg := (hresultOf_neg_iff _).mpr h0
    have htr2 : (_manageAppLnk cfg true silent csidl args description w).trace
        = w.trace ++ [.SHGetFolderPath csidl (hresultOf w.nextFault)] := by
      unfold _manageAppLnk
      simp only [he, Bool.false_eq_true, if_false, SHGetFolderPath_hr, SUCCEEDED_hresultOf, h0,
        decide_False]
      split_ifs <;> simp
    have hcalls : manageAppLnkCalls cfg true silent csidl args description w
        = [.SHGetFolderPath csidl (hresultOf w.nextFault)] := callsSince_of_trace htr2
    rw [hcalls]
    refine ⟨htr2, ?_, ?_, ?_, ?_, ?_⟩
    · unfold _manageAppLnk
      simp only [he, Bool.false_eq_true, if_false, SHGetFolderPath_hr, SUCCEEDED_hresultOf, h0,
        decide_False]
      cases silent <;> simp [Call.lnkLogLine, hneg]
    · intro c hc _
      simp only [List.mem_singleton] at hc
      subst hc; exact ⟨[], rfl⟩
    · intro hr hmem
      simp at hmem
    · intro _
      unfold _manageAppLnk
      simp only [he, Bool.false_eq_true, if_false, SHGetFolderPath_hr, SUCCEEDED_hresultOf, h0,
        decide_False]
      split_ifs <;> simp
    · intro f hmem
      simp at hmem

/-- Claim C6, amended: the stages of `_manageAppLnk(create = true, ...)` with a
non-empty executable name.  The run ends in one of four ways.  The folder
resolution fails, or the creation of the shell-link object fails, or the
`IPersistFile` query fails: the failed call is the last call, exactly one line
is logged for it (none when `silent`), no `Save` is issued and the link files
are unchanged.  Or the `IPersistFile` query succeeds: `Save` on the link path
follows as the last call and nothing is logged, whether `Save` succeeds (the
link file is then written) or fails (the link files are unchanged).  Whenever
the object was created, the four setters and the identity-property block come
before the `IPersistFile` query; in that block each step is made only when the
one before succeeded, a failure in it is not logged and does not keep the
persist stage from running, and the saved link is committed exactly when
`Commit` succeeded.  The calls issued and the link files afterwards are the
same for `silent = true` and `silent = false`. -/
theorem manageAppLnk_create_stages (cfg : Config) (silent : Bool) (csidl : Nat)
    (args description : WStr) (w : World) (hexe : cfg.cExeName ≠ []) :
    (_manageAppLnk cfg true silent csidl args description w).trace
        = w.trace ++ manageAppLnkCalls cfg true silent csidl args description w
      ∧ (_manageAppLnk cfg true silent csidl args description w).log
        = w.log ++ (if silent then []
            else (manageAppLnkCalls cfg true silent csidl args description w).filterMap
              Call.lnkLogLine)
      ∧ (∀ c ∈ manageAppLnkCalls cfg true silent csidl args description w,
          (c.lnkLogLine).isSome = true →
            ∃ before, manageAppLnkCalls cfg true silent csidl args description w = before ++ [c])
      ∧ (∀ hr, Call.CoCreateInstance hr ∈ manageAppLnkCalls cfg true silent csidl args description w
          → 0 ≤ hr →
            ∃ hp, Call.QueryPersistFile hp
              ∈ manageAppLnkCalls cfg true silent csidl args description w)
      ∧ ((∀ f, Call.Save f 0 ∉ manageAppLnkCalls cfg true silent csidl args description w) →
          (_manageAppLnk cfg true silent csidl args description w).files = w.files)
      ∧ (∀ f, Call.Save f 0 ∈ manageAppLnkCalls cfg true silent csidl args description w →
          ((_manageAppLnk cfg true silent csidl args description w).files f).isSome = true)
      ∧ ((∃ hf, hf < 0
              ∧ manageAppLnkCalls cfg true silent csidl args description w
                = [.SHGetFolderPath csidl hf]
              ∧ (_manageAppLnk cfg true silent csidl args description w).log = w.log ++
                  (if silent then []
                    else [⟨"App Error: could not get CSIDL " ++ toString csidl ++ " folder %2", hf⟩])
              ∧ (_manageAppLnk cfg true silent csidl args description w).files = w.files)
          ∨ (∃ hc, hc < 0
              ∧ manageAppLnkCalls cfg true silent csidl args description w
                = [.SHGetFolderPath csidl 0, .CoCreateInstance hc]
              ∧ (_manageAppLnk cfg true silent csidl args description w).log = w.log ++
                  (if silent then []
                    else [⟨"App Error: could not create instance of IID_IShellLink %1", hc⟩])
              ∧ (_manageAppLnk cfg true silent csidl args description w).files = w.files)
          ∨ (∃ h2 h3 h4 h5 bind hp, isBindRun bind ∧ hp < 0
              ∧ manageAppLnkCalls cfg true silent csidl args description w
                = [.SHGetFolderPath csidl 0, .CoCreateInstance 0, .SetArguments h2, .SetPath h3,
                    .SetWorkingDirectory h4, .SetDescription h5] ++ bind ++ [.QueryPersistFile hp]
              ∧ (_manageAppLnk cfg true silent csidl args description w).log = w.log ++
                  (if silent then []
                    else [⟨"App Error: could not create interface IID_IPersistFile %1", hp⟩])
              ∧ (_manageAppLnk cfg true silent csidl args description w).files = w.files)
          ∨ (∃ h2 h3 h4 h5 bind hs, isBindRun bind
              ∧ manageAppLnkCalls cfg true silent csidl args description w
                = [.SHGetFolderPath csidl 0, .CoCreateInstance 0, .SetArguments h2, .SetPath h3,
                    .SetWorkingDirectory h4, .SetDescription h5] ++ bind
                    ++ [.QueryPersistFile 0, .Save (cstr (lnkPath cfg (w.folders csidl))) hs]
              ∧ (_manageAppLnk cfg true silent csidl args description w).log = w.log
              ∧ (hs ≠ 0 → (_manageAppLnk cfg true silent csidl args description w).files = w.files)
              ∧ (hs = 0 → ∃ l, (_manageAppLnk cfg true silent csidl args description w).files
                    = (fun n => if n = cstr (lnkPath cfg (w.folders csidl)) then some l
                        else w.files n)
                  ∧ (l.committed = true ↔ Call.Commit 0 ∈ bind))))
      ∧ manageAppLnkCalls cfg true silent csidl args description w
        = manageAppLnkCalls cfg true (!silent) csidl args description w
      ∧ (_manageAppLnk cfg true silent csidl args description w).files
        = (_manageAppLnk cfg true (!silent) csidl args description w).files := by
  obtain ⟨htr, hfiles, -⟩ := manageAppLnk_silent cfg true silent (!silent) csidl args
    description w
  obtain ⟨h1, h2, h3, h4, h5, h6⟩ :=
    manageAppLnk_create_log cfg silent csidl args description w hexe
  refine ⟨h1, h2, h3, h4, h5, h6,
    manageAppLnk_create_shape cfg silent csidl args description w hexe, ?_, hfiles⟩
  unfold manageAppLnkCalls World.callsSince
  rw [htr]

/-- Link removal in a world without injected API failure. -/
theorem manageAppLnk_remove_faultFree (cfg : Config) (silent : Bool) (csidl : Nat)
    (args description : WStr) (w : World) (hexe : cfg.cExeName ≠ []) (hf : w.faults = []) :
    (_manageAppLnk cfg false silent csidl args description w).files
        (lnkPath cfg (w.folders csidl)) = none
      ∧ (∀ n, n ≠ lnkPath cfg (w.folders csidl) →
          (_manageAppLnk cfg false silent csidl args description w).files n = w.files n)
      ∧ (_manageAppLnk cfg false silent csidl args description w).log = w.log
      ∧ (_manageAppLnk cfg false silent csidl args description w).reg = w.reg
      ∧ (w.files (lnkPath cfg (w.folders csidl)) = none →
          (_manageAppLnk cfg false silent csidl args description w).files = w.files) := by
  have he := isEmpty_eq_false_of_ne_nil hexe
  have h0 : w.nextFault = 0 := by simp [World.nextFault, hf]
  have h1 : (SHGetFolderPath csidl w).2.2.nextFault = 0 := by simp [World.nextFault, hf]
  have hm : _manageAppLnk cfg false silent csidl args description w
      = (QFile_remove (lnkPath cfg (w.folders csidl)) (SHGetFolderPath csidl w).2.2).2 := by
    unfold _manageAppLnk
    simp [he, h0]
  rw [hm, QFile_remove_files]
  simp only [h1, true_and, QFile_exists, isEmpty_eq_false_of_ne_nil (lnkPath_ne_nil _ _),
    Bool.not_false, Bool.true_and, SHGetFolderPath_files, QFile_remove_log, SHGetFolderPath_log,
    QFile_remove_reg, SHGetFolderPath_reg]
  refine ⟨?_, ?_, ?_⟩
  · split_ifs with hs
    · simp
    · simpa using hs
  · intro n hn
    split_ifs <;> simp [hn]
  · intro hnone
    simp [hnone]

/-- Claim C5, amended: link removal.  With an empty executable name
`_manageAppLnk(create = false, ...)` returns at once: the world, an existing
link included, is unchanged.  For every configuration with a non-empty
executable name, every folder kind and every world without injected API
failure, after `_manageAppLnk(create = false, ...)` the link file
`<folder>\<AppFile>.lnk` does not exist, no other file is touched, nothing is
logged and the registry is unchanged; when the file was absent before, the
files are unchanged. -/
theorem manageAppLnk_remove (cfg : Config) (silent : Bool) (csidl : Nat)
    (args description : WStr) (w : World) :
    (cfg.cExeName = [] → _manageAppLnk cfg false silent csidl args description w = w)
      ∧ (cfg.cExeName ≠ [] → w.faults = [] →
        (_manageAppLnk cfg false silent csidl args description w).files
            (lnkPath cfg (w.folders csidl)) = none
          ∧ (∀ n, n ≠ lnkPath cfg (w.folders csidl) →
              (_manageAppLnk cfg false silent csidl args description w).files n = w.files n)
          ∧ (_manageAppLnk cfg false silent csidl args description w).log = w.log
          ∧ (_manageAppLnk cfg false silent csidl args description w).reg = w.reg
          ∧ (w.files (lnkPath cfg (w.folders csidl)) = none →
              (_manageAppLnk cfg false silent csidl args description w).files = w.files)) :=
  ⟨manageAppLnk_noName cfg false silent csidl args description w,
    manageAppLnk_remove_faultFree cfg silent csidl args description w⟩

/-- Link creation in a world without injected API failure, also for
`psAutoStart` and `psSendToMenu`. -/
theorem manageAppLnk_create_links (cfg : Config) (silent : Bool) (csidl : Nat)
    (args description : WStr) (w : World) (hexe : cfg.cExeName ≠ []) (hf : w.faults = []) :
    (_manageAppLnk cfg true silent csidl args description w).files
        (cstr (lnkPath cfg (w.folders csidl)))
      = some
          { arguments := some args,
            path := some (cstr (toNativeSeparators (cfg.cExeDir ++ cfg.cExeName))),
            workingDirectory :=
              some (cstr (toNativeSeparators (cfg.absolutePath cfg.cWorkingDir))),
            description := some description,
            appUserModelId := some cfg.appUserModelId,
            committed := true }
      ∧ (_manageAppLnk cfg true silent csidl args description w).log = w.log
      ∧ (psAutoStart cfg true silent w).files (cstr (lnkPath cfg (w.folders CSIDL_STARTUP)))
        = some
          { arguments := some (qsl "-autostart"),
            path := some (cstr (toNativeSeparators (cfg.cExeDir ++ cfg.cExeName))),
            workingDirectory :=
              some (cstr (toNativeSeparators (cfg.absolutePath cfg.cWorkingDir))),
            description := some
              (qsl "Telegram autorun link.\nYou can disable autorun in Telegram settings."),
            appUserModelId := some cfg.appUserModelId,
            committed := true }
      ∧ (psSendToMenu cfg true silent w).files (cstr (lnkPath cfg (w.folders CSIDL_SENDTO)))
        = some
          { arguments := some (qsl "-sendpath"),
            path := some (cstr (toNativeSeparators (cfg.cExeDir ++ cfg.cExeName))),
            workingDirectory :=
              some (cstr (toNativeSeparators (cfg.absolutePath cfg.cWorkingDir))),
            description := some (qsl
              "Telegram send to link.\nYou can disable send to menu item in Telegram settings."),
            appUserModelId := some cfg.appUserModelId,
            committed := true } := by
  refine ⟨(manageAppLnk_create_faultFree cfg silent csidl args description w hexe hf).1,
    (manageAppLnk_create_faultFree cfg silent csidl args description w hexe hf).2.1, ?_, ?_⟩
  · exact (manageAppLnk_create_faultFree cfg silent CSIDL_STARTUP _ _ w hexe hf).1
  · exact (manageAppLnk_create_faultFree cfg silent CSIDL_SENDTO _ _ w hexe hf).1

/-- Claim C4, amended: link creation.  With an empty executable name
`_manageAppLnk(create = true, ...)` returns at once: the world is unchanged and
no link is created.  For every configuration with a non-empty executable name,
every folder kind and every world without injected API failure, after
`_manageAppLnk(create = true, ...)` the link file `<folder>\<AppFile>.lnk`
exists and carries the given arguments, the native-separator executable path as
target, the native-separator absolute working directory, the given description
and the committed application identity; nothing is logged.  For `psAutoStart`
the folder is Startup and the arguments are `-autostart`, for `psSendToMenu` the
folder is SendTo and the arguments are `-sendpath`. -/
theorem manageAppLnk_create (cfg : Config) (silent : Bool) (csidl : Nat)
    (args description : WStr) (w : World) :
    (cfg.cExeName = [] → _manageAppLnk cfg true silent csidl args description w = w)
      ∧ (cfg.cExeName ≠ [] → w.faults = [] →
        (_manageAppLnk cfg true silent csidl args description w).files
            (cstr (lnkPath cfg (w.folders csidl)))
          = some
              { arguments := some args,
                path := some (cstr (toNativeSeparators (cfg.cExeDir ++ cfg.cExeName))),
                workingDirectory :=
                  some (cstr (toNativeSeparators (cfg.absolutePath cfg.cWorkingDir))),
                description := some description,
                appUserModelId := some cfg.appUserModelId,
                committed := true }
          ∧ (_manageAppLnk cfg true silent csidl args description w).log = w.log
          ∧ (psAutoStart cfg true silent w).files (cstr (lnkPath cfg (w.folders CSIDL_STARTUP)))
            = some
              { arguments := some (qsl "-autostart"),
                path := some (cstr (toNativeSeparators (cfg.cExeDir ++ cfg.cExeName))),
                workingDirectory :=
                  some (cstr (toNativeSeparators (cfg.absolutePath cfg.cWorkingDir))),
                description := some
                  (qsl "Telegram autorun link.\nYou can disable autorun in Telegram settings."),
                appUserModelId := some cfg.appUserModelId,
                committed := true }
          ∧ (psSendToMenu cfg true silent w).files (cstr (lnkPath cfg (w.folders CSIDL_SENDTO)))
            = some
              { arguments := some (qsl "-sendpath"),
                path := some (cstr (toNativeSeparators (cfg.cExeDir ++ cfg.cExeName))),
                workingDirectory :=
                  some (cstr (toNativeSeparators (cfg.absolutePath cfg.cWorkingDir))),
                description := some (qsl
                  "Telegram send to link.\nYou can disable send to menu item in Telegram settings."),
                appUserModelId := some cfg.appUserModelId,
                committed := true }) :=
  ⟨manageAppLnk_noName cfg true silent csidl args description w,
    manageAppLnk_create_links cfg silent csidl args description w⟩

/-! ## The formatting step of _psSetKeyValue -/

theorem cstr_nil : cstr [] = [] := rfl
theorem cstr_cons_zero (r : WStr) : cstr (0 :: r) = [] := rfl
theorem cstr_cons_ne (c : Nat) (r : WStr) (h : c ≠ 0) : cstr (c :: r) = c :: cstr r := by
  unfold cstr
  rw [List.takeWhile_cons]
  simp [h]

theorem cstr_escapePercent (v : WStr) : cstr (escapePercent v) = escapePercent (cstr v) := by
  induction v with
  | nil => rfl
  | cons c rest ih =>
    by_cases h37 : c = 37
    · subst h37
      rw [cstr_cons_ne 37 rest (by decide)]
      simp only [escapePercent, if_true]
      rw [cstr_cons_ne 37 _ (by decide), cstr_cons_ne 37 _ (by decide), ih]
    · by_cases h0 : c = 0
      · subst h0
        rw [cstr_cons_zero]
        simp only [escapePercent]
        rw [if_neg (by decide), cstr_cons_zero]
      · rw [cstr_cons_ne c rest h0]
        simp only [escapePercent, if_neg h37]
        rw [cstr_cons_ne c _ h0, ih]

/-- Escaping then formatting gives the string back, cut at the output limit. -/
theorem wsprintfLoop_escapePercent (room : Nat) (v : WStr) :
    wsprintfLoop room (escapePercent v) = some (v.take room) := by
  induction room generalizing v with
  | zero => cases v <;> simp [wsprintfLoop]
  | succ n ih =>
    cases v with
    | nil => simp [wsprintfLoop, escapePercent]
    | cons c rest =>
      by_cases h37 : c = 37
      · subst h37
        simp [escapePercent, wsprintfLoop, ih]
      · simp [escapePercent, h37, wsprintfLoop, ih]

theorem wsprintfW_escapePercent (v : WStr) :
    wsprintfW (cstr (escapePercent v)) = some ((cstr v).take (WSPRINTF_LIMIT - 1)) := by
  rw [cstr_escapePercent]
  exact wsprintfLoop_escapePercent _ _

theorem cstr_noNul (v : WStr) : ∀ c ∈ cstr v, c ≠ 0 := by
  intro c hc
  have := List.mem_takeWhile_imp hc
  simpa using this

theorem cstr_append_zero (u rest : WStr) (hu : ∀ c ∈ u, c ≠ 0) : cstr (u ++ 0 :: rest) = u := by
  induction u with
  | nil => exact cstr_cons_zero rest
  | cons c t ih =>
    have hc : c ≠ 0 := hu c (List.mem_cons_self _ _)
    have ht : ∀ d ∈ t, d ≠ 0 := fun d hd => hu d (List.mem_cons_of_mem _ hd)
    rw [List.cons_append, cstr_cons_ne c _ hc, ih ht]

theorem cstr_eq_self (u : WStr) (hu : ∀ c ∈ u, c ≠ 0) : cstr u = u := by
  induction u with
  | nil => rfl
  | cons c t ih =>
    have hc : c ≠ 0 := hu c (List.mem_cons_self _ _)
    have ht : ∀ d ∈ t, d ≠ 0 := fun d hd => hu d (List.mem_cons_of_mem _ hd)
    rw [cstr_cons_ne c _ hc, ih ht]

/-- The string `_psSetKeyValue` hands to `RegSetValueEx` for the value `v`. -/
theorem formatTmp_data (v : WStr) :
    ∃ tmp, formatTmp v = some tmp
      ∧ bytesOfWcs (tmp.take (wcslen tmp + 1))
          = bytesOfWcs ((cstr v).take (WSPRINTF_LIMIT - 1) ++ [0]) := by
  unfold formatTmp
  cases v with
  | nil =>
    refine ⟨List.replicate bufSize 0, by simp, ?_⟩
    have hrep : List.replicate bufSize 0 = 0 :: List.replicate (bufSize - 1) 0 := rfl
    have : wcslen (List.replicate bufSize 0) = 0 := by
      rw [hrep, wcslen, cstr_cons_zero]; rfl
    rw [this, hrep]
    simp [cstr_nil]
  | cons c rest =>
    have hu : ∀ d ∈ (cstr (c :: rest)).take (WSPRINTF_LIMIT - 1), d ≠ 0 :=
      fun d hd => cstr_noNul _ d (List.mem_of_mem_take hd)
    refine ⟨fillBuffer (List.replicate bufSize 0)
        ((cstr (c :: rest)).take (WSPRINTF_LIMIT - 1) ++ [0]),
      by simp [wsprintfW_escapePercent], ?_⟩
    have hfill : fillBuffer (List.replicate bufSize 0)
        ((cstr (c :: rest)).take (WSPRINTF_LIMIT - 1) ++ [0])
        = (cstr (c :: rest)).take (WSPRINTF_LIMIT - 1)
          ++ 0 :: (List.replicate bufSize 0).drop
            (((cstr (c :: rest)).take (WSPRINTF_LIMIT - 1) ++ [0]).length) := by
      simp [fillBuffer]
    rw [hfill]
    have hlen : wcslen ((cstr (c :: rest)).take (WSPRINTF_LIMIT - 1)
          ++ 0 :: (List.replicate bufSize 0).drop
            (((cstr (c :: rest)).take (WSPRINTF_LIMIT - 1) ++ [0]).length))
        = ((cstr (c :: rest)).take (WSPRINTF_LIMIT - 1)).length := by
      unfold wcslen
      rw [cstr_append_zero _ _ hu]
    rw [hlen]
    congr 1
    rw [List.take_append_eq_append_take]
    simp

theorem formatTmp_isSome (v : WStr) : formatTmp v ≠ none := by
  obtain ⟨tmp, h, _⟩ := formatTmp_data v
  simp [h]

/-! ### RegCreateKeyEx, RegSetValueEx -/

theorem RegCreateKeyEx_spec (h : Hive) (k : String) (w : World) :
    (RegCreateKeyEx h k w).2.files = w.files
      ∧ (RegCreateKeyEx h k w).2.folders = w.folders
      ∧ (RegCreateKeyEx h k w).2.log = w.log
      ∧ (RegCreateKeyEx h k w).2.faults = w.faults.tail
      ∧ (RegCreateKeyEx h k w).2.trace = w.trace ++ [.RegCreateKeyEx h k (RegCreateKeyEx h k w).1]
      ∧ ((RegCreateKeyEx h k w).1 ≠ 0 → (RegCreateKeyEx h k w).2.reg = w.reg)
      ∧ ((RegCreateKeyEx h k w).1 = 0 →
          ((RegCreateKeyEx h k w).2.reg h k).isSome = true
            ∧ ((RegCreateKeyEx h k w).2.reg = w.reg
              ∨ (w.reg h k = none
                ∧ (RegCreateKeyEx h k w).2.reg = w.reg.setKey h k (some (fun _ => none))))) := by
  unfold RegCreateKeyEx
  simp only [popFault_fst, popFault_reg, ERROR_SUCCESS]
  by_cases hf : w.nextFault = 0
  · by_cases hs : (w.reg h k).isSome = true
    · simp [hf, hs]
    · have hn : w.reg h k = none := by simpa using hs
      simp [hf, hn, Registry.setKey]
  · simp [hf]

theorem RegSetValueEx_spec (k : HKey) (n : Option String) (t : Nat) (d : List Nat) (w : World) :
    (RegSetValueEx k n t d w).2.files = w.files
      ∧ (RegSetValueEx k n t d w).2.folders = w.folders
      ∧ (RegSetValueEx k n t d w).2.log = w.log
      ∧ (RegSetValueEx k n t d w).2.faults = w.faults.tail
      ∧ (RegSetValueEx k n t d w).2.trace
          = w.trace ++ [.RegSetValueEx k n t d (RegSetValueEx k n t d w).1]
      ∧ ((RegSetValueEx k n t d w).1 ≠ 0 → (RegSetValueEx k n t d w).2.reg = w.reg)
      ∧ ((RegSetValueEx k n t d w).1 = 0 →
          ∃ vals, w.reg k.hive k.path = some vals
            ∧ (RegSetValueEx k n t d w).2.reg
              = w.reg.setKey k.hive k.path (some (vals.setValue n ⟨t, d⟩))) := by
  unfold RegSetValueEx
  simp only [popFault_fst, popFault_reg, ERROR_SUCCESS]
  by_cases hf : w.nextFault = 0
  · cases hk : w.reg k.hive k.path with
    | none => simp [hf, hk, ERROR_INVALID_HANDLE]
    | some vals => simp [hf, hk]
  · simp [hf]

/-! ### _psOpenRegKey, _psSetKeyValue -/

theorem psOpenRegKey_cases (key : String) (rkey : HKey) (w : World) :
    ((RegOpenKeyEx .HKCU key w).1 = 0
        ∧ _psOpenRegKey key rkey w = (true, ⟨.HKCU, key⟩, (RegOpenKeyEx .HKCU key w).2))
      ∨ ((RegOpenKeyEx .HKCU key w).1 = 2
        ∧ (RegCreateKeyEx .HKCU key (RegOpenKeyEx .HKCU key w).2).1 = 0
        ∧ _psOpenRegKey key rkey w
          = (true, ⟨.HKCU, key⟩, (RegCreateKeyEx .HKCU key (RegOpenKeyEx .HKCU key w).2).2))
      ∨ ((RegOpenKeyEx .HKCU key w).1 = 2
        ∧ (RegCreateKeyEx .HKCU key (RegOpenKeyEx .HKCU key w).2).1 ≠ 0
        ∧ _psOpenRegKey key rkey w
          = (false, rkey,
              (RegCreateKeyEx .HKCU key (RegOpenKeyEx .HKCU key w).2).2.logLine
                ("App Error: could not create '" ++ key ++ "' registry key, error %1: %2")
                (RegCreateKeyEx .HKCU key (RegOpenKeyEx .HKCU key w).2).1))
      ∨ ((RegOpenKeyEx .HKCU key w).1 ≠ 0
        ∧ _psOpenRegKey key rkey w
          = (false, rkey,
              (RegOpenKeyEx .HKCU key w).2.logLine
                ("App Error: could not open '" ++ key ++ "' registry key, error %1: %2")
                (RegOpenKeyEx .HKCU key w).1)) := by
  unfold _psOpenRegKey _psLogError
  dsimp only
  by_cases ho : (RegOpenKeyEx .HKCU key w).1 = 0
  · left
    exact ⟨ho, by simp [ho, ERROR_SUCCESS]⟩
  · by_cases hnf : (RegOpenKeyEx .HKCU key w).1 = 2
    · by_cases hc : (RegCreateKeyEx .HKCU key (RegOpenKeyEx .HKCU key w).2).1 = 0
      · right; left
        exact ⟨hnf, hc, by simp [hnf, hc, ERROR_SUCCESS, ERROR_FILE_NOT_FOUND]⟩
      · right; right; left
        exact ⟨hnf, hc, by simp [hnf, hc, ERROR_SUCCESS, ERROR_FILE_NOT_FOUND]⟩
    · right; right; right
      exact ⟨ho, by simp [ho, hnf, ERROR_SUCCESS, ERROR_FILE_NOT_FOUND]⟩

theorem RegOpenKeyEx_success {h : Hive} {k : String} {w : World}
    (ho : (RegOpenKeyEx h k w).1 = 0) : (w.reg h k).isSome = true := by
  rw [RegOpenKeyEx_status] at ho
  by_contra hc
  split_ifs at ho with h1 <;> simp_all [ERROR_SUCCESS, ERROR_FILE_NOT_FOUND]

/-- What one call of `_psOpenRegKey` does to the world. -/
theorem psOpenRegKey_spec (key : String) (rkey : HKey) (w : World) :
    (_psOpenRegKey key rkey w).2.2.files = w.files
      ∧ (_psOpenRegKey key rkey w).2.2.folders = w.folders
      ∧ (∃ calls, (_psOpenRegKey key rkey w).2.2.trace = w.trace ++ calls
          ∧ calls.filter Call.isValueWrite = [] ∧ calls ≠ [])
      ∧ ((_psOpenRegKey key rkey w).1 = true →
          (_psOpenRegKey key rkey w).2.1 = ⟨.HKCU, key⟩
            ∧ (_psOpenRegKey key rkey w).2.2.log = w.log
            ∧ ((_psOpenRegKey key rkey w).2.2.reg .HKCU key).isSome = true
            ∧ ((_psOpenRegKey key rkey w).2.2.reg = w.reg
              ∨ (w.reg .HKCU key = none
                ∧ (_psOpenRegKey key rkey w).2.2.reg
                  = w.reg.setKey .HKCU key (some (fun _ => none)))))
      ∧ ((_psOpenRegKey key rkey w).1 = false →
          (_psOpenRegKey key rkey w).2.1 = rkey
            ∧ (_psOpenRegKey key rkey w).2.2.reg = w.reg
            ∧ ∃ e, (_psOpenRegKey key rkey w).2.2.log = w.log ++ [e] ∧ e.code ≠ 0) := by
  obtain ⟨cf, cfo, cl, _, ct, cne, ceq⟩ :=
    RegCreateKeyEx_spec .HKCU key (RegOpenKeyEx .HKCU key w).2
  rcases psOpenRegKey_cases key rkey w with ⟨ho, he⟩ | ⟨ho, hc, he⟩ | ⟨ho, hc, he⟩ | ⟨ho, he⟩
  · rw [he]
    refine ⟨by simp, by simp,
      ⟨[.RegOpenKeyEx .HKCU key (RegOpenKeyEx .HKCU key w).1], by simp,
        by simp [Call.isValueWrite], by simp⟩, ?_, by simp⟩
    intro _
    exact ⟨rfl, by simp, by simpa using RegOpenKeyEx_success ho, Or.inl (by simp)⟩
  · rw [he]
    refine ⟨by simp [cf], by simp [cfo],
      ⟨[.RegOpenKeyEx .HKCU key (RegOpenKeyEx .HKCU key w).1,
        .RegCreateKeyEx .HKCU key (RegCreateKeyEx .HKCU key (RegOpenKeyEx .HKCU key w).2).1],
        by simp only [ct, RegOpenKeyEx_trace]; simp,
        by simp [Call.isValueWrite], by simp⟩, ?_, by simp⟩
    intro _
    obtain ⟨hs, hr⟩ := ceq hc
    refine ⟨rfl, by simp [cl], hs, ?_⟩
    simpa using hr
  · rw [he]
    refine ⟨by simp [cf], by simp [cfo],
      ⟨[.RegOpenKeyEx .HKCU key (RegOpenKeyEx .HKCU key w).1,
        .RegCreateKeyEx .HKCU key (RegCreateKeyEx .HKCU key (RegOpenKeyEx .HKCU key w).2).1],
        by simp only [logLine_trace, ct, RegOpenKeyEx_trace]; simp,
        by simp [Call.isValueWrite], by simp⟩, by simp, ?_⟩
    intro _
    refine ⟨rfl, by simp [cne hc],
      ⟨⟨"App Error: could not create '" ++ key ++ "' registry key, error %1: %2",
        (RegCreateKeyEx .HKCU key (RegOpenKeyEx .HKCU key w).2).1⟩, by simp [cl], ?_⟩⟩
    simpa using hc
  · rw [he]
    refine ⟨by simp, by simp,
      ⟨[.RegOpenKeyEx .HKCU key (RegOpenKeyEx .HKCU key w).1], by simp,
        by simp [Call.isValueWrite], by simp⟩, by simp, ?_⟩
    intro _
    refine ⟨rfl, by simp,
      ⟨⟨"App Error: could not open '" ++ key ++ "' registry key, error %1: %2",
        (RegOpenKeyEx .HKCU key w).1⟩, by simp, ?_⟩⟩
    simpa using ho

theorem psSetKeyValue_cases (rkey : HKey) (value : Option String) (v : WStr) (w : World) :
    (storedEquals (RegQueryValueEx rkey value (bufSize * 2) w).1 v = true
        ∧ _psSetKeyValue rkey value v w = (true, (RegQueryValueEx rkey value (bufSize * 2) w).2))
      ∨ (storedEquals (RegQueryValueEx rkey value (bufSize * 2) w).1 v = false
        ∧ (RegSetValueEx rkey value REG_SZ
              (bytesOfWcs ((cstr v).take (WSPRINTF_LIMIT - 1) ++ [0]))
              (RegQueryValueEx rkey value (bufSize * 2) w).2).1 = 0
        ∧ _psSetKeyValue rkey value v w
          = (true, (RegSetValueEx rkey value REG_SZ
              (bytesOfWcs ((cstr v).take (WSPRINTF_LIMIT - 1) ++ [0]))
              (RegQueryValueEx rkey value (bufSize * 2) w).2).2))
      ∨ (storedEquals (RegQueryValueEx rkey value (bufSize * 2) w).1 v = false
        ∧ (RegSetValueEx rkey value REG_SZ
              (bytesOfWcs ((cstr v).take (WSPRINTF_LIMIT - 1) ++ [0]))
              (RegQueryValueEx rkey value (bufSize * 2) w).2).1 ≠ 0
        ∧ ∃ text, _psSetKeyValue rkey value v w
          = (false, (RegSetValueEx rkey value REG_SZ
              (bytesOfWcs ((cstr v).take (WSPRINTF_LIMIT - 1) ++ [0]))
              (RegQueryValueEx rkey value (bufSize * 2) w).2).2.logLine text
                (RegSetValueEx rkey value REG_SZ
                  (bytesOfWcs ((cstr v).take (WSPRINTF_LIMIT - 1) ++ [0]))
                  (RegQueryValueEx rkey value (bufSize * 2) w).2).1)) := by
  obtain ⟨tmp, htmp, hdata⟩ := formatTmp_data v
  unfold _psSetKeyValue _psLogError
  dsimp only
  rw [htmp]
  dsimp only
  rw [hdata]
  by_cases hs : storedEquals (RegQueryValueEx rkey value (bufSize * 2) w).1 v = true
  · left
    exact ⟨hs, by simp [hs]⟩
  · have hs' : storedEquals (RegQueryValueEx rkey value (bufSize * 2) w).1 v = false := by
      simpa using hs
    right
    by_cases hw : (RegSetValueEx rkey value REG_SZ
              (bytesOfWcs ((cstr v).take (WSPRINTF_LIMIT - 1) ++ [0]))
              (RegQueryValueEx rkey value (bufSize * 2) w).2).1 = 0
    · left
      exact ⟨hs', hw, by simp [hs', hw, ERROR_SUCCESS]⟩
    · right
      exact ⟨hs', hw, setErrorText value, by simp [hs', hw, ERROR_SUCCESS]⟩

theorem storedEquals_status {q : QueryResult} {v : WStr} (h : storedEquals q v = true) :
    q.status = 0 := by
  unfold storedEquals at h
  simp only [Bool.and_eq_true, decide_eq_true_eq, ERROR_SUCCESS] at h
  exact h.1.1.1

/-- When the query reports the stored value equal, no failure was injected and
the registry holds the value. -/
theorem storedEquals_query {rkey : HKey} {value : Option String} {v : WStr} {w : World}
    (h : storedEquals (RegQueryValueEx rkey value (bufSize * 2) w).1 v = true) :
    holdsValue w.reg rkey value v = true := by
  have hst := storedEquals_status h
  rw [RegQueryValueEx_result] at h hst
  by_cases hf : w.nextFault ≠ ERROR_SUCCESS
  · rw [if_pos hf] at hst
    exact absurd hst hf
  · rw [if_neg hf] at h
    exact h

theorem query_faultFree (rkey : HKey) (value : Option String) (w : World) (cb : Nat)
    (hf : w.nextFault = 0) :
    (RegQueryValueEx rkey value cb w).1 = queryValue w.reg rkey value cb := by
  rw [RegQueryValueEx_result]
  simp [hf, ERROR_SUCCESS]

/-- What one call of `_psSetKeyValue` does to the world. -/
theorem psSetKeyValue_spec (rkey : HKey) (value : Option String) (v : WStr) (w : World) :
    (_psSetKeyValue rkey value v w).2.files = w.files
      ∧ (_psSetKeyValue rkey value v w).2.folders = w.folders
      ∧ (∃ calls, (_psSetKeyValue rkey value v w).2.trace = w.trace ++ calls ∧ calls ≠ [])
      ∧ ((_psSetKeyValue rkey value v w).1 = true →
          (_psSetKeyValue rkey value v w).2.log = w.log
            ∧ (((_psSetKeyValue rkey value v w).2.reg = w.reg
                ∧ holdsValue w.reg rkey value v = true)
              ∨ (∃ vals, w.reg rkey.hive rkey.path = some vals
                ∧ (_psSetKeyValue rkey value v w).2.reg
                  = w.reg.setKey rkey.hive rkey.path
                    (some (vals.setValue value
                      ⟨REG_SZ, bytesOfWcs ((cstr v).take (WSPRINTF_LIMIT - 1) ++ [0])⟩)))))
      ∧ ((_psSetKeyValue rkey value v w).1 = false →
          (_psSetKeyValue rkey value v w).2.reg = w.reg
            ∧ ∃ e, (_psSetKeyValue rkey value v w).2.log = w.log ++ [e] ∧ e.code ≠ 0) := by
  obtain ⟨sf, sfo, sl, _, st, sne, seq⟩ := RegSetValueEx_spec rkey value REG_SZ
    (bytesOfWcs ((cstr v).take (WSPRINTF_LIMIT - 1) ++ [0]))
    (RegQueryValueEx rkey value (bufSize * 2) w).2
  have st' := st
  rw [RegQueryValueEx_trace, List.append_assoc] at st'
  rcases psSetKeyValue_cases rkey value v w with ⟨hs, he⟩ | ⟨hs, hw, he⟩ | ⟨hs, hw, text, he⟩
  · rw [he]
    refine ⟨by simp, by simp,
      ⟨[.RegQueryValueEx rkey value (RegQueryValueEx rkey value (bufSize * 2) w).1.status],
        by simp, by simp⟩, ?_, by simp⟩
    intro _
    exact ⟨by simp, Or.inl ⟨by simp, storedEquals_query hs⟩⟩
  · rw [he]
    refine ⟨by simp [sf], by simp [sfo], ⟨_, st', by simp⟩, ?_, by simp⟩
    intro _
    refine ⟨by simp [sl], Or.inr ?_⟩
    simpa using seq hw
  · rw [he]
    refine ⟨by simp [sf], by simp [sfo], ⟨_, (logLine_trace _ _ _).trans st', by simp⟩,
      by simp, ?_⟩
    intro _
    refine ⟨by simp [sne hw], ⟨⟨text, (RegSetValueEx rkey value REG_SZ
      (bytesOfWcs ((cstr v).take (WSPRINTF_LIMIT - 1) ++ [0]))
      (RegQueryValueEx rkey value (bufSize * 2) w).2).1⟩, by simp [sl], ?_⟩⟩
    simpa using hw

/-- A value already held is not written again when no failure is injected. -/
theorem psSetKeyValue_skip (rkey : HKey) (value : Option String) (v : WStr) (w : World)
    (hf : w.nextFault = 0) (hh : holdsValue w.reg rkey value v = true) :
    _psSetKeyValue rkey value v w = (true, (RegQueryValueEx rkey value (bufSize * 2) w).2)
      ∧ (RegQueryValueEx rkey value (bufSize * 2) w).2.trace
        = w.trace ++ [.RegQueryValueEx rkey value 0] := by
  have hq := query_faultFree rkey value w (bufSize * 2) hf
  have hs : storedEquals (RegQueryValueEx rkey value (bufSize * 2) w).1 v = true := by
    rw [hq]; exact hh
  rcases psSetKeyValue_cases rkey value v w with ⟨_, he⟩ | ⟨hs', _⟩ | ⟨hs', _⟩
  · refine ⟨he, ?_⟩
    rw [RegQueryValueEx_trace, storedEquals_status hs]
  · rw [hs] at hs'; cases hs'
  · rw [hs] at hs'; cases hs'

/-! ## Runs of RegisterCustomScheme -/

/-- What one line does to the world. -/
theorem execOp_spec (op : RegOp) (rkey : HKey) (w : World) :
    (execOp op rkey w).world.files = w.files
      ∧ (∃ calls, (execOp op rkey w).world.trace = w.trace ++ calls ∧ calls ≠ [])
      ∧ ((execOp op rkey w).ok = true → (execOp op rkey w).world.log = w.log)
      ∧ ((execOp op rkey w).ok = false →
          (execOp op rkey w).world.reg = w.reg
            ∧ ∃ e, (execOp op rkey w).world.log = w.log ++ [e] ∧ e.code ≠ 0) := by
  cases op with
  | openKey key =>
    obtain ⟨hf, _, ⟨calls, ht, _, hne⟩, hok, hfail⟩ := psOpenRegKey_spec key rkey w
    exact ⟨hf, ⟨calls, ht, hne⟩, fun h => (hok h).2.1, fun h => ⟨(hfail h).2.1, (hfail h).2.2⟩⟩
  | setValue value v =>
    obtain ⟨hf, _, hc, hok, hfail⟩ := psSetKeyValue_spec rkey value v w
    exact ⟨hf, hc, fun h => (hok h).1, hfail⟩

theorem runOps_append (a b : List RegOp) (rkey : HKey) (w : World) :
    runOps (a ++ b) rkey w =
      if (runOps a rkey w).ok = true
      then runOps b (runOps a rkey w).rkey (runOps a rkey w).world
      else runOps a rkey w := by
  induction a generalizing rkey w with
  | nil => simp [runOps]
  | cons op rest ih =>
    simp only [List.cons_append, runOps]
    by_cases h : (execOp op rkey w).ok = true
    · simp only [h, if_true]
      exact ih _ _
    · simp [h]

theorem runOps_single (op : RegOp) (rkey : HKey) (w : World) :
    runOps [op] rkey w = execOp op rkey w := by
  simp only [runOps]
  split_ifs with h
  · cases hr : execOp op rkey w with
    | mk ok k wd =>
      rw [hr] at h
      simp only at h
      subst h
      rfl
  · rfl

/-- A failing line ends the run: the result is that of the lines up to it. -/
theorem runOps_fail_fast (ops : List RegOp) (rkey : HKey) (w : World) (N : Nat)
    (hpre : (runOps (ops.take N) rkey w).ok = true)
    (hfail : (runOps (ops.take (N + 1)) rkey w).ok = false) :
    runOps ops rkey w = runOps (ops.take (N + 1)) rkey w
      ∧ ∃ op, ops[N]? = some op
        ∧ runOps ops rkey w
          = execOp op (runOps (ops.take N) rkey w).rkey (runOps (ops.take N) rkey w).world := by
  have hsplit : runOps ops rkey w = runOps (ops.take (N + 1)) rkey w := by
    conv_lhs => rw [← List.take_append_drop (N + 1) ops]
    rw [runOps_append]
    simp [hfail]
  refine ⟨hsplit, ?_⟩
  cases hN : ops[N]? with
  | none =>
    have hlen : ops.length ≤ N := by
      simpa using hN
    rw [List.take_of_length_le hlen] at hpre
    rw [List.take_of_length_le (by omega)] at hfail
    rw [hpre] at hfail
    cases hfail
  | some op =>
    refine ⟨op, rfl, ?_⟩
    have hlt : N < ops.length := by
      by_contra hc
      have : ops[N]? = none := by simp; omega
      rw [this] at hN; cases hN
    have hget : ops[N] = op := by
      have := List.getElem?_eq_getElem hlt
      rw [this] at hN
      exact Option.some.inj hN
    have htake : ops.take (N + 1) = ops.take N ++ [op] := by
      rw [List.take_succ, hN]; rfl
    rw [hsplit, htake, runOps_append]
    simp only [hpre, if_true, runOps_single]

/-- Claim C2: fail-fast ordering of `RegisterCustomScheme`.  If the first `N`
lines of the function succeed and line `N + 1` fails, the function returns
exactly what the first `N + 1` lines produce, namely the state right after the
failing line: no later line issues a call.  The registry is the one the first
`N` lines left (nothing is rolled back, the failing line changes nothing) and
the log has grown by one line carrying a non-zero status. -/
theorem RegisterCustomScheme_fail_fast (cfg : Config) (rkey0 : HKey) (w : World) (N : Nat)
    (hexe : cfg.cExeName ≠ [])
    (hpre : (runOps ((schemeOps cfg).take N) rkey0 w).ok = true)
    (hfail : (runOps ((schemeOps cfg).take (N + 1)) rkey0 w).ok = false) :
    RegisterCustomScheme cfg rkey0 w = runOps ((schemeOps cfg).take (N + 1)) rkey0 w
      ∧ (RegisterCustomScheme cfg rkey0 w).ok = false
      ∧ (∃ op, (schemeOps cfg)[N]? = some op
          ∧ RegisterCustomScheme cfg rkey0 w
            = execOp op (runOps ((schemeOps cfg).take N) rkey0 w).rkey
                (runOps ((schemeOps cfg).take N) rkey0 w).world)
      ∧ (RegisterCustomScheme cfg rkey0 w).world.reg
          = (runOps ((schemeOps cfg).take N) rkey0 w).world.reg
      ∧ (∃ e, (RegisterCustomScheme cfg rkey0 w).world.log
          = (runOps ((schemeOps cfg).take N) rkey0 w).world.log ++ [e] ∧ e.code ≠ 0)
      ∧ (∃ calls, (RegisterCustomScheme cfg rkey0 w).world.trace
          = (runOps ((schemeOps cfg).take N) rkey0 w).world.trace ++ calls ∧ calls ≠ []) := by
  have hreg : RegisterCustomScheme cfg rkey0 w = runOps (schemeOps cfg) rkey0 w := by
    unfold RegisterCustomScheme
    rw [isEmpty_eq_false_of_ne_nil hexe]
    simp
  obtain ⟨h1, op, hop, h2⟩ := runOps_fail_fast (schemeOps cfg) rkey0 w N hpre hfail
  have hok : (execOp op (runOps ((schemeOps cfg).take N) rkey0 w).rkey
      (runOps ((schemeOps cfg).take N) rkey0 w).world).ok = false := by
    rw [← h2, h1]; exact hfail
  obtain ⟨_, hcalls, _, hf⟩ := execOp_spec op (runOps ((schemeOps cfg).take N) rkey0 w).rkey
      (runOps ((schemeOps cfg).take N) rkey0 w).world
  rw [hreg]
  refine ⟨h1, by rw [h1]; exact hfail, ⟨op, hop, h2⟩, ?_, ?_, ?_⟩
  · rw [h2]; exact (hf hok).1
  · rw [h2]; exact (hf hok).2
  · rw [h2]; exact hcalls

/-! ## A second run finds the registry settled -/

theorem nextFault_of_faults_nil {w : World} (hf : w.faults = []) : w.nextFault = 0 := by
  simp [World.nextFault, hf]

/-- On a settled registry a run without injected failure writes nothing. -/
theorem runOps_settled (ops : List RegOp) (rkey : HKey) (w : World) (hf : w.faults = [])
    (hs : settled w.reg ops rkey) :
    (runOps ops rkey w).ok = true
      ∧ (runOps ops rkey w).world.reg = w.reg
      ∧ (runOps ops rkey w).world.log = w.log
      ∧ (runOps ops rkey w).world.files = w.files
      ∧ ∃ calls, (runOps ops rkey w).world.trace = w.trace ++ calls
          ∧ calls.filter Call.isValueWrite = [] := by
  induction ops generalizing rkey w with
  | nil => exact ⟨rfl, rfl, rfl, rfl, [], by simp [runOps], rfl⟩
  | cons op rest ih =>
    cases op with
    | openKey key =>
      obtain ⟨hk, hrest⟩ := hs
      have ho : (RegOpenKeyEx .HKCU key w).1 = 0 := by
        rw [RegOpenKeyEx_status_faultFree _ _ _ hf]; simp [hk]
      have he : _psOpenRegKey key rkey w = (true, ⟨.HKCU, key⟩, (RegOpenKeyEx .HKCU key w).2) := by
        rcases psOpenRegKey_cases key rkey w with ⟨_, he⟩ | ⟨h2, _⟩ | ⟨h2, _⟩ | ⟨h2, _⟩
        · exact he
        · rw [ho] at h2; cases h2
        · rw [ho] at h2; cases h2
        · exact absurd ho h2
      have hx : execOp (.openKey key) rkey w
          = ⟨true, ⟨.HKCU, key⟩, (RegOpenKeyEx .HKCU key w).2⟩ := by
        simp [execOp, he]
      obtain ⟨r1, r2, r3, r4, calls, r5, r6⟩ := ih ⟨.HKCU, key⟩ (RegOpenKeyEx .HKCU key w).2
        (by simp [hf]) (by simpa using hrest)
      simp only [runOps, hx, if_true]
      refine ⟨r1, by simpa using r2, by simpa using r3, by simpa using r4,
        .RegOpenKeyEx .HKCU key (RegOpenKeyEx .HKCU key w).1 :: calls, ?_, ?_⟩
      · rw [r5]; simp
      · simp [Call.isValueWrite, r6]
    | setValue value v =>
      obtain ⟨hh, hrest⟩ := hs
      obtain ⟨he, ht⟩ := psSetKeyValue_skip rkey value v w (nextFault_of_faults_nil hf) hh
      have hx : execOp (.setValue value v) rkey w
          = ⟨true, rkey, (RegQueryValueEx rkey value (bufSize * 2) w).2⟩ := by
        simp [execOp, he]
      obtain ⟨r1, r2, r3, r4, calls, r5, r6⟩ := ih rkey
        (RegQueryValueEx rkey value (bufSize * 2) w).2 (by simp [hf]) (by simpa using hrest)
      simp only [runOps, hx, if_true]
      refine ⟨r1, by simpa using r2, by simpa using r3, by simpa using r4,
        .RegQueryValueEx rkey value 0 :: calls, ?_, ?_⟩
      · rw [r5, ht]; simp
      · simp [Call.isValueWrite, r6]

/-! ## A completed run leaves the registry settled -/

theorem wcsOfBytes_bytesOfWcs (v : WStr) (rest : List Nat)
    (hv : ∀ c ∈ v, c ≠ 0 ∧ c < 65536) :
    wcsOfBytes (bytesOfWcs (v ++ [0]) ++ rest) = v := by
  induction v with
  | nil => simp [bytesOfWcs, wcsOfBytes]
  | cons c t ih =>
    obtain ⟨hc0, hc⟩ := hv c (List.mem_cons_self _ _)
    have ht : ∀ d ∈ t, d ≠ 0 ∧ d < 65536 := fun d hd => hv d (List.mem_cons_of_mem _ hd)
    have hval : c % 256 % 256 + 256 * (c / 256 % 256 % 256) = c := by omega
    simp only [List.cons_append, bytesOfWcs, wcsOfBytes, hval, hc0, if_false]
    exact congrArg (fun l => c :: l) (ih ht)

theorem bytesOfWcs_length (v : WStr) : (bytesOfWcs v).length = 2 * v.length := by
  induction v with
  | nil => rfl
  | cons c t ih => simp [bytesOfWcs, ih]; omega

theorem regularValue_stored {v : WStr} (hv : regularValue v) :
    (cstr v).take (WSPRINTF_LIMIT - 1) = v := by
  rw [cstr_eq_self v (fun c hc => (hv.1 c hc).1)]
  exact List.take_of_length_le hv.2

theorem queryValue_setKey_same (reg : Registry) (k : HKey) (vals : KeyValues)
    (n : Option String) (cb : Nat) :
    queryValue (reg.setKey k.hive k.path (some vals)) k n cb
      = match vals n with
        | none => ⟨ERROR_FILE_NOT_FOUND, 0, cb, []⟩
        | some v =>
          if cb < v.data.length then ⟨ERROR_MORE_DATA, v.type, v.data.length, []⟩
          else ⟨ERROR_SUCCESS, v.type, v.data.length, v.data⟩ := by
  simp [queryValue, Registry.setKey]

theorem queryValue_setKey_other (reg : Registry) (h : Hive) (p : String)
    (x : Option KeyValues) (k : HKey) (n : Option String) (cb : Nat)
    (hne : ¬ (k.hive = h ∧ k.path = p)) :
    queryValue (reg.setKey h p x) k n cb = queryValue reg k n cb := by
  simp [queryValue, Registry.setKey, hne]

/-- A value just written by `_psSetKeyValue` is held, when it is regular. -/
theorem holdsValue_written (reg : Registry) (k : HKey) (vals : KeyValues) (n : Option String)
    (v : WStr) (hv : regularValue v) :
    holdsValue
      (reg.setKey k.hive k.path
        (some (vals.setValue n ⟨REG_SZ, bytesOfWcs ((cstr v).take (WSPRINTF_LIMIT - 1) ++ [0])⟩)))
      k n v = true := by
  rw [regularValue_stored hv]
  unfold holdsValue
  rw [queryValue_setKey_same]
  have hlen : (bytesOfWcs (v ++ [0])).length = (v.length + 1) * 2 := by
    rw [bytesOfWcs_length]; simp; omega
  have hfit : ¬ bufSize * 2 < (bytesOfWcs (v ++ [0])).length := by
    rw [hlen]
    have := hv.2
    simp only [WSPRINTF_LIMIT, bufSize] at *
    omega
  simp only [KeyValues.setValue, if_true, hfit, if_false]
  unfold storedEquals fillBuffer
  simp only [wcsOfBytes_bytesOfWcs v _ hv.1, hlen, decide_True, Bool.and_self]

/-- Values of other names, and of other keys, are not touched by a write. -/
theorem holdsValue_setValue_other (reg : Registry) (k : HKey) (vals : KeyValues)
    (n : Option String) (x : RegValue) (k2 : HKey) (n2 : Option String) (v : WStr)
    (hk : reg k.hive k.path = some vals) (hne : (k2, n2) ≠ (k, n)) :
    holdsValue (reg.setKey k.hive k.path (some (vals.setValue n x))) k2 n2 v
      = holdsValue reg k2 n2 v := by
  unfold holdsValue
  by_cases hkk : k2 = k
  · subst hkk
    have hn : n2 ≠ n := fun h => hne (by rw [h])
    rw [queryValue_setKey_same]
    simp [queryValue, hk, KeyValues.setValue, hn]
  · have : ¬ (k2.hive = k.hive ∧ k2.path = k.path) := by
      intro h
      apply hkk
      cases k2; cases k
      simp_all
    rw [queryValue_setKey_other _ _ _ _ _ _ _ this]

theorem holdsValue_isSome {reg : Registry} {k : HKey} {n : Option String} {v : WStr}
    (h : holdsValue reg k n v = true) : (reg k.hive k.path).isSome = true := by
  have hst := storedEquals_status h
  unfold queryValue at hst
  cases hk : reg k.hive k.path with
  | none => simp [hk, ERROR_INVALID_HANDLE] at hst
  | some vals => rfl

theorem holdsValue_create (reg : Registry) (h : Hive) (p : String) (k : HKey)
    (n : Option String) (v : WStr) (hnone : reg h p = none)
    (hh : holdsValue reg k n v = true) :
    holdsValue (reg.setKey h p (some (fun _ => none))) k n v = true := by
  have hs := holdsValue_isSome hh
  have hne : ¬ (k.hive = h ∧ k.path = p) := by
    rintro ⟨rfl, rfl⟩
    rw [hnone] at hs
    cases hs
  unfold holdsValue at hh ⊢
  rw [queryValue_setKey_other _ _ _ _ _ _ _ hne]
  exact hh

/-- One successful line keeps every held value it does not target, and every
existing key. -/
theorem execOp_preserves (op : RegOp) (rkey : HKey) (w : World)
    (hok : (execOp op rkey w).ok = true) :
    (∀ k n v, holdsValue w.reg k n v = true → (k, n) ∉ targets [op] rkey →
        holdsValue (execOp op rkey w).world.reg k n v = true)
      ∧ (∀ h p, (w.reg h p).isSome = true → ((execOp op rkey w).world.reg h p).isSome = true) := by
  cases op with
  | openKey key =>
    obtain ⟨_, _, _, hs, _⟩ := psOpenRegKey_spec key rkey w
    obtain ⟨_, _, _, hreg⟩ := hs hok
    show (∀ k n v, _ → _ → holdsValue (_psOpenRegKey key rkey w).2.2.reg k n v = true)
      ∧ (∀ h p, _ → ((_psOpenRegKey key rkey w).2.2.reg h p).isSome = true)
    rcases hreg with hreg | ⟨hnone, hreg⟩
    · rw [hreg]
      exact ⟨fun _ _ _ h _ => h, fun _ _ h => h⟩
    · rw [hreg]
      refine ⟨fun k n v h _ => holdsValue_create _ _ _ _ _ _ hnone h, ?_⟩
      intro h p hsome
      simp only [Registry.setKey]
      split_ifs <;> simp [hsome]
  | setValue value x =>
    obtain ⟨_, _, _, hs, _⟩ := psSetKeyValue_spec rkey value x w
    obtain ⟨_, hreg⟩ := hs hok
    show (∀ k n v, _ → _ → holdsValue (_psSetKeyValue rkey value x w).2.reg k n v = true)
      ∧ (∀ h p, _ → ((_psSetKeyValue rkey value x w).2.reg h p).isSome = true)
    rcases hreg with ⟨hreg, _⟩ | ⟨vals, hk, hreg⟩
    · rw [hreg]
      exact ⟨fun _ _ _ h _ => h, fun _ _ h => h⟩
    · rw [hreg]
      refine ⟨?_, ?_⟩
      · intro k n v h hnot
        have hne : (k, n) ≠ (rkey, value) := by
          simpa [targets] using hnot
        rw [holdsValue_setValue_other _ _ _ _ _ _ _ _ hk hne]
        exact h
      · intro h p hsome
        simp only [Registry.setKey]
        split_ifs <;> simp [hsome]

/-- One successful line is settled right after it ran. -/
theorem execOp_settles (op : RegOp) (rkey : HKey) (w : World)
    (hok : (execOp op rkey w).ok = true) (hreg : regularOps [op]) :
    settled (execOp op rkey w).world.reg [op] rkey := by
  cases op with
  | openKey key =>
    obtain ⟨_, _, _, hs, _⟩ := psOpenRegKey_spec key rkey w
    exact ⟨(hs hok).2.2.1, trivial⟩
  | setValue value v =>
    obtain ⟨_, _, _, hs, _⟩ := psSetKeyValue_spec rkey value v w
    obtain ⟨_, hcase⟩ := hs hok
    refine ⟨?_, trivial⟩
    show holdsValue (_psSetKeyValue rkey value v w).2.reg rkey value v = true
    rcases hcase with ⟨he, hh⟩ | ⟨vals, _, he⟩
    · rw [he]; exact hh
    · rw [he]; exact holdsValue_written _ _ _ _ _ hreg.1

theorem execOp_rkey (op : RegOp) (rkey : HKey) (w : World)
    (hok : (execOp op rkey w).ok = true) :
    (execOp op rkey w).rkey = match op with
      | .openKey key => ⟨.HKCU, key⟩
      | .setValue _ _ => rkey := by
  cases op with
  | openKey key =>
    obtain ⟨_, _, _, hs, _⟩ := psOpenRegKey_spec key rkey w
    exact (hs hok).1
  | setValue value v => rfl

/-- A completed run keeps every held value it does not target. -/
theorem runOps_preserves (ops : List RegOp) (rkey : HKey) (w : World)
    (hok : (runOps ops rkey w).ok = true) :
    (∀ k n v, holdsValue w.reg k n v = true → (k, n) ∉ targets ops rkey →
        holdsValue (runOps ops rkey w).world.reg k n v = true)
      ∧ (∀ h p, (w.reg h p).isSome = true →
          ((runOps ops rkey w).world.reg h p).isSome = true) := by
  induction ops generalizing rkey w with
  | nil => exact ⟨fun _ _ _ h _ => h, fun _ _ h => h⟩
  | cons op rest ih =>
    simp only [runOps] at hok ⊢
    by_cases hx : (execOp op rkey w).ok = true
    · simp only [hx, if_true] at hok ⊢
      obtain ⟨p1, p2⟩ := execOp_preserves op rkey w hx
      obtain ⟨q1, q2⟩ := ih _ _ hok
      have hk := execOp_rkey op rkey w hx
      refine ⟨?_, fun h p hs => q2 h p (p2 h p hs)⟩
      intro k n v hh hnot
      apply q1 k n v
      · apply p1 k n v hh
        cases op with
        | openKey key => simp [targets]
        | setValue value x =>
          simp only [targets, List.mem_cons, not_or] at hnot
          simpa [targets] using hnot.1
      · cases op with
        | openKey key =>
          rw [hk]
          simpa [targets] using hnot
        | setValue value x =>
          rw [hk]
          simp only [targets, List.mem_cons, not_or] at hnot
          exact hnot.2
    · simp only [hx] at hok
      simp at hok
      exact absurd hok hx

/-- A completed run over regular values with distinct targets leaves the
registry settled for its lines. -/
theorem runOps_settles (ops : List RegOp) (rkey : HKey) (w : World)
    (hreg : regularOps ops) (hd : distinctTargets ops rkey)
    (hok : (runOps ops rkey w).ok = true) :
    settled (runOps ops rkey w).world.reg ops rkey := by
  induction ops generalizing rkey w with
  | nil => trivial
  | cons op rest ih =>
    simp only [runOps] at hok ⊢
    by_cases hx : (execOp op rkey w).ok = true
    · simp only [hx, if_true] at hok ⊢
      have hk := execOp_rkey op rkey w hx
      obtain ⟨q1, q2⟩ := runOps_preserves rest _ _ hok
      cases op with
      | openKey key =>
        have h1 := execOp_settles (.openKey key) rkey w hx trivial
        rw [hk] at hok q1 q2 ⊢
        exact ⟨q2 _ _ h1.1, ih _ _ hreg hd hok⟩
      | setValue value v =>
        have h1 := execOp_settles (.setValue value v) rkey w hx ⟨hreg.1, trivial⟩
        rw [hk] at hok q1 q2 ⊢
        exact ⟨q1 _ _ _ h1.1 hd.1, ih _ _ hreg.2 hd.2 hok⟩
    · simp only [hx] at hok
      simp at hok
      exact absurd hok hx

/-! ## The lines of RegisterCustomScheme -/

theorem schemeOps_distinctTargets (cfg : Config) (rkey0 : HKey) :
    distinctTargets (schemeOps cfg) rkey0 := by
  simp [schemeOps, distinctTargets, targets]

theorem toNativeSeparators_units (s : WStr) (hs : ∀ c ∈ s, c ≠ 0 ∧ c < 65536) :
    ∀ c ∈ toNativeSeparators s, c ≠ 0 ∧ c < 65536 := by
  intro c hc
  simp only [toNativeSeparators, List.mem_map] at hc
  obtain ⟨a, ha, rfl⟩ := hc
  have := hs a ha
  split_ifs <;> omega

theorem toNativeSeparators_length (s : WStr) : (toNativeSeparators s).length = s.length := by
  simp [toNativeSeparators]

theorem exe_units (cfg : Config) (hwf : cfg.WellFormed) :
    ∀ c ∈ toNativeSeparators (cfg.cExeDir ++ cfg.cExeName), c ≠ 0 ∧ c < 65536 := by
  apply toNativeSeparators_units
  intro c hc
  rcases List.mem_append.mp hc with h | h
  · exact hwf.1 c h
  · exact hwf.2.1 c h

theorem openCommand_regular (cfg : Config) (hwf : cfg.WellFormed)
    (hlen : (openCommand cfg).length ≤ WSPRINTF_LIMIT - 1) : regularValue (openCommand cfg) := by
  refine ⟨?_, hlen⟩
  intro c hc
  simp only [openCommand, List.mem_cons, List.mem_append] at hc
  rcases hc with (((rfl | h) | h) | h) | h
  · decide
  · exact exe_units cfg hwf c h
  · revert c; decide
  · exact hwf.2.2 c h
  · revert c; decide

theorem defaultIcon_regular (cfg : Config) (hwf : cfg.WellFormed)
    (hlen : (openCommand cfg).length ≤ WSPRINTF_LIMIT - 1) : regularValue (defaultIcon cfg) := by
  constructor
  · intro c hc
    simp only [defaultIcon, List.mem_cons, List.mem_append] at hc
    rcases hc with (rfl | h) | h
    · decide
    · exact exe_units cfg hwf c h
    · revert c; decide
  · have h1 : (openCommand cfg).length
        = (toNativeSeparators (cfg.cExeDir ++ cfg.cExeName)).length + cfg.cWorkingDir.length
          + 22 := by
      simp [openCommand, qsl]; omega
    have h2 : (defaultIcon cfg).length
        = (toNativeSeparators (cfg.cExeDir ++ cfg.cExeName)).length + 4 := by
      simp [defaultIcon, qsl]
    omega

theorem schemeOps_regular (cfg : Config) (hwf : cfg.WellFormed)
    (hlen : (openCommand cfg).length ≤ WSPRINTF_LIMIT - 1) : regularOps (schemeOps cfg) := by
  have hc := openCommand_regular cfg hwf hlen
  have hi := defaultIcon_regular cfg hwf hlen
  have lit : ∀ s : WStr, (∀ c ∈ s, c ≠ 0 ∧ c < 65536) → s.length ≤ 1023 → regularValue s :=
    fun s h1 h2 => ⟨h1, h2⟩
  simp only [schemeOps, regularOps, and_true, true_and]
  refine ⟨lit _ (by decide) (by decide), lit _ (by decide) (by decide), hi, hc, hi, hc,
    lit _ (by decide) (by decide), lit _ (by decide) (by decide), lit _ (by decide) (by decide),
    lit _ (by decide) (by decide)⟩

theorem RegisterCustomScheme_eq_runOps (cfg : Config) (rkey0 : HKey) (w : World)
    (hexe : cfg.cExeName ≠ []) :
    RegisterCustomScheme cfg rkey0 w = runOps (schemeOps cfg) rkey0 w := by
  unfold RegisterCustomScheme
  rw [isEmpty_eq_false_of_ne_nil hexe]
  simp

/-- After a completed run the registry holds every value of the list, provided
the configuration is well formed and the open command has at most 1023
characters. -/
theorem RegisterCustomScheme_settles (cfg : Config) (rkey0 : HKey) (w : World)
    (hexe : cfg.cExeName ≠ []) (hwf : cfg.WellFormed)
    (hlen : (openCommand cfg).length ≤ WSPRINTF_LIMIT - 1)
    (hok : (RegisterCustomScheme cfg rkey0 w).ok = true) :
    settled (RegisterCustomScheme cfg rkey0 w).world.reg (schemeOps cfg) rkey0 := by
  rw [RegisterCustomScheme_eq_runOps cfg rkey0 w hexe] at hok ⊢
  exact runOps_settles _ _ _ (schemeOps_regular cfg hwf hlen) (schemeOps_distinctTargets cfg rkey0)
    hok

/-- Idempotence for values within the output limit of the formatting step: after
a completed call, a second call without injected failure completes, writes no
value and leaves the registry unchanged. -/
theorem RegisterCustomScheme_idempotent_bounded (cfg : Config) (rkey0 rkey1 : HKey) (w : World)
    (hexe : cfg.cExeName ≠ []) (hwf : cfg.WellFormed)
    (hlen : (openCommand cfg).length ≤ WSPRINTF_LIMIT - 1)
    (hok : (RegisterCustomScheme cfg rkey0 w).ok = true) :
    (RegisterCustomScheme cfg rkey1 (RegisterCustomScheme cfg rkey0 w).world.withoutFaults).ok
        = true
      ∧ (RegisterCustomScheme cfg rkey1
          (RegisterCustomScheme cfg rkey0 w).world.withoutFaults).world.reg
        = (RegisterCustomScheme cfg rkey0 w).world.reg
      ∧ ((RegisterCustomScheme cfg rkey0 w).world.withoutFaults.callsSince
          (RegisterCustomScheme cfg rkey1
            (RegisterCustomScheme cfg rkey0 w).world.withoutFaults).world).filter
              Call.isValueWrite = [] := by
  have hs := RegisterCustomScheme_settles cfg rkey0 w hexe hwf hlen hok
  have hs1 : settled (RegisterCustomScheme cfg rkey0 w).world.withoutFaults.reg (schemeOps cfg)
      rkey1 := hs
  obtain ⟨r1, r2, _, _, calls, r5, r6⟩ := runOps_settled (schemeOps cfg) rkey1
    (RegisterCustomScheme cfg rkey0 w).world.withoutFaults rfl hs1
  rw [RegisterCustomScheme_eq_runOps cfg rkey1 _ hexe]
  refine ⟨r1, r2, ?_⟩
  rw [callsSince_of_trace r5]
  exact r6

/-- The open command held after a completed run, for values within the output
limit of the formatting step. -/
theorem RegisterCustomScheme_openCommand_bounded (cfg : Config) (rkey0 : HKey) (w : World)
    (hexe : cfg.cExeName ≠ []) (hwf : cfg.WellFormed)
    (hlen : (openCommand cfg).length ≤ WSPRINTF_LIMIT - 1)
    (hok : (RegisterCustomScheme cfg rkey0 w).ok = true) :
    holdsValue (RegisterCustomScheme cfg rkey0 w).world.reg
        ⟨.HKCU, "Software\\Classes\\tg\\shell\\open\\command"⟩ none (openCommand cfg) = true
      ∧ holdsValue (RegisterCustomScheme cfg rkey0 w).world.reg
        ⟨.HKCU, "Software\\Classes\\tdesktop.tg\\shell\\open\\command"⟩ none (openCommand cfg)
          = true := by
  have hs := RegisterCustomScheme_settles cfg rkey0 w hexe hwf hlen hok
  simp only [schemeOps, settled] at hs
  exact ⟨hs.2.2.2.2.2.2.2.2.1, hs.2.2.2.2.2.2.2.2.2.2.2.2.2.2.2.1⟩

/-- Claim C1 at a failing input: with a working directory of 1100 characters and
an empty registry the first call of `RegisterCustomScheme` completes with every
line succeeding, and a second call made right after it, without any injected
failure, completes as well but issues two `RegSetValueEx`: the two open
commands, which the formatting step stored cut to 1023 characters, are written
again on every call. -/
theorem RegisterCustomScheme_long_rewrites :
    (RegisterCustomScheme longConfig sampleKey (emptyWorld [])).ok = true
      ∧ (RegisterCustomScheme longConfig sampleKey
          (RegisterCustomScheme longConfig sampleKey (emptyWorld [])).world).ok = true
      ∧ (((RegisterCustomScheme longConfig sampleKey (emptyWorld [])).world.callsSince
          (RegisterCustomScheme longConfig sampleKey
            (RegisterCustomScheme longConfig sampleKey (emptyWorld [])).world).world).filter
              Call.isValueWrite).length = 2 := by
  decide!

/-- Claim C3 at a failing input: with a working directory of 1100 characters the
open command has 1151 characters, and after a call of `RegisterCustomScheme`
in which every line succeeds the default value of both `shell\open\command`
keys is a `REG_SZ` string that holds only its first 1023 characters. -/
theorem RegisterCustomScheme_long_truncates :
    (RegisterCustomScheme longConfig sampleKey (emptyWorld [])).ok = true
      ∧ (openCommand longConfig).length = 1151
      ∧ (queryValue (RegisterCustomScheme longConfig sampleKey (emptyWorld [])).world.reg
          ⟨.HKCU, "Software\\Classes\\tg\\shell\\open\\command"⟩ none (bufSize * 2)).type = REG_SZ
      ∧ wcsOfBytes (queryValue (RegisterCustomScheme longConfig sampleKey (emptyWorld [])).world.reg
          ⟨.HKCU, "Software\\Classes\\tg\\shell\\open\\command"⟩ none (bufSize * 2)).data
        = (openCommand longConfig).take 1023
      ∧ wcsOfBytes (queryValue (RegisterCustomScheme longConfig sampleKey (emptyWorld [])).world.reg
          ⟨.HKCU, "Software\\Classes\\tdesktop.tg\\shell\\open\\command"⟩ none
            (bufSize * 2)).data
        = (openCommand longConfig).take 1023 := by
  decide!

/-! ## The cache of psDesktopRect -/

/-- A sum within the signed 64-bit range is what the register holds. -/
theorem wrapInt64_of_range (x : Int) (hlo : INT64_MIN ≤ x) (hhi : x ≤ INT64_MAX) :
    wrapInt64 x = x := by
  unfold wrapInt64
  unfold INT64_MIN at hlo
  unfold INT64_MAX at hhi
  rw [Int.emod_eq_of_lt (by omega) (by omega)]
  omega

/-- A query of the window system starts with `MonitorFromWindow`. -/
theorem queryMonitor_calls_head (s : Screen) (rcWork0 : RECT) :
    (queryMonitor s rcWork0).2.head? = some MonitorCall.MonitorFromWindow := by
  unfold queryMonitor
  cases s.monitorFromWindow <;> rfl

/-- A query of the window system makes two calls. -/
theorem queryMonitor_calls_length (s : Screen) (rcWork0 : RECT) :
    (queryMonitor s rcWork0).2.length = 2 := by
  unfold queryMonitor
  cases s.monitorFromWindow <;> rfl

/-- A query of the window system makes a call. -/
theorem queryMonitor_calls_ne_nil (s : Screen) (rcWork0 : RECT) :
    (queryMonitor s rcWork0).2 ≠ [] := by
  intro h
  have hl := queryMonitor_calls_length s rcWork0
  rw [h] at hl
  exact absurd hl (by decide)

/-- The refresh branch of `psDesktopRect`, for the condition as the machine
evaluates it. -/
theorem psDesktopRect_refresh (s : Screen) (rcWork0 : RECT) (tnow : Int)
    (st : MonitorCache)
    (h : tnow > wrapInt64 (st._monitorLastGot + 1000) ∨ tnow < st._monitorLastGot) :
    psDesktopRect s rcWork0 tnow st
      = ⟨(queryMonitor s rcWork0).1, ⟨(queryMonitor s rcWork0).1, tnow⟩,
          (queryMonitor s rcWork0).2⟩ := by
  unfold psDesktopRect
  rw [if_pos h]

/-- The cached branch of `psDesktopRect`, for the condition as the machine
evaluates it. -/
theorem psDesktopRect_cached (s : Screen) (rcWork0 : RECT) (tnow : Int)
    (st : MonitorCache)
    (h : ¬ (tnow > wrapInt64 (st._monitorLastGot + 1000) ∨ tnow < st._monitorLastGot)) :
    psDesktopRect s rcWork0 tnow st = ⟨st._monitorRect, st, []⟩ := by
  unfold psDesktopRect
  rw [if_neg h]

/-- Claim C11: the refresh rule of the monitor-rectangle cache, for the values
a timestamp and a clock reading take: a reading of `crl::now()` is a signed
64-bit count of milliseconds since the program started, not negative and far
from the end of the 64-bit range, and the cached timestamp is `0` or such a
reading.  Let the cached timestamp `lastGot` be a signed 64-bit value for
which `lastGot + 1000` is representable.  Then `psDesktopRect` at time
`tnow` queries the window system and sets `lastGot := tnow` if and only if
`tnow > lastGot + 1000` or `tnow < lastGot`; in that case it returns and caches
the rectangle of the query, and otherwise it returns the cached rectangle, makes
no call and leaves rectangle and timestamp unchanged.  After a call at `tnow`
that refreshed, a call at a time `t2` with `tnow ≤ t2 ≤ tnow + 1000` (the sum
representable) returns the same rectangle whatever the window system reports
then.  A first call at a time `0 ≤ t0 ≤ 1000` returns the default rectangle
without a call to the window system.  The range of the timestamp is kept:
from a timestamp that is not negative, a call at a reading `tnow ≥ 0` with
`tnow + 1000` representable leaves such a timestamp, so every state reached
from the initial one under such readings meets the conditions above. -/
theorem psDesktopRect_cache_rule (s : Screen) (rcWork0 : RECT) (tnow : Int)
    (st : MonitorCache)
    (hlo : INT64_MIN ≤ st._monitorLastGot) (hhi : st._monitorLastGot + 1000 ≤ INT64_MAX)
    (htnow : INT64_MIN ≤ tnow) :
    (((psDesktopRect s rcWork0 tnow st).calls ≠ []
          ∧ (psDesktopRect s rcWork0 tnow st).cache._monitorLastGot = tnow)
        ↔ (tnow > st._monitorLastGot + 1000 ∨ tnow < st._monitorLastGot))
      ∧ ((tnow > st._monitorLastGot + 1000 ∨ tnow < st._monitorLastGot) →
          (psDesktopRect s rcWork0 tnow st).calls = (queryMonitor s rcWork0).2
            ∧ (psDesktopRect s rcWork0 tnow st).calls.head?
              = some MonitorCall.MonitorFromWindow
            ∧ (psDesktopRect s rcWork0 tnow st).rect = (queryMonitor s rcWork0).1
            ∧ (psDesktopRect s rcWork0 tnow st).cache
              = ⟨(queryMonitor s rcWork0).1, tnow⟩)
      ∧ (¬ (tnow > st._monitorLastGot + 1000 ∨ tnow < st._monitorLastGot) →
          psDesktopRect s rcWork0 tnow st = ⟨st._monitorRect, st, []⟩)
      ∧ (∀ (s2 : Screen) (rcWork2 : RECT) (t2 : Int),
          (tnow > st._monitorLastGot + 1000 ∨ tnow < st._monitorLastGot) →
          tnow ≤ t2 → t2 ≤ tnow + 1000 → tnow + 1000 ≤ INT64_MAX →
          psDesktopRect s2 rcWork2 t2 (psDesktopRect s rcWork0 tnow st).cache
            = ⟨(psDesktopRect s rcWork0 tnow st).rect,
                (psDesktopRect s rcWork0 tnow st).cache, []⟩)
      ∧ (∀ t0 : Int, 0 ≤ t0 → t0 ≤ 1000 →
          psDesktopRect s rcWork0 t0 MonitorCache.initial
            = ⟨QRect.null, MonitorCache.initial, []⟩)
      ∧ (0 ≤ st._monitorLastGot → 0 ≤ tnow → tnow + 1000 ≤ INT64_MAX →
          0 ≤ (psDesktopRect s rcWork0 tnow st).cache._monitorLastGot
            ∧ (psDesktopRect s rcWork0 tnow st).cache._monitorLastGot + 1000 ≤ INT64_MAX) := by
  have hw : wrapInt64 (st._monitorLastGot + 1000) = st._monitorLastGot + 1000 :=
    wrapInt64_of_range _ (by omega) hhi
  have hyes : (tnow > st._monitorLastGot + 1000 ∨ tnow < st._monitorLastGot) →
      psDesktopRect s rcWork0 tnow st
        = ⟨(queryMonitor s rcWork0).1, ⟨(queryMonitor s rcWork0).1, tnow⟩,
            (queryMonitor s rcWork0).2⟩ := by
    intro h
    exact psDesktopRect_refresh s rcWork0 tnow st (by rw [hw]; exact h)
  have hno : ¬ (tnow > st._monitorLastGot + 1000 ∨ tnow < st._monitorLastGot) →
      psDesktopRect s rcWork0 tnow st = ⟨st._monitorRect, st, []⟩ := by
    intro h
    exact psDesktopRect_cached s rcWork0 tnow st (by rw [hw]; exact h)
  refine ⟨⟨?_, ?_⟩, ?_, hno, ?_, ?_, ?_⟩
  · rintro ⟨hc, -⟩
    by_contra hcond
    rw [hno hcond] at hc
    exact hc rfl
  · intro hcond
    rw [hyes hcond]
    exact ⟨queryMonitor_calls_ne_nil s rcWork0, rfl⟩
  · intro hcond
    rw [hyes hcond]
    exact ⟨rfl, queryMonitor_calls_head s rcWork0, rfl, rfl⟩
  · intro s2 rcWork2 t2 hcond h12 h21 hsum
    rw [hyes hcond]
    apply psDesktopRect_cached
    have hw2 : wrapInt64 (tnow + 1000) = tnow + 1000 :=
      wrapInt64_of_range _ (by omega) hsum
    show ¬ (t2 > wrapInt64 (tnow + 1000) ∨ t2 < tnow)
    rw [hw2]
    omega
  · intro t0 h0 h1
    apply psDesktopRect_cached
    show ¬ (t0 > wrapInt64 (0 + 1000) ∨ t0 < 0)
    have hw0 : wrapInt64 (0 + 1000) = 1000 := by decide
    rw [hw0]
    omega
  · intro hs0 ht0 htmax
    by_cases hcond : tnow > st._monitorLastGot + 1000 ∨ tnow < st._monitorLastGot
    · rw [hyes hcond]
      exact ⟨ht0, htmax⟩
    · rw [hno hcond]
      exact ⟨hs0, hhi⟩

/-! ## Instances -/

/-- Instance of the fail-fast theorem: on an empty registry the write of `URL Protocol` is
made to fail with status 5; the first line succeeded, the second fails. -/
theorem RegisterCustomScheme_fail_fast_witness :
    sampleConfig.cExeName ≠ []
      ∧ (runOps ((schemeOps sampleConfig).take 1) sampleKey (emptyWorld [0, 0, 0, 5])).ok = true
      ∧ (runOps ((schemeOps sampleConfig).take (1 + 1)) sampleKey
          (emptyWorld [0, 0, 0, 5])).ok = false
      ∧ RegisterCustomScheme sampleConfig sampleKey (emptyWorld [0, 0, 0, 5])
        = runOps ((schemeOps sampleConfig).take (1 + 1)) sampleKey (emptyWorld [0, 0, 0, 5])
      ∧ (RegisterCustomScheme sampleConfig sampleKey (emptyWorld [0, 0, 0, 5])).ok = false :=
  ⟨by decide, by decide, by decide,
    (RegisterCustomScheme_fail_fast sampleConfig sampleKey (emptyWorld [0, 0, 0, 5]) 1
      (by decide) (by decide) (by decide)).1,
    (RegisterCustomScheme_fail_fast sampleConfig sampleKey (emptyWorld [0, 0, 0, 5]) 1
      (by decide) (by decide) (by decide)).2.1⟩

/-- With an empty executable name `psAutoStart(true, false)` issues no call and
no link file exists afterwards.  With the sample configuration, when the
creation of the shell-link object fails, no link file exists afterwards
either. -/
theorem manageAppLnk_create_counterexample :
    ((psAutoStart noNameConfig true false (emptyWorld [])).files
        (cstr (lnkPath noNameConfig ((emptyWorld []).folders CSIDL_STARTUP))) = none
      ∧ (psAutoStart noNameConfig true false (emptyWorld [])).trace = [])
    ∧ (sampleConfig.cExeName ≠ []
      ∧ Call.CoCreateInstance (-3) ∈ (psAutoStart sampleConfig true false (emptyWorld [0, 3])).trace
      ∧ (psAutoStart sampleConfig true false (emptyWorld [0, 3])).files
          (cstr (lnkPath sampleConfig ((emptyWorld [0, 3]).folders CSIDL_STARTUP))) = none) := by
  decide

/-- Instance of the link-creation theorem: the sample configuration in a world
without injected failure, and the configuration without executable name. -/
theorem manageAppLnk_create_witness :
    (sampleConfig.cExeName ≠ [] ∧ (emptyWorld []).faults = []
        ∧ (_manageAppLnk sampleConfig true false CSIDL_STARTUP (qsl "-autostart")
            (qsl "autorun") (emptyWorld [])).log = (emptyWorld []).log)
      ∧ (noNameConfig.cExeName = []
        ∧ _manageAppLnk noNameConfig true true CSIDL_STARTUP (qsl "-autostart")
            (qsl "autorun") (emptyWorld [3]) = emptyWorld [3]) :=
  ⟨⟨by decide, rfl,
      ((manageAppLnk_create sampleConfig false CSIDL_STARTUP (qsl "-autostart") (qsl "autorun")
        (emptyWorld [])).2 (by decide) rfl).2.1⟩,
    ⟨rfl,
      (manageAppLnk_create noNameConfig true CSIDL_STARTUP (qsl "-autostart") (qsl "autorun")
        (emptyWorld [3])).1 rfl⟩⟩

/-- With an empty executable name `psAutoStart(false, false)` leaves an existing
autostart link in place.  With the sample configuration, when `QFile::remove`
fails the link stays as well; and when the folder cannot be resolved, a line is
logged although no link file exists. -/
theorem manageAppLnk_remove_counterexample :
    ((linkWorld.files (lnkPath noNameConfig (linkWorld.folders CSIDL_STARTUP))).isSome = true
      ∧ ((psAutoStart noNameConfig false false linkWorld).files
          (lnkPath noNameConfig (linkWorld.folders CSIDL_STARTUP))).isSome = true)
    ∧ (sampleConfig.cExeName ≠ []
      ∧ Call.QFileRemove (lnkPath sampleConfig (linkWorld.folders CSIDL_STARTUP)) false
        ∈ (psAutoStart sampleConfig false false (linkWorldWith [0, 4])).trace
      ∧ ((psAutoStart sampleConfig false false (linkWorldWith [0, 4])).files
          (lnkPath sampleConfig (linkWorld.folders CSIDL_STARTUP))).isSome = true)
    ∧ ((emptyWorld [4]).files (lnkPath sampleConfig ((emptyWorld [4]).folders CSIDL_STARTUP))
        = none
      ∧ (psAutoStart sampleConfig false false (emptyWorld [4])).log
        = [⟨"App Error: could not get CSIDL 7 folder %2", -4⟩]) := by
  decide

/-- Instance of the link-removal theorem: the sample configuration in a world
with the link and without injected failure, and the configuration without
executable name. -/
theorem manageAppLnk_remove_witness :
    (sampleConfig.cExeName ≠ [] ∧ linkWorld.faults = []
        ∧ (_manageAppLnk sampleConfig false false CSIDL_STARTUP (qsl "-autostart")
            (qsl "autorun") linkWorld).files
              (lnkPath sampleConfig (linkWorld.folders CSIDL_STARTUP)) = none)
      ∧ (noNameConfig.cExeName = []
        ∧ _manageAppLnk noNameConfig false true CSIDL_STARTUP (qsl "-autostart")
            (qsl "autorun") linkWorld = linkWorld) :=
  ⟨⟨by decide, rfl,
      ((manageAppLnk_remove sampleConfig false CSIDL_STARTUP (qsl "-autostart") (qsl "autorun")
        linkWorld).2 (by decide) rfl).1⟩,
    ⟨rfl,
      (manageAppLnk_remove noNameConfig true CSIDL_STARTUP (qsl "-autostart") (qsl "autorun")
        linkWorld).1 rfl⟩⟩

/-- When the query for the property store fails, `psAutoStart(true, false)` logs
nothing, goes on to `Save`, and the link file is written.  When `Save` fails,
`psAutoStart(true, false)` logs nothing. -/
theorem manageAppLnk_create_stages_counterexample :
    (Call.QueryPropertyStore (-7)
        ∈ (psAutoStart sampleConfig true false (emptyWorld [0, 0, 0, 0, 0, 0, 7])).trace
      ∧ (psAutoStart sampleConfig true false (emptyWorld [0, 0, 0, 0, 0, 0, 7])).log = []
      ∧ Call.Save (cstr (lnkPath sampleConfig (sampleFolders CSIDL_STARTUP))) 0
        ∈ (psAutoStart sampleConfig true false (emptyWorld [0, 0, 0, 0, 0, 0, 7])).trace
      ∧ ((psAutoStart sampleConfig true false (emptyWorld [0, 0, 0, 0, 0, 0, 7])).files
          (cstr (lnkPath sampleConfig (sampleFolders CSIDL_STARTUP)))).isSome = true)
    ∧ (Call.Save (cstr (lnkPath sampleConfig (sampleFolders CSIDL_STARTUP))) (-9)
        ∈ (psAutoStart sampleConfig true false
            (emptyWorld [0, 0, 0, 0, 0, 0, 0, 0, 0, 0, 0, 9])).trace
      ∧ (psAutoStart sampleConfig true false
          (emptyWorld [0, 0, 0, 0, 0, 0, 0, 0, 0, 0, 0, 9])).log = []
      ∧ (psAutoStart sampleConfig true false
          (emptyWorld [0, 0, 0, 0, 0, 0, 0, 0, 0, 0, 0, 9])).files
            (cstr (lnkPath sampleConfig (sampleFolders CSIDL_STARTUP))) = none) := by
  decide

/-- Instance of the stage theorem: the creation of the shell-link object fails. -/
theorem manageAppLnk_create_stages_witness :
    sampleConfig.cExeName ≠ []
      ∧ (_manageAppLnk sampleConfig true false CSIDL_STARTUP (qsl "-autostart") (qsl "autorun")
          (emptyWorld [0, 3])).log
        = (emptyWorld [0, 3]).log ++ (if false = true then []
            else (manageAppLnkCalls sampleConfig true false CSIDL_STARTUP (qsl "-autostart")
              (qsl "autorun") (emptyWorld [0, 3])).filterMap Call.lnkLogLine) :=
  ⟨by decide,
    (manageAppLnk_create_stages sampleConfig false CSIDL_STARTUP (qsl "-autostart")
      (qsl "autorun") (emptyWorld [0, 3]) (by decide)).2.1⟩

/-- A consent record of type `REG_BINARY` whose bytes spell `Deny` is read
successfully and the status is `Denied`. -/
theorem GetPermissionStatus_microphone_counterexample :
    (queryValue binaryDenyWorld.reg ⟨.HKCU, consentKey⟩ (some "Value") 40).status = ERROR_SUCCESS
      ∧ (queryValue binaryDenyWorld.reg ⟨.HKCU, consentKey⟩ (some "Value") 40).type = REG_BINARY
      ∧ REG_BINARY ≠ REG_SZ
      ∧ (GetPermissionStatus .Microphone (List.replicate 40 0) binaryDenyWorld).1
        = PermissionStatus.Denied := by
  decide

/-- Instance of the default-granted theorem for another permission type. -/
theorem GetPermissionStatus_other_witness :
    PermissionType.Other 1 ≠ PermissionType.Microphone
      ∧ GetPermissionStatus (.Other 1) (List.replicate 40 0) legacyWorld
        = (PermissionStatus.Granted, legacyWorld) :=
  ⟨by decide,
    (GetPermissionStatus_other (.Other 1) (List.replicate 40 0) legacyWorld (by decide)).1⟩

/-- Instance of the clean-system theorem: an empty registry and file system,
the first API call being made to fail. -/
theorem psFixPrevious_clean_witness :
    uninstallRecord (emptyWorld [5]).reg .HKLM (oldKeyStr1 sampleConfig) = false
      ∧ uninstallRecord (emptyWorld [5]).reg .HKLM (oldKeyStr2 sampleConfig) = false
      ∧ ¬ (((emptyWorld [5]).files
            (desktopShortcut (emptyWorld [5]) CSIDL_DESKTOPDIRECTORY)).isSome = true
          ∧ ((emptyWorld [5]).files
            (desktopShortcut (emptyWorld [5]) CSIDL_COMMON_DESKTOPDIRECTORY)).isSome = true)
      ∧ (psFixPrevious sampleConfig (emptyWorld [5])).1 = 0
      ∧ (psFixPrevious sampleConfig (emptyWorld [5])).2.reg = (emptyWorld [5]).reg :=
  ⟨by decide, by decide, by decide,
    (psFixPrevious_clean sampleConfig (emptyWorld [5]) (by decide) (by decide) (by decide)).1,
    (psFixPrevious_clean sampleConfig (emptyWorld [5]) (by decide) (by decide)
      (by decide)).2.1⟩

/-- Instance of the deletion-set theorem for the world an old installer left. -/
theorem psDoFixPrevious_deletions_witness :
    legacyWorld.faults = []
      ∧ (psDoFixPrevious sampleConfig legacyWorld).files = (fun n =>
        if ((legacyWorld.files (desktopShortcut legacyWorld CSIDL_DESKTOPDIRECTORY)).isSome
              && (legacyWorld.files
                (desktopShortcut legacyWorld CSIDL_COMMON_DESKTOPDIRECTORY)).isSome
              && decide (desktopShortcut legacyWorld CSIDL_DESKTOPDIRECTORY
                  ≠ desktopShortcut legacyWorld CSIDL_COMMON_DESKTOPDIRECTORY)) = true
            ∧ n = desktopShortcut legacyWorld CSIDL_COMMON_DESKTOPDIRECTORY
        then none else legacyWorld.files n) :=
  ⟨rfl, ((psDoFixPrevious_deletions sampleConfig legacyWorld).2.2.2.2.2 rfl).2.2⟩

/-- In the world an old installer left, the first old record and the second
per-user record exist.  When `RegDeleteKey` is refused with status 5 the
deletion is attempted and the old record is still there afterwards.  When the
open of the second per-user key is made to fail, no `RegDeleteKey` is
issued. -/
theorem psDoFixPrevious_deletions_counterexample :
    (uninstallRecord legacyWorld.reg .HKLM (oldKeyStr1 sampleConfig) = true
      ∧ uninstallRecord legacyWorld.reg .HKCU (newKeyStr2 sampleConfig) = true)
    ∧ (Call.RegDeleteKey .HKLM (oldKeyStr1 sampleConfig) 5
        ∈ (psDoFixPrevious sampleConfig (legacyWorldWith [0, 0, 0, 0, 0, 0, 5])).trace
      ∧ uninstallRecord (psDoFixPrevious sampleConfig
          (legacyWorldWith [0, 0, 0, 0, 0, 0, 5])).reg .HKLM (oldKeyStr1 sampleConfig) = true)
    ∧ ((psDoFixPrevious sampleConfig (legacyWorldWith [0, 5])).trace.filter Call.isDeletion
        = [Call.QFileRemove (qsl "C:\\Users\\Public\\Desktop\\Telegram.lnk") true]
      ∧ uninstallRecord (psDoFixPrevious sampleConfig (legacyWorldWith [0, 5])).reg .HKLM
          (oldKeyStr1 sampleConfig) = true) := by
  decide

/-- Instance of the cache rule: the timestamp 5000 is cached, a call at 7000
refreshes from the moved task bar, and a call at 7500 returns the same rectangle
although the task bar is back. -/
theorem psDesktopRect_cache_rule_witness :
    INT64_MIN ≤ (5000 : Int) ∧ (5000 : Int) + 1000 ≤ INT64_MAX ∧ INT64_MIN ≤ (7000 : Int)
      ∧ (psDesktopRect movedScreen sampleRcWork 7000 ⟨⟨0, 0, 1920, 1040⟩, 5000⟩).cache
        = ⟨(queryMonitor movedScreen sampleRcWork).1, 7000⟩
      ∧ psDesktopRect sampleScreen sampleRcWork 7500
          (psDesktopRect movedScreen sampleRcWork 7000 ⟨⟨0, 0, 1920, 1040⟩, 5000⟩).cache
        = ⟨(psDesktopRect movedScreen sampleRcWork 7000 ⟨⟨0, 0, 1920, 1040⟩, 5000⟩).rect,
            (psDesktopRect movedScreen sampleRcWork 7000 ⟨⟨0, 0, 1920, 1040⟩, 5000⟩).cache,
            []⟩ :=
  ⟨by decide, by decide, by decide,
    ((psDesktopRect_cache_rule movedScreen sampleRcWork 7000 ⟨⟨0, 0, 1920, 1040⟩, 5000⟩
      (by decide) (by decide) (by decide)).2.1 (by decide)).2.2.2,
    (psDesktopRect_cache_rule movedScreen sampleRcWork 7000 ⟨⟨0, 0, 1920, 1040⟩, 5000⟩
      (by decide) (by decide) (by decide)).2.2.2.1 sampleScreen sampleRcWork 7500
      (by decide) (by decide) (by decide) (by decide)⟩

end SpecificWin
